import Mathlib

/-!
# mDNSNetMonitor: traffic classification and statistics

A shallow embedding of `mDNSShared/NetMonitor.c`: the host registry
(`FindHost`, `AddHost`, `GotPacketFromHost`), the service-type aggregator
(`ExtractServiceType`, `recordstat`), the host-information state machine
(`RecordHostInfo`, `SendUnicastQuery`, `AnalyseHost`), the packet classifier
(`DisplayQuery`, `DisplayResponse`, `ProcessUnicastResponse`, `mDNSCoreReceive`)
and the summary reporter (`printstats`, `CompareHosts`, `ShowSortedHostList`).

Conventions of the embedding.
* The C globals (`Filters`, `IPv4HostList`, `IPv6HostList`, `stats`, the `Num...`
  counters) are the fields of `State`; every function takes and returns the state.
* A `HostEntry *` is a `HostRef`: the registry and the index of the slot.
* `exit(-1)` is the result `none` of a function returning `Option State`.
* The outcome of `realloc` and `malloc` is a Boolean argument.
* Counters are unbounded (`Nat` for `unsigned long`, `Int` for `int`), except in
  `CompareHosts`, where the arithmetic of the 32-bit machine types is modelled.
* Times (`mDNSs32`) are integers; the difference of two times in the throttle
  test of `AnalyseHost` is the 32-bit difference `sub32`.
* Text written by `mprintf` is not modelled, except that every call of
  `DisplayResourceRecord` is logged in `State.displayed`.
-/

namespace NetMonitor

/-! ## Domain names -/

/-- A `domainname`: the bytes of the buffer `c`, starting at index 0. -/
structure domainname where
  c : List Nat
deriving DecidableEq, Repr

/-- The byte `c[i]`; a byte past the end of the modelled buffer reads as 0. -/
def byteAt (c : List Nat) (i : Nat) : Nat := c.getD i 0

/-- The underscore character `'_'`. -/
def underscore : Nat := 0x5F

/-- The loop `for (i=0; i<=len; i++) *dst++ = *src++;`: the `len + 1` bytes
read from offset `src` on, one at a time. -/
def copyLabel (c : List Nat) (src len : Nat) : List Nat :=
  (List.range (len + 1)).map (fun i => byteAt c (src + i))

/-- `ExtractServiceType(fqdn, srvtype)`: `none` is `mDNSfalse`, `some t` is
`mDNStrue` with `t` the bytes written to `srvtype`. -/
def ExtractServiceType (fqdn : domainname) : Option domainname :=
  let c := fqdn.c
  let src0 := 0
  let len0 := byteAt c src0
  if len0 = 0 ∨ len0 ≥ 0x40 then none
  else
    let src1 := if byteAt c (src0 + 1) ≠ underscore then src0 + (1 + len0) else src0
    let len1 := byteAt c src1
    if len1 = 0 ∨ len1 ≥ 0x40 ∨ byteAt c (src1 + 1) ≠ underscore then none
    else
      let dst1 := copyLabel c src1 len1
      let src2 := src1 + (len1 + 1)
      let len2 := byteAt c src2
      if len2 = 0 ∨ len2 ≥ 0x40 ∨ byteAt c (src2 + 1) ≠ underscore then none
      else
        let dst2 := dst1 ++ copyLabel c src2 len2
        some ⟨dst2 ++ [0]⟩

/-- One label in wire format: the length byte, then the bytes of the label. -/
def labelBytes (l : List Nat) : List Nat := l.length :: l

/-- The wire format of a name given by its labels: every label with its length
byte, then the zero-length root label. -/
def nameOfLabels (ls : List (List Nat)) : domainname :=
  ⟨(ls.map labelBytes).flatten ++ [0]⟩

/-- A label of a well-formed name: between 1 and 63 bytes. -/
def LabelOK (l : List Nat) : Prop := 1 ≤ l.length ∧ l.length ≤ 63

/-- The label starts with an underscore. -/
def UnderscoreLabel (l : List Nat) : Prop := l.head? = some underscore

instance (l : List Nat) : Decidable (LabelOK l) := by
  unfold LabelOK; exact inferInstance

instance (l : List Nat) : Decidable (UnderscoreLabel l) := by
  unfold UnderscoreLabel; exact inferInstance

/-- Modelled from the spec: `SameDomainName` is declared in mDNSCore, which is
not part of the monitored sources; the spec says that service types are
"compared by exact structural equality". -/
def SameDomainName (a b : domainname) : Bool := decide (a = b)

/-- Modelled from the spec: `AssignDomainName` (mDNSCore) copies the source name
into the destination. -/
def AssignDomainName (src : domainname) : domainname := src

/-! ## Constants of the protocol headers -/

/-- Modelled from the spec: the record types `kDNSType_*` are declared in
mDNSEmbeddedAPI.h; the spec names them (address record, pointer type, descriptive
record, TXT, SRV) and the values are the numbers assigned by the DNS RFCs. -/
def kDNSType_A : Nat := 1

/-- Modelled from the spec: pointer record type (see `kDNSType_A`). -/
def kDNSType_PTR : Nat := 12

/-- Modelled from the spec: descriptive (host information) record type. -/
def kDNSType_HINFO : Nat := 13

/-- Modelled from the spec: text record type. -/
def kDNSType_TXT : Nat := 16

/-- Modelled from the spec: IPv6 address record type. -/
def kDNSType_AAAA : Nat := 28

/-- Modelled from the spec: service record type. -/
def kDNSType_SRV : Nat := 33

/-- Modelled from the spec: option pseudo-record type. -/
def kDNSType_OPT : Nat := 41

/-- Modelled from the spec: the bit of the question class that asks for a
unicast reply (`kDNSQClass_UnicastResponse`, mDNSEmbeddedAPI.h). -/
def kDNSQClass_UnicastResponse : Nat := 0x8000

/-- Modelled from the spec: the mask of the QR and opcode bits of the first flag
byte (`kDNSFlag0_QROP_Mask`), and below the values of a standard query and of a
standard response. -/
def kDNSFlag0_QROP_Mask : Nat := 0xF8

/-- Modelled from the spec: `kDNSFlag0_QR_Query | kDNSFlag0_OP_StdQuery`. -/
def StdQ : Nat := 0

/-- Modelled from the spec: `kDNSFlag0_QR_Response | kDNSFlag0_OP_StdQuery`. -/
def StdR : Nat := 0x80

/-- Modelled from the spec: the standard port of the protocol
(`MulticastDNSPort`). -/
def MulticastDNSPort : Nat := 5353

/-- Modelled from the spec: `mDNSInterface_Any`, the null interface id. -/
def mDNSInterface_Any : Nat := 0

/-- Modelled from the spec: `mDNSAddrType_IPv4` (mDNSEmbeddedAPI.h). -/
def mDNSAddrType_IPv4 : Nat := 4

/-- Modelled from the spec: `mDNSAddrType_IPv6` (mDNSEmbeddedAPI.h). -/
def mDNSAddrType_IPv6 : Nat := 6

/-! ## Operation kinds and packet kinds -/

def OP_probe : Int := 0
def OP_goodbye : Int := 1
def OP_query : Int := 2
def OP_answer : Int := 3
def OP_browsegroup : Int := 2
def OP_browseq : Int := 2
def OP_browsea : Int := 3
def OP_resolvegroup : Int := 4
def OP_resolveq : Int := 4
def OP_resolvea : Int := 5
def OP_NumTypes : Nat := 6

def HostPkt_Q : Nat := 0
def HostPkt_L : Nat := 1
def HostPkt_R : Nat := 2
def HostPkt_B : Nat := 3
def HostPkt_NumTypes : Nat := 4

/-! ## Data model -/

/-- An `mDNSAddr`. The platform layer hands over IPv4 and IPv6 source addresses
only, so the two address families are the two constructors; `v6 b` holds the
bytes `ip.v6.b[0..15]` (a missing byte reads as 0). -/
inductive mDNSAddr where
  | v4 (b0 b1 b2 b3 : Fin 256)
  | v6 (b : List (Fin 256))
deriving DecidableEq, Repr

/-- The field `type` of an `mDNSAddr`. -/
def mDNSAddr.type : mDNSAddr → Nat
  | .v4 _ _ _ _ => mDNSAddrType_IPv4
  | .v6 _ => mDNSAddrType_IPv6

/-- Modelled from the spec: `mDNSSameAddress` (mDNSEmbeddedAPI.h); the registry
is "keyed by network address", two addresses are the same when family and bytes
agree. -/
def mDNSSameAddress (a b : mDNSAddr) : Bool := decide (a = b)

/-- Modelled from the spec: `AllDNSLinkGroup_v4`, the multicast group
224.0.0.251. -/
def AllDNSLinkGroup_v4 : mDNSAddr := .v4 224 0 0 251

/-- Modelled from the spec: `AllDNSLinkGroup_v6`, the multicast group FF02::FB. -/
def AllDNSLinkGroup_v6 : mDNSAddr := .v6 [0xFF, 0x02, 0, 0, 0, 0, 0, 0, 0, 0, 0, 0, 0, 0, 0, 0xFB]

/-- Modelled from the spec: `mDNSAddrIsDNSMulticast`, the "multicast-ness test"
of the destination address. -/
def mDNSAddrIsDNSMulticast (a : mDNSAddr) : Bool :=
  mDNSSameAddress a AllDNSLinkGroup_v4 || mDNSSameAddress a AllDNSLinkGroup_v6

/-- The struct `ActivityStat`; the `next` pointers are the list holding it. -/
structure ActivityStat where
  srvtype : domainname
  printed : Int
  totalops : Int
  stat : List Int
deriving DecidableEq, Repr

/-- The struct `HostEntry`. `LastQuery` is `none` while the field has never
been written. -/
structure HostEntry where
  addr : mDNSAddr
  pkts : List Nat
  totalops : Nat
  stat : List Nat
  hostname : domainname
  revname : domainname
  HIHardware : List Nat
  HISoftware : List Nat
  NumQueries : Nat
  LastQuery : Option Int
deriving DecidableEq, Repr

/-- The struct `HostList`: `hosts` holds the slots in use, so that the C field
`num` is the length of `hosts`; `max` is the number of slots allocated. -/
structure HostList where
  max : Nat
  hosts : List HostEntry
deriving DecidableEq, Repr

/-- The field `num` of a `HostList`. -/
def HostList.num (l : HostList) : Nat := l.hosts.length

/-- A `HostEntry *` returned by `FindHost` or `AddHost`: the registry it points
into and the index of the slot. -/
inductive HostRef where
  | v4 (i : Nat)
  | v6 (i : Nat)
deriving DecidableEq, Repr

/-- A decoded question (`DNSQuestion`). -/
structure DNSQuestion where
  qname : domainname
  qtype : Nat
  qclass : Nat
deriving DecidableEq, Repr

/-- A decoded record (`ResourceRecord`). `unique` is the bit
`RecordType & kDNSRecordTypePacketUniqueMask`; `rdata` holds the bytes of the
`RDataBody` union, read as `u.name` by a pointer record and as `u.txt.c` by a
descriptive record. -/
structure ResourceRecord where
  name : domainname
  rrtype : Nat
  rrclass : Nat
  unique : Bool
  rroriginalttl : Nat
  rdlength : Nat
  rdata : List Nat
deriving DecidableEq, Repr

/-- The tag passed to `DisplayResourceRecord`. -/
inductive DisplayTag where
  | PU | PM | KA | AU | OP | AD | ADplus | AN | ANplus | DE
deriving DecidableEq, Repr

/-- A query handed to `mDNSSendDNSMessage` by `SendUnicastQuery`. -/
structure SentQuery where
  name : domainname
  rrtype : Nat
  target : mDNSAddr
  InterfaceID : Nat
deriving DecidableEq, Repr

/-- The global variables of the program. `mDNSPlatformOneSecond` is the constant
of the platform layer; `sent` and `displayed` log the calls of
`mDNSSendDNSMessage` and of `DisplayResourceRecord`. -/
structure State where
  Filters : List mDNSAddr
  FilterInterface : Int
  AddressType : Nat
  mDNSPlatformOneSecond : Int
  IPv4HostList : HostList
  IPv6HostList : HostList
  stats : List ActivityStat
  NumPktQ : Int
  NumPktL : Int
  NumPktR : Int
  NumPktB : Int
  NumProbes : Int
  NumGoodbyes : Int
  NumQuestions : Int
  NumLegacy : Int
  NumAnswers : Int
  NumAdditionals : Int
  sent : List SentQuery
  displayed : List (DisplayTag × ResourceRecord)
deriving DecidableEq, Repr

/-- A message as the decoding primitives present it: the header fields and, for
every section, the items that `getQuestion` and `GetLargeResourceRecord` decode,
in order; the call for item `i` of a section fails when the list has no item
`i`. -/
structure DNSMessage where
  id : Nat
  flags0 : Nat
  numQuestions : Nat
  numAnswers : Nat
  numAuthorities : Nat
  numAdditionals : Nat
  questions : List DNSQuestion
  answers : List ResourceRecord
  authorities : List ResourceRecord
  additionals : List ResourceRecord
deriving DecidableEq, Repr

/-- One call of `mDNSCoreReceive`: its arguments, and what the collaborators
answer during the call: the interface index of `InterfaceID`, the time
`m->timenow`, the verdict of `ResourceRecordAnswersQuestion`, and whether
`realloc` and `malloc` succeed. -/
structure Packet where
  msg : DNSMessage
  srcaddr : mDNSAddr
  srcport : Nat
  dstaddr : mDNSAddr
  InterfaceID : Nat
  ifIndex : Int
  timenow : Int
  ResourceRecordAnswersQuestion : ResourceRecord → DNSQuestion → Bool
  reallocOk : Bool
  mallocOk : Bool

/-! ## Counter arrays -/

/-- The statement `a[i]++` on an array held as a list; an index past the end
leaves the list as it is. -/
def bumpAt {α : Type} [Add α] [One α] : List α → Nat → List α
  | [], _ => []
  | x :: xs, 0 => (x + 1) :: xs
  | x :: xs, n + 1 => x :: bumpAt xs n

/-- The statement `stat[op]++` for the `int` index `op`. The array has
`OP_NumTypes` elements; the C statement is defined for `0 <= op < OP_NumTypes`
only, and the model leaves the array unchanged for any other index. -/
def bumpOp {α : Type} [Add α] [One α] (stat : List α) (op : Int) : List α :=
  if 0 ≤ op then bumpAt stat op.toNat else stat

/-- Replace slot `i` of an array held as a list. -/
def setAt {α : Type} : List α → Nat → α → List α
  | [], _, _ => []
  | _ :: xs, 0, a => a :: xs
  | x :: xs, n + 1, a => x :: setAt xs n a

/-! ## Host registry -/

/-- The macro `ExactlyOneFilter`, `(Filters && !Filters->next)`. -/
def ExactlyOneFilter (σ : State) : Bool :=
  match σ.Filters with
  | [] => false
  | _ :: next => next.isEmpty

/-- The loop of `FindHost` from slot `i` on: the index of the first slot whose
address is the same as `addr`. -/
def FindHostFrom (addr : mDNSAddr) : List HostEntry → Nat → Option Nat
  | [], _ => none
  | entry :: rest, i => if mDNSSameAddress addr entry.addr then some i else FindHostFrom addr rest (i + 1)

/-- `FindHost(addr, list)`: the index of the entry found, `none` for `NULL`. -/
def FindHost (addr : mDNSAddr) (list : HostList) : Option Nat :=
  FindHostFrom addr list.hosts 0

/-- The character `'.'`. -/
def dot : Nat := 0x2E

/-- Modelled from the spec: the conversion `%d` of `mDNS_snprintf` (mDNSCore):
the decimal digits of the number, as characters, without padding. -/
def decimal (n : Nat) : List Nat := (Nat.toDigits 10 n).map Char.toNat

/-- The table `hexValues`, `"0123456789ABCDEF"`. -/
def hexValues : List Nat := [48, 49, 50, 51, 52, 53, 54, 55, 56, 57, 65, 66, 67, 68, 69, 70]

/-- The characters of `"in-addr.arpa."`. -/
def str_in_addr_arpa : List Nat := [105, 110, 45, 97, 100, 100, 114, 46, 97, 114, 112, 97, 46]

/-- The characters of `"ip6.arpa."`. -/
def str_ip6_arpa : List Nat := [105, 112, 54, 46, 97, 114, 112, 97, 46]

/-- Modelled from the spec: the labels that `MakeDomainNameFromDNSNameString`
(mDNSCore) reads from a dotted name string: the characters between the dots;
`cur` holds the characters of the label being read. -/
def dotLabels : List Nat → List Nat → List (List Nat)
  | [], cur => if cur = [] then [] else [cur]
  | ch :: rest, cur => if ch = dot then cur :: dotLabels rest [] else dotLabels rest (cur ++ [ch])

/-- Modelled from the spec: `MakeDomainNameFromDNSNameString` (mDNSCore) turns a
dotted name string into a name in wire format, one label per dotted
component. -/
def MakeDomainNameFromDNSNameString (cstr : List Nat) : domainname :=
  nameOfLabels (dotLabels cstr [])

/-- The reverse-mapping name that `AddHost` builds for an address. For IPv4 the
string is printed into `buffer[32]` by `mDNS_snprintf`, which keeps at most 31
characters; for IPv6 the loop fills `buffer[0..63]` and `mDNS_snprintf` writes
at most `sizeof(buffer)-64-1 = 10` characters of `"ip6.arpa."` behind them. -/
def revnameOf : mDNSAddr → domainname
  | .v4 b0 b1 b2 b3 =>
    let buffer := (decimal b3.val ++ [dot] ++ decimal b2.val ++ [dot] ++ decimal b1.val ++ [dot]
      ++ decimal b0.val ++ [dot] ++ str_in_addr_arpa).take 31
    MakeDomainNameFromDNSNameString buffer
  | .v6 b =>
    let buffer := ((List.range 16).map (fun j =>
        [hexValues.getD ((b.getD (15 - j) 0).val % 16) 0, dot,
         hexValues.getD ((b.getD (15 - j) 0).val / 16) 0, dot])).flatten
      ++ str_ip6_arpa.take 10
    MakeDomainNameFromDNSNameString buffer

/-- The entry that `AddHost` writes into the new slot. -/
def newHostEntry (addr : mDNSAddr) : HostEntry where
  addr := addr
  pkts := List.replicate HostPkt_NumTypes 0
  totalops := 0
  stat := List.replicate OP_NumTypes 0
  hostname := ⟨[0]⟩
  revname := revnameOf addr
  HIHardware := [0]
  HISoftware := [0]
  NumQueries := 0
  LastQuery := none

/-- `AddHost(addr, list)`: the list afterwards and the index of the new entry
(`none` for `NULL`). `reallocOk` tells whether `realloc` succeeds when it is
called. -/
def AddHost (reallocOk : Bool) (addr : mDNSAddr) (list : HostList) : HostList × Option Nat :=
  if list.num ≥ list.max then
    if reallocOk then
      ({ max := list.max + 64, hosts := list.hosts ++ [newHostEntry addr] }, some list.num)
    else (list, none)
  else ({ max := list.max, hosts := list.hosts ++ [newHostEntry addr] }, some list.num)

/-- The host a `HostRef` points to. -/
def State.host? (σ : State) : HostRef → Option HostEntry
  | .v4 i => σ.IPv4HostList.hosts[i]?
  | .v6 i => σ.IPv6HostList.hosts[i]?

/-- Apply `f` to the slot `i` of a list of hosts. -/
def modifyAt (f : HostEntry → HostEntry) : List HostEntry → Nat → List HostEntry
  | [], _ => []
  | h :: hs, 0 => f h :: hs
  | h :: hs, n + 1 => h :: modifyAt f hs n

/-- Write through a `HostEntry *`: apply `f` to the entry the reference points
to. -/
def State.modifyHost (σ : State) (f : HostEntry → HostEntry) : HostRef → State
  | .v4 i => { σ with IPv4HostList := { σ.IPv4HostList with hosts := modifyAt f σ.IPv4HostList.hosts i } }
  | .v6 i => { σ with IPv6HostList := { σ.IPv6HostList with hosts := modifyAt f σ.IPv6HostList.hosts i } }

/-- The `else` branch of `GotPacketFromHost` on the registry `list` chosen for
the address: find or add the entry, and count the packet unless the id is the
private marker 0xFFFF. -/
def GotPacketInList (reallocOk : Bool) (addr : mDNSAddr) (t : Nat) (id : Nat) (list : HostList) :
    HostList × Option Nat :=
  let found :=
    match FindHost addr list with
    | some i => (list, some i)
    | none => AddHost reallocOk addr list
  match found.2 with
  | none => (found.1, none)
  | some i =>
    if id ≠ 0xFFFF then
      ({ found.1 with hosts := modifyAt (fun e => { e with pkts := bumpAt e.pkts t }) found.1.hosts i }, some i)
    else (found.1, some i)

/-- `GotPacketFromHost(addr, t, id)`: the state afterwards and the entry
returned (`none` for `NULL`). -/
def GotPacketFromHost (σ : State) (reallocOk : Bool) (addr : mDNSAddr) (t : Nat) (id : Nat) :
    State × Option HostRef :=
  if ExactlyOneFilter σ then (σ, none)
  else if addr.type = mDNSAddrType_IPv4 then
    let r := GotPacketInList reallocOk addr t id σ.IPv4HostList
    ({ σ with IPv4HostList := r.1 }, r.2.map HostRef.v4)
  else
    let r := GotPacketInList reallocOk addr t id σ.IPv6HostList
    ({ σ with IPv6HostList := r.1 }, r.2.map HostRef.v6)

/-! ## Service-type aggregator -/

/-- The first lines of `recordstat`: the slot that the operation is counted in
after the re-mapping by record type, `none` when the function returns at once. -/
def recordstatOp (op : Int) (rrtype : Nat) : Option Int :=
  if op ≠ OP_probe then
    if rrtype = kDNSType_SRV ∨ rrtype = kDNSType_TXT then some (op - OP_browsegroup + OP_resolvegroup)
    else if rrtype ≠ kDNSType_PTR then none
    else some op
  else some op

/-- The entry that `recordstat` allocates for a new service type. -/
def newActivityStat (srvtype : domainname) : ActivityStat where
  srvtype := srvtype
  printed := 0
  totalops := 0
  stat := List.replicate OP_NumTypes 0

/-- The two increments `totalops++; stat[op]++` on an `ActivityStat`. -/
def ActivityStat.count (s : ActivityStat) (op : Int) : ActivityStat :=
  { s with totalops := s.totalops + 1, stat := bumpOp s.stat op }

/-- The two increments `totalops++; stat[op]++` on a `HostEntry`. -/
def HostEntry.count (e : HostEntry) (op : Int) : HostEntry :=
  { e with totalops := e.totalops + 1, stat := bumpOp e.stat op }

/-- The search `while (*s && !SameDomainName(&(*s)->srvtype, &srvtype))`: does
the list hold an entry for the service type? -/
def statsFind (srvtype : domainname) : List ActivityStat → Bool
  | [] => false
  | s :: next => if SameDomainName s.srvtype srvtype then true else statsFind srvtype next

/-- The list `stats` after the search, the creation of a new entry at the end of
the list when the search found none, and the two increments on the entry. -/
def statsCount (srvtype : domainname) (op : Int) : List ActivityStat → List ActivityStat
  | [] => [(newActivityStat srvtype).count op]
  | s :: next =>
    if SameDomainName s.srvtype srvtype then s.count op :: next
    else s :: statsCount srvtype op next

/-- `recordstat(entry, fqdn, op, rrtype)`. The result `none` is `exit(-1)`,
taken when `malloc` fails (`mallocOk = false`) for a new service type. -/
def recordstat (σ : State) (mallocOk : Bool) (entry : Option HostRef) (fqdn : domainname)
    (op : Int) (rrtype : Nat) : Option State :=
  match recordstatOp op rrtype with
  | none => some σ
  | some op1 =>
    match ExtractServiceType fqdn with
    | none => some σ
    | some srvtype =>
      if statsFind srvtype σ.stats = false ∧ mallocOk = false then none
      else
        let σ1 := { σ with stats := statsCount srvtype op1 σ.stats }
        match entry with
        | none => some σ1
        | some r => some (σ1.modifyHost (fun e => e.count op1) r)

/-! ## Host information and follow-up queries -/

/-- `mDNSPlatformMemCopy(dst, src, n)` into a buffer held as a list: the first
bytes of `dst` are replaced by the `n` bytes read from `src` at offset `off`. -/
def memCopy (dst src : List Nat) (off n : Nat) : List Nat :=
  (List.range n).map (fun i => byteAt src (off + i)) ++ dst.drop n

/-- `RecordHostInfo(entry, pktrr)`. -/
def RecordHostInfo (entry : HostEntry) (pktrr : ResourceRecord) : HostEntry :=
  if byteAt entry.hostname.c 0 = 0 then
    let e1 :=
      if pktrr.rrtype = kDNSType_A ∨ pktrr.rrtype = kDNSType_AAAA then
        { entry with NumQueries := 0, hostname := AssignDomainName pktrr.name }
      else entry
    if pktrr.rrtype = kDNSType_PTR then
      if SameDomainName e1.revname pktrr.name then
        { e1 with NumQueries := 0, hostname := AssignDomainName ⟨pktrr.rdata⟩ }
      else e1
    else e1
  else if pktrr.rrtype = kDNSType_HINFO then
    let hw := 0
    let sw := hw + 1 + byteAt pktrr.rdata hw
    if sw + 1 + byteAt pktrr.rdata sw ≤ pktrr.rdlength then
      { entry with
        hostname := AssignDomainName pktrr.name
        HIHardware := memCopy entry.HIHardware pktrr.rdata hw (1 + byteAt pktrr.rdata hw)
        HISoftware := memCopy entry.HISoftware pktrr.rdata sw (1 + byteAt pktrr.rdata sw) }
    else entry
  else entry

/-- `SendUnicastQuery(m, entry, name, rrtype, InterfaceID)`: the entry
afterwards and the query handed to `mDNSSendDNSMessage`. -/
def SendUnicastQuery (timenow : Int) (entry : HostEntry) (name : domainname) (rrtype : Nat)
    (InterfaceID : Nat) : HostEntry × SentQuery :=
  let e1 := { entry with LastQuery := some timenow, NumQueries := entry.NumQueries + 1 }
  if e1.NumQueries > 2 then
    (e1, { name := name, rrtype := rrtype, target := AllDNSLinkGroup_v4, InterfaceID := InterfaceID })
  else
    (e1, { name := name, rrtype := rrtype, target := entry.addr, InterfaceID := mDNSInterface_Any })

/-- The difference `a - b` of two `mDNSs32` values as the program computes it,
in 32-bit two's complement arithmetic: the difference of the integers reduced
modulo `2^32` to the range `-2^31 .. 2^31 - 1`. -/
def sub32 (a b : Int) : Int := (a - b + 2 ^ 31) % 2 ^ 32 - 2 ^ 31

/-- `AnalyseHost(m, entry, InterfaceID)`: the entry afterwards and the query
sent, if any. The test `m->timenow - entry->LastQuery < mDNSPlatformOneSecond`
is made on `mDNSs32` values, with the difference `sub32`. A `LastQuery` that was
never written reads as 0. -/
def AnalyseHost (timenow OneSecond : Int) (entry : HostEntry) (InterfaceID : Nat) :
    HostEntry × Option SentQuery :=
  if entry.NumQueries ≥ 4 then (entry, none)
  else if entry.NumQueries ≠ 0 ∧ sub32 timenow (entry.LastQuery.getD 0) < OneSecond then
    (entry, none)
  else if byteAt entry.hostname.c 0 = 0 then
    if byteAt entry.revname.c 0 ≠ 0 then
      let r := SendUnicastQuery timenow entry entry.revname kDNSType_PTR InterfaceID
      (r.1, some r.2)
    else (entry, none)
  else if byteAt entry.HIHardware 0 = 0 then
    let r := SendUnicastQuery timenow entry entry.hostname kDNSType_HINFO InterfaceID
    (r.1, some r.2)
  else (entry, none)

/-- The call `if (entry) AnalyseHost(m, entry, InterfaceID)` on the state. -/
def State.analyse (σ : State) (timenow : Int) (InterfaceID : Nat) : Option HostRef → State
  | none => σ
  | some r =>
    match σ.host? r with
    | none => σ
    | some e =>
      let res := AnalyseHost timenow σ.mDNSPlatformOneSecond e InterfaceID
      let σ1 := σ.modifyHost (fun _ => res.1) r
      match res.2 with
      | none => σ1
      | some q => { σ1 with sent := σ1.sent ++ [q] }

/-! ## Packet classifier -/

/-- How a loop over a section of a message ends: `next a` is the normal end of
the loop (the function goes on), `ret σ` is a `return` from the function after a
decoding failure, `exit` is `exit(-1)`. -/
inductive Flow (α : Type) where
  | next (a : α)
  | ret (σ : State)
  | exit

/-- Go on with `f` after a loop that ended normally. -/
def Flow.andThen {α β : Type} (x : Flow α) (f : α → Flow β) : Flow β :=
  match x with
  | .next a => f a
  | .ret σ => .ret σ
  | .exit => .exit

/-- The state in which the function returns; `none` for `exit(-1)`. -/
def Flow.result : Flow State → Option State
  | .next σ => some σ
  | .ret σ => some σ
  | .exit => none

/-- Log a call of `DisplayResourceRecord`. -/
def State.display (σ : State) (tag : DisplayTag) (rr : ResourceRecord) : State :=
  { σ with displayed := σ.displayed ++ [(tag, rr)] }

/-- The call `if (entry) RecordHostInfo(entry, &pkt.r.resrec)` on the state. -/
def State.recordHostInfo (σ : State) (pktrr : ResourceRecord) : Option HostRef → State
  | none => σ
  | some r => σ.modifyHost (fun e => RecordHostInfo e pktrr) r

/-- The loop of `FindUpdate` over the authority records `auths` of the message,
`n` iterations left, at record number `i`: the number of the first record that
answers the question, with the record. The test on `m->rec`, a record that the
program never writes, is always passed. -/
def FindUpdateFrom (answersq : ResourceRecord → DNSQuestion → Bool) (q : DNSQuestion) :
    List ResourceRecord → Nat → Nat → Option (Nat × ResourceRecord)
  | _, 0, _ => none
  | [], _ + 1, _ => none
  | rr :: rest, n + 1, i =>
    if answersq rr q then some (i, rr) else FindUpdateFrom answersq q rest n (i + 1)

/-- `FindUpdate(m, query, auth, end, q, pkt)`. -/
def FindUpdate (pkt : Packet) (auths : List ResourceRecord) (q : DNSQuestion) :
    Option (Nat × ResourceRecord) :=
  FindUpdateFrom pkt.ResourceRecordAnswersQuestion q auths pkt.msg.numAuthorities 0

/-- The statement `p2[0] = p2[1] = p2[2] = p2[3] = 0` on authority record `j`
of the message: type and class (with its cache-flush bit) read as zero from then
on. -/
def zeroTypeClass : List ResourceRecord → Nat → List ResourceRecord
  | [], _ => []
  | rr :: rest, 0 => { rr with rrtype := 0, rrclass := 0, unique := false } :: rest
  | rr :: rest, j + 1 => rr :: zeroTypeClass rest j

/-- The loop of `DisplayQuery` over the questions, `n` iterations left, at
question `i`; `auths` is the authority section of the message, which the loop
changes. -/
def DisplayQuery_questions (pkt : Packet) (entry : Option HostRef) :
    Nat → Nat → State → List ResourceRecord → Flow (State × List ResourceRecord)
  | 0, _, σ, auths => .next (σ, auths)
  | n + 1, i, σ, auths =>
    match pkt.msg.questions[i]? with
    | none => .ret σ
    | some q0 =>
      let ucbit := q0.qclass &&& kDNSQClass_UnicastResponse
      let q := { q0 with qclass := q0.qclass &&& 0x7FFF }
      match FindUpdate pkt auths q with
      | some (j, rr) =>
        let σ1 := { σ with NumProbes := σ.NumProbes + 1 }
        let σ2 := σ1.display (if ucbit ≠ 0 then .PU else .PM) rr
        match recordstat σ2 pkt.mallocOk entry q.qname OP_probe q.qtype with
        | none => .exit
        | some σ3 => DisplayQuery_questions pkt entry n (i + 1) σ3 (zeroTypeClass auths j)
      | none =>
        let σ1 :=
          if pkt.srcport = MulticastDNSPort then { σ with NumQuestions := σ.NumQuestions + 1 }
          else { σ with NumLegacy := σ.NumLegacy + 1 }
        let r :=
          if pkt.msg.id ≠ 0xFFFF then recordstat σ1 pkt.mallocOk entry q.qname OP_query q.qtype
          else some σ1
        match r with
        | none => .exit
        | some σ2 => DisplayQuery_questions pkt entry n (i + 1) σ2 auths

/-- The loop of `DisplayQuery` over the known answers. -/
def DisplayQuery_answers (pkt : Packet) (entry : Option HostRef) : Nat → Nat → State → Flow State
  | 0, _, σ => .next σ
  | n + 1, i, σ =>
    match pkt.msg.answers[i]? with
    | none => .ret σ
    | some rr =>
      let σ1 := σ.display .KA rr
      let r :=
        if pkt.msg.numQuestions = 0 ∧ i = 0 then
          recordstat σ1 pkt.mallocOk entry rr.name OP_query rr.rrtype
        else some σ1
      match r with
      | none => .exit
      | some σ2 => DisplayQuery_answers pkt entry n (i + 1) σ2

/-- The loop of `DisplayQuery` over the authority records `auths`. -/
def DisplayQuery_authorities (auths : List ResourceRecord) : Nat → Nat → State → Flow State
  | 0, _, σ => .next σ
  | n + 1, i, σ =>
    match auths[i]? with
    | none => .ret σ
    | some rr =>
      let σ1 := if rr.rrtype ≠ 0 ∨ rr.rrclass ≠ 0 then σ.display .AU rr else σ
      DisplayQuery_authorities auths n (i + 1) σ1

/-- The loop of `DisplayQuery` over the additional records. -/
def DisplayQuery_additionals (pkt : Packet) : Nat → Nat → State → Flow State
  | 0, _, σ => .next σ
  | n + 1, i, σ =>
    match pkt.msg.additionals[i]? with
    | none => .ret σ
    | some rr =>
      DisplayQuery_additionals pkt n (i + 1)
        (σ.display (if rr.rrtype = kDNSType_OPT then .OP else .AD) rr)

/-- `DisplayQuery(m, msg, end, srcaddr, srcport, dstaddr, InterfaceID)`; `none`
is `exit(-1)`. -/
def DisplayQuery (σ : State) (pkt : Packet) : Option State :=
  let g := GotPacketFromHost σ pkt.reallocOk pkt.srcaddr
    (if pkt.srcport = MulticastDNSPort then HostPkt_Q else HostPkt_L) pkt.msg.id
  let entry := g.2
  let σ1 :=
    if pkt.msg.id ≠ 0xFFFF then
      if pkt.srcport = MulticastDNSPort then { g.1 with NumPktQ := g.1.NumPktQ + 1 }
      else { g.1 with NumPktL := g.1.NumPktL + 1 }
    else g.1
  Flow.result <|
    (DisplayQuery_questions pkt entry pkt.msg.numQuestions 0 σ1 pkt.msg.authorities).andThen fun qa =>
    (DisplayQuery_answers pkt entry pkt.msg.numAnswers 0 qa.1).andThen fun σ2 =>
    (DisplayQuery_authorities qa.2 pkt.msg.numAuthorities 0 σ2).andThen fun σ3 =>
    (DisplayQuery_additionals pkt pkt.msg.numAdditionals 0 σ3).andThen fun σ4 =>
    .next (σ4.analyse pkt.timenow pkt.InterfaceID entry)

/-- The loop of `DisplayResponse` over the questions: nothing but text is
produced, and a question that does not decode ends the function. -/
def DisplayResponse_questions (pkt : Packet) : Nat → Nat → State → Flow State
  | 0, _, σ => .next σ
  | n + 1, i, σ =>
    match pkt.msg.questions[i]? with
    | none => .ret σ
    | some _ => DisplayResponse_questions pkt n (i + 1) σ

/-- The loop of `DisplayResponse` over the answers. -/
def DisplayResponse_answers (pkt : Packet) (entry : Option HostRef) : Nat → Nat → State → Flow State
  | 0, _, σ => .next σ
  | n + 1, i, σ =>
    match pkt.msg.answers[i]? with
    | none => .ret σ
    | some rr =>
      if rr.rroriginalttl ≠ 0 then
        let σ1 := { σ with NumAnswers := σ.NumAnswers + 1 }
        let σ2 := σ1.display (if rr.unique then .AN else .ANplus) rr
        let r :=
          if pkt.msg.id ≠ 0xFFFF then recordstat σ2 pkt.mallocOk entry rr.name OP_answer rr.rrtype
          else some σ2
        match r with
        | none => .exit
        | some σ3 => DisplayResponse_answers pkt entry n (i + 1) (σ3.recordHostInfo rr entry)
      else
        let σ1 := { σ with NumGoodbyes := σ.NumGoodbyes + 1 }
        let σ2 := σ1.display .DE rr
        match recordstat σ2 pkt.mallocOk entry rr.name OP_goodbye rr.rrtype with
        | none => .exit
        | some σ3 => DisplayResponse_answers pkt entry n (i + 1) σ3

/-- The loop of `DisplayResponse` over the authority records. -/
def DisplayResponse_authorities (pkt : Packet) : Nat → Nat → State → Flow State
  | 0, _, σ => .next σ
  | n + 1, i, σ =>
    match pkt.msg.authorities[i]? with
    | none => .ret σ
    | some rr => DisplayResponse_authorities pkt n (i + 1) (σ.display .AU rr)

/-- The loop of `DisplayResponse` over the additional records. -/
def DisplayResponse_additionals (pkt : Packet) (entry : Option HostRef) :
    Nat → Nat → State → Flow State
  | 0, _, σ => .next σ
  | n + 1, i, σ =>
    match pkt.msg.additionals[i]? with
    | none => .ret σ
    | some rr =>
      let σ1 := { σ with NumAdditionals := σ.NumAdditionals + 1 }
      let σ2 := σ1.display
        (if rr.rrtype = kDNSType_OPT then .OP else if rr.unique then .AD else .ADplus) rr
      DisplayResponse_additionals pkt entry n (i + 1) (σ2.recordHostInfo rr entry)

/-- `DisplayResponse(m, msg, end, srcaddr, srcport, dstaddr, InterfaceID)`;
`none` is `exit(-1)`. -/
def DisplayResponse (σ : State) (pkt : Packet) : Option State :=
  let g := GotPacketFromHost σ pkt.reallocOk pkt.srcaddr HostPkt_R pkt.msg.id
  let entry := g.2
  let σ1 := if pkt.msg.id ≠ 0xFFFF then { g.1 with NumPktR := g.1.NumPktR + 1 } else g.1
  Flow.result <|
    (DisplayResponse_questions pkt pkt.msg.numQuestions 0 σ1).andThen fun σ2 =>
    (DisplayResponse_answers pkt entry pkt.msg.numAnswers 0 σ2).andThen fun σ3 =>
    (DisplayResponse_authorities pkt pkt.msg.numAuthorities 0 σ3).andThen fun σ4 =>
    (DisplayResponse_additionals pkt entry pkt.msg.numAdditionals 0 σ4).andThen fun σ5 =>
    .next (σ5.analyse pkt.timenow pkt.InterfaceID entry)

/-- The records that the loop of `ProcessUnicastResponse` decodes: it reads
`numAnswers + numAuthorities + numAdditionals` records one after the other from
the place found by `LocateAnswers`, and after the first failure (of
`LocateAnswers` or of a record) every later call fails as well. -/
def unicastRecords (msg : DNSMessage) : List ResourceRecord :=
  if msg.questions.length < msg.numQuestions then []
  else
    let a := msg.answers.take msg.numAnswers
    if a.length < msg.numAnswers then a
    else
      let b := msg.authorities.take msg.numAuthorities
      if b.length < msg.numAuthorities then a ++ b
      else a ++ b ++ msg.additionals.take msg.numAdditionals

/-- `ProcessUnicastResponse(m, msg, end, srcaddr, InterfaceID)`. -/
def ProcessUnicastResponse (σ : State) (pkt : Packet) : State :=
  let g := GotPacketFromHost σ pkt.reallocOk pkt.srcaddr HostPkt_R pkt.msg.id
  (unicastRecords pkt.msg).foldl
    (fun s rr => if rr.rroriginalttl ≠ 0 then s.recordHostInfo rr g.2 else s) g.1

/-- `AddressMatchesFilterList(srcaddr)`. -/
def AddressMatchesFilterList (σ : State) (srcaddr : mDNSAddr) : Bool :=
  match σ.Filters with
  | [] => srcaddr.type == σ.AddressType
  | fs => fs.any (fun f => mDNSSameAddress srcaddr f)

/-- `mDNSCoreReceive`, the entry point called for every packet captured; `none`
is `exit(-1)`. -/
def mDNSCoreReceive (σ : State) (pkt : Packet) : Option State :=
  let QR_OP := pkt.msg.flags0 &&& kDNSFlag0_QROP_Mask
  let goodinterface := σ.FilterInterface = 0 ∨ σ.FilterInterface = pkt.ifIndex
  if goodinterface ∧ AddressMatchesFilterList σ pkt.srcaddr = true then
    if mDNSAddrIsDNSMulticast pkt.dstaddr = false then
      if QR_OP = StdQ then some σ
      else if QR_OP = StdR then some (ProcessUnicastResponse σ pkt)
      else some σ
    else
      if QR_OP = StdQ then DisplayQuery σ pkt
      else if QR_OP = StdR then DisplayResponse σ pkt
      else
        let g := GotPacketFromHost σ pkt.reallocOk pkt.srcaddr HostPkt_B pkt.msg.id
        some { g.1 with NumPktB := g.1.NumPktB + 1 }
  else some σ

/-- The state at the start of a capture: the configuration (filters, interface,
address family, ticks per second), empty registries, no statistics, all counters
zero. -/
def initState (Filters : List mDNSAddr) (FilterInterface : Int) (AddressType : Nat)
    (OneSecond : Int) : State where
  Filters := Filters
  FilterInterface := FilterInterface
  AddressType := AddressType
  mDNSPlatformOneSecond := OneSecond
  IPv4HostList := { max := 0, hosts := [] }
  IPv6HostList := { max := 0, hosts := [] }
  stats := []
  NumPktQ := 0
  NumPktL := 0
  NumPktR := 0
  NumPktB := 0
  NumProbes := 0
  NumGoodbyes := 0
  NumQuestions := 0
  NumLegacy := 0
  NumAnswers := 0
  NumAdditionals := 0
  sent := []
  displayed := []

/-- The capture loop: the packets are classified one after the other; `none`
when the process exits in between. -/
def run : State → List Packet → Option State
  | σ, [] => some σ
  | σ, pkt :: rest =>
    match mDNSCoreReceive σ pkt with
    | none => none
    | some σ1 => run σ1 rest

/-! ## Names given by their labels -/


/-- One step of `ExtractServiceType`: `len = *src`, the test on the label at
`src`, and the copy loop; the bytes copied and the new value of `src`. -/
def readLabel (c : List Nat) (src : Nat) : Option (List Nat × Nat) :=
  let len := byteAt c src
  if len = 0 ∨ len ≥ 0x40 ∨ byteAt c (src + 1) ≠ underscore then none
  else some (copyLabel c src len, src + (len + 1))

/-- The bytes of a list of labels followed by the root label. -/
def bytesOfLabels (ls : List (List Nat)) : List Nat := (ls.map labelBytes).flatten ++ [0]

/-- The service type read off the labels of a name: the first two labels when
both start with an underscore. -/
def twoUnderscoreLabels : List (List Nat) → Option domainname
  | l1 :: l2 :: _ =>
    if UnderscoreLabel l1 ∧ UnderscoreLabel l2 then some (nameOfLabels [l1, l2]) else none
  | _ => none

/-- The service type read off the labels of a name: an ordinary first label is
skipped, then two labels starting with an underscore are required. -/
def serviceTypeOfLabels : List (List Nat) → Option domainname
  | [] => none
  | l0 :: rest => if UnderscoreLabel l0 then twoUnderscoreLabels (l0 :: rest) else twoUnderscoreLabels rest

/-! ## Well-formed states and counted events -/

/-- The arrays of a `HostEntry` have the sizes of their C declarations:
`pkts[HostPkt_NumTypes]` and `stat[OP_NumTypes]`. -/
def HostEntry.WF (e : HostEntry) : Prop :=
  e.pkts.length = HostPkt_NumTypes ∧ e.stat.length = OP_NumTypes

/-- The array of an `ActivityStat` has the size of its C declaration,
`stat[OP_NumTypes]`. -/
def ActivityStat.WF (s : ActivityStat) : Prop := s.stat.length = OP_NumTypes

/-- Every array of the state has the size of its C declaration. -/
def State.WF (σ : State) : Prop :=
  (∀ e ∈ σ.IPv4HostList.hosts, e.WF) ∧ (∀ e ∈ σ.IPv6HostList.hosts, e.WF) ∧
  (∀ s ∈ σ.stats, s.WF)

/-- `Counted σ σ1 entry t slot`: the state `σ1` is the state `σ` after one event
has been counted in slot `slot` for the service type `t` and for the host
`entry`.
* Either no `ActivityStat` of `σ` has service type `t`, and `σ1.stats` is
  `σ.stats` with one entry added at the end, for `t`, not yet printed, with
  `totalops = 1`, 1 in the slot and 0 in every other slot; or `σ.stats` is
  `pre ++ s :: post` with `s` the first entry for `t`, and `σ1.stats` is
  `pre ++ s1 :: post` where `s1` is `s` with `totalops + 1` and `+ 1` in the
  slot.
* A host other than `entry` is unchanged; the host `entry` is changed in
  `totalops` (`+ 1`) and in `stat[slot]` (`+ 1`) only; no host is added.
* Nothing else in the state changes. -/
def Counted (σ σ1 : State) (entry : Option HostRef) (t : domainname) (slot : Nat) : Prop :=
  (((∀ x ∈ σ.stats, x.srvtype ≠ t) ∧
      ∃ s, σ1.stats = σ.stats ++ [s] ∧ s.srvtype = t ∧ s.printed = 0 ∧ s.totalops = 1 ∧
        s.stat.length = OP_NumTypes ∧ ∀ k, s.stat.getD k 0 = if k = slot then 1 else 0) ∨
    (∃ pre s post s1, σ.stats = pre ++ s :: post ∧ (∀ x ∈ pre, x.srvtype ≠ t) ∧ s.srvtype = t ∧
        σ1.stats = pre ++ s1 :: post ∧ s1.srvtype = t ∧ s1.printed = s.printed ∧
        s1.totalops = s.totalops + 1 ∧ s1.stat.length = s.stat.length ∧
        ∀ k, s1.stat.getD k 0 = s.stat.getD k 0 + if k = slot then 1 else 0)) ∧
  (∀ r, entry ≠ some r → σ1.host? r = σ.host? r) ∧
  (∀ r e, entry = some r → σ.host? r = some e →
    ∃ e1, σ1.host? r = some e1 ∧ e1 = { e with totalops := e.totalops + 1, stat := e1.stat } ∧
      e1.stat.length = e.stat.length ∧
      ∀ k, e1.stat.getD k 0 = e.stat.getD k 0 + if k = slot then 1 else 0) ∧
  σ1.IPv4HostList.hosts.length = σ.IPv4HostList.hosts.length ∧
  σ1.IPv6HostList.hosts.length = σ.IPv6HostList.hosts.length ∧
  σ1.IPv4HostList.max = σ.IPv4HostList.max ∧
  σ1.IPv6HostList.max = σ.IPv6HostList.max ∧
  σ1 = { σ with stats := σ1.stats, IPv4HostList := σ1.IPv4HostList,
                IPv6HostList := σ1.IPv6HostList }

instance (e : HostEntry) : Decidable e.WF := by
  unfold HostEntry.WF; exact inferInstance

instance (s : ActivityStat) : Decidable s.WF := by
  unfold ActivityStat.WF; exact inferInstance

instance (σ : State) : Decidable σ.WF := by
  unfold State.WF; exact inferInstance

/-! ## Example data -/

/-- The name `_http._tcp.local.`. -/
def name_http_tcp_local : domainname :=
  nameOfLabels [[95, 104, 116, 116, 112], [95, 116, 99, 112], [108, 111, 99, 97, 108]]

/-- The service type `_http._tcp.`. -/
def name_http_tcp : domainname :=
  nameOfLabels [[95, 104, 116, 116, 112], [95, 116, 99, 112]]

/-- The address 192.168.1.10. -/
def addrA : mDNSAddr := .v4 192 168 1 10

/-- The address 192.168.1.11. -/
def addrB : mDNSAddr := .v4 192 168 1 11

/-- A capture without filters, on every interface, of IPv4 traffic, with 1000
ticks per second, before the first packet. -/
def state0 : State := initState [] 0 mDNSAddrType_IPv4 1000

/-- The state `state0` after one packet of kind response from `addrA`. -/
def stateA : State := (GotPacketFromHost state0 true addrA HostPkt_R 0).1

/-! ## The counting invariant -/

/-- The counters of a host are consistent: the arrays have their sizes and
`totalops` is the sum of the six operation counters. -/
def HostEntry.OK (e : HostEntry) : Prop := e.WF ∧ e.totalops = e.stat.sum

/-- The counters of a service type are consistent: the array has its size,
`totalops` is the sum of the six operation counters, and no counter is
negative. -/
def ActivityStat.OK (s : ActivityStat) : Prop :=
  s.WF ∧ s.totalops = s.stat.sum ∧ ∀ x ∈ s.stat, 0 ≤ x

/-- Every host of the two registries and every service type has consistent
counters. -/
def State.Inv (σ : State) : Prop :=
  (∀ e ∈ σ.IPv4HostList.hosts, e.OK) ∧ (∀ e ∈ σ.IPv6HostList.hosts, e.OK) ∧
  (∀ s ∈ σ.stats, s.OK)

/-- A property of the way a loop ends: `P` for the value at the normal end, `Q`
for the state at a `return`; nothing is asked of `exit(-1)`. -/
def Flow.Holds {α : Type} (P : α → Prop) (Q : State → Prop) : Flow α → Prop
  | .next a => P a
  | .ret σ => Q σ
  | .exit => True

/-- A standard query sent to the multicast group from port 5353 by 192.168.1.10,
with one question, `_http._tcp.local.` of type PTR and class IN, and no
record. -/
def pktBrowse : Packet where
  msg := {
    id := 0, flags0 := 0, numQuestions := 1, numAnswers := 0, numAuthorities := 0,
    numAdditionals := 0,
    questions := [{ qname := name_http_tcp_local, qtype := kDNSType_PTR, qclass := 1 }],
    answers := [], authorities := [], additionals := [] }
  srcaddr := addrA
  srcport := MulticastDNSPort
  dstaddr := AllDNSLinkGroup_v4
  InterfaceID := 1
  ifIndex := 1
  timenow := 5000
  ResourceRecordAnswersQuestion := fun _ _ => false
  reallocOk := true
  mallocOk := true

/-! ## Sequences of calls of `GotPacketFromHost` -/

/-- The addresses of the entries of a registry, in the order of the slots. -/
def HostList.addrs (l : HostList) : List mDNSAddr := l.hosts.map (fun e => e.addr)

/-- The state after a sequence of calls `GotPacketFromHost(addr, t, id)`, given
as triples `(addr, t, id)`, in which every `realloc` succeeds. -/
def GotPacketsFromHosts : State → List (mDNSAddr × Nat × Nat) → State
  | σ, [] => σ
  | σ, c :: cs => GotPacketsFromHosts (GotPacketFromHost σ true c.1 c.2.1 c.2.2).1 cs

/-- The registry that `GotPacketFromHost` chooses for an address. -/
def State.listFor (σ : State) (addr : mDNSAddr) : HostList :=
  if addr.type = mDNSAddrType_IPv4 then σ.IPv4HostList else σ.IPv6HostList

/-! ## Reverse-mapping names -/

/-- The label `in-addr`. -/
def label_in_addr : List Nat := [105, 110, 45, 97, 100, 100, 114]

/-- The label `arpa`. -/
def label_arpa : List Nat := [97, 114, 112, 97]

/-- The label `ip6`. -/
def label_ip6 : List Nat := [105, 112, 54]

/-- The hexadecimal digit (upper case) of a nibble, as a one-character label. -/
def hexLabel (nibble : Nat) : List Nat := [hexValues.getD nibble 0]

/-- The labels of the reverse-mapping name of an IPv4 address: the four bytes
in decimal, last byte first, then `in-addr` and `arpa`. -/
def reverseLabels_v4 (b0 b1 b2 b3 : Fin 256) : List (List Nat) :=
  [decimal b3.val, decimal b2.val, decimal b1.val, decimal b0.val, label_in_addr, label_arpa]

/-- The labels of the reverse-mapping name of an IPv6 address: for `j` from 0
to 15 the low nibble of byte `15 - j`, then its high nibble, each as one
hexadecimal digit; then `ip6` and `arpa`. -/
def reverseLabels_v6 (b : List (Fin 256)) : List (List Nat) :=
  ((List.range 16).map (fun j =>
      [hexLabel ((b.getD (15 - j) 0).val % 16), hexLabel ((b.getD (15 - j) 0).val / 16)])).flatten
    ++ [label_ip6, label_arpa]

/-- The `HostEntry *` for slot `i` of the registry chosen for an address. -/
def HostRef.forAddr (addr : mDNSAddr) (i : Nat) : HostRef :=
  if addr.type = mDNSAddrType_IPv4 then .v4 i else .v6 i

/-- The increment `entry->pkts[t]++` that `GotPacketFromHost` makes unless the
id is the private marker 0xFFFF. -/
def HostEntry.gotPacket (e : HostEntry) (t id : Nat) : HostEntry :=
  if id ≠ 0xFFFF then { e with pkts := bumpAt e.pkts t } else e

/-! ## Example data for the host-information state machine -/

/-- The name `a.local.`. -/
def name_a_local : domainname := nameOfLabels [[97], [108, 111, 99, 97, 108]]

/-- The name `b.local.`. -/
def name_b_local : domainname := nameOfLabels [[98], [108, 111, 99, 97, 108]]

/-- The entry of 192.168.1.10 after one follow-up query, sent at time 5000. -/
def hostAsked : HostEntry :=
  { newHostEntry addrA with NumQueries := 1, LastQuery := some 5000 }

/-- The entry of 192.168.1.10 after one follow-up query, sent at time `t`. -/
def hostAskedAt (t : Int) : HostEntry :=
  { newHostEntry addrA with NumQueries := 1, LastQuery := some t }

/-- The entry of 192.168.1.10 with the host name `a.local.`. -/
def hostNamed : HostEntry := { newHostEntry addrA with hostname := name_a_local }

/-- An HINFO record owned by `b.local.` whose two strings are empty. -/
def rrHinfo : ResourceRecord :=
  { name := name_b_local, rrtype := kDNSType_HINFO, rrclass := 1, unique := true,
    rroriginalttl := 120, rdlength := 2, rdata := [0, 0] }

/-- An HINFO record owned by the root name, with two empty strings. -/
def rrHinfoRoot : ResourceRecord :=
  { name := ⟨[0]⟩, rrtype := kDNSType_HINFO, rrclass := 1, unique := true,
    rroriginalttl := 120, rdlength := 2, rdata := [0, 0] }

/-- A message with opcode 5 (neither a standard query nor a standard response)
from 192.168.1.10 to the unicast address 192.168.1.11. -/
def pktOddUnicast : Packet where
  msg := {
    id := 0, flags0 := 0x28, numQuestions := 0, numAnswers := 0, numAuthorities := 0,
    numAdditionals := 0, questions := [], answers := [], authorities := [], additionals := [] }
  srcaddr := addrA
  srcport := MulticastDNSPort
  dstaddr := addrB
  InterfaceID := 1
  ifIndex := 1
  timenow := 5000
  ResourceRecordAnswersQuestion := fun _ _ => false
  reallocOk := true
  mallocOk := true

/-- A standard response sent to the multicast group by 192.168.1.10 with the
transaction id 0xFFFF and one answer: a PTR record for `_http._tcp.local.` with
a time-to-live of zero (a goodbye). -/
def pktGoodbyeSelf : Packet where
  msg := {
    id := 0xFFFF, flags0 := 0x84, numQuestions := 0, numAnswers := 1, numAuthorities := 0,
    numAdditionals := 0, questions := [],
    answers := [{ name := name_http_tcp_local, rrtype := kDNSType_PTR, rrclass := 1,
                  unique := false, rroriginalttl := 0, rdlength := 0, rdata := [] }],
    authorities := [], additionals := [] }
  srcaddr := addrA
  srcport := MulticastDNSPort
  dstaddr := AllDNSLinkGroup_v4
  InterfaceID := 1
  ifIndex := 1
  timenow := 5000
  ResourceRecordAnswersQuestion := fun _ _ => false
  reallocOk := true
  mallocOk := true

/-! ## The classification of a packet as a sequence of steps -/

/-- The state `σ1` differs from `σ` at most in the global counters `Num...` and
in the log of displayed records: configuration, registries, statistics and the
log of queries sent are the same. -/
def State.sameCore (σ1 σ : State) : Prop :=
  σ1 = { σ with
    NumPktQ := σ1.NumPktQ, NumPktL := σ1.NumPktL, NumPktR := σ1.NumPktR,
    NumPktB := σ1.NumPktB, NumProbes := σ1.NumProbes, NumGoodbyes := σ1.NumGoodbyes,
    NumQuestions := σ1.NumQuestions, NumLegacy := σ1.NumLegacy, NumAnswers := σ1.NumAnswers,
    NumAdditionals := σ1.NumAdditionals, displayed := σ1.displayed }

/-- The records of a message, of the three record sections. -/
def DNSMessage.records (msg : DNSMessage) : List ResourceRecord :=
  msg.answers ++ msg.authorities ++ msg.additionals

/-- One step of the classification of the packet `pkt` whose host entry is
`entry`: a change of global counters and of the display log; a call of
`recordstat` with one of the four operation kinds of the call sites; a call of
`RecordHostInfo` with a record of the message; the call of `AnalyseHost`. -/
inductive Step (pkt : Packet) (entry : Option HostRef) : State → State → Prop where
  | tally (σ σ1 : State) (h : σ1.sameCore σ) : Step pkt entry σ σ1
  | count (σ σ1 : State) (fqdn : domainname) (op : Int) (rrtype : Nat)
      (hop : 0 ≤ op ∧ op ≤ 3)
      (h : recordstat σ pkt.mallocOk entry fqdn op rrtype = some σ1) : Step pkt entry σ σ1
  | info (σ : State) (rr : ResourceRecord) (hrr : rr ∈ pkt.msg.records) :
      Step pkt entry σ (σ.recordHostInfo rr entry)
  | analyse (σ : State) : Step pkt entry σ (σ.analyse pkt.timenow pkt.InterfaceID entry)

/-- A sequence of steps of the classification of a packet. -/
def Steps (pkt : Packet) (entry : Option HostRef) : State → State → Prop :=
  Relation.ReflTransGen (Step pkt entry)

/-- The browse query `pktBrowse`, received at time `t`. -/
def pktBrowseAt (t : Int) : Packet := { pktBrowse with timenow := t }

/-- The record does not give a host name: it is no A, AAAA or PTR record. -/
def ResourceRecord.noName (rr : ResourceRecord) : Prop :=
  rr.rrtype ≠ kDNSType_A ∧ rr.rrtype ≠ kDNSType_AAAA ∧ rr.rrtype ≠ kDNSType_PTR

instance (rr : ResourceRecord) : Decidable rr.noName := by
  unfold ResourceRecord.noName; exact inferInstance

/-! ## Decoding failures -/

/-- The end of a loop turned into a `return` from the function: the loop was
left where it would have gone on, in the state `st a` reached so far. -/
def Flow.stop {α β : Type} (st : α → State) : Flow α → Flow β
  | .next a => .ret (st a)
  | .ret σ => .ret σ
  | .exit => .exit

/-- The loop ends without `exit(-1)`. -/
def Flow.returns {α : Type} : Flow α → Prop
  | .next _ => True
  | .ret _ => True
  | .exit => False

/-- The host entry that `DisplayQuery` holds while it walks the message: the
result of its call of `GotPacketFromHost`. -/
def DisplayQuery_entry (σ : State) (pkt : Packet) : Option HostRef :=
  (GotPacketFromHost σ pkt.reallocOk pkt.srcaddr
    (if pkt.srcport = MulticastDNSPort then HostPkt_Q else HostPkt_L) pkt.msg.id).2

/-- The state in which `DisplayQuery` enters its first loop: after
`GotPacketFromHost` and the count of the packet. -/
def DisplayQuery_start (σ : State) (pkt : Packet) : State :=
  let g := GotPacketFromHost σ pkt.reallocOk pkt.srcaddr
    (if pkt.srcport = MulticastDNSPort then HostPkt_Q else HostPkt_L) pkt.msg.id
  if pkt.msg.id ≠ 0xFFFF then
    if pkt.srcport = MulticastDNSPort then { g.1 with NumPktQ := g.1.NumPktQ + 1 }
    else { g.1 with NumPktL := g.1.NumPktL + 1 }
  else g.1

/-- The host entry that `DisplayResponse` holds while it walks the message. -/
def DisplayResponse_entry (σ : State) (pkt : Packet) : Option HostRef :=
  (GotPacketFromHost σ pkt.reallocOk pkt.srcaddr HostPkt_R pkt.msg.id).2

/-- The state in which `DisplayResponse` enters its first loop. -/
def DisplayResponse_start (σ : State) (pkt : Packet) : State :=
  let g := GotPacketFromHost σ pkt.reallocOk pkt.srcaddr HostPkt_R pkt.msg.id
  if pkt.msg.id ≠ 0xFFFF then { g.1 with NumPktR := g.1.NumPktR + 1 } else g.1

/-- A standard response sent to the multicast group by 192.168.1.10 whose header
announces two answers and one additional record, of which only the first
answer, a PTR record for `_http._tcp.local.`, decodes. -/
def pktCutResponse : Packet where
  msg := {
    id := 0, flags0 := 0x84, numQuestions := 0, numAnswers := 2, numAuthorities := 0,
    numAdditionals := 1, questions := [],
    answers := [{ name := name_http_tcp_local, rrtype := kDNSType_PTR, rrclass := 1,
                  unique := false, rroriginalttl := 120, rdlength := 0, rdata := [] }],
    authorities := [],
    additionals := [{ name := name_a_local, rrtype := kDNSType_TXT, rrclass := 1,
                      unique := true, rroriginalttl := 120, rdlength := 0, rdata := [] }] }
  srcaddr := addrA
  srcport := MulticastDNSPort
  dstaddr := AllDNSLinkGroup_v4
  InterfaceID := 1
  ifIndex := 1
  timenow := 5000
  ResourceRecordAnswersQuestion := fun _ _ => false
  reallocOk := true
  mallocOk := true

/-! ## The report of the service types -/

/-- The inner loop of `printstats`,
`for (s = stats; s; s=s->next) if (!s->printed && max_val < s->totalops) { m = s; max_val = s->totalops; }`,
over the rest of the list, whose first entry has position `j`: the position of
the entry `m` at the end, `none` for `m == NULL`. -/
def printstats_scan : List ActivityStat → Nat → Int → Option Nat → Option Nat
  | [], _, _, m => m
  | s :: next, j, max_val, m =>
    if s.printed = 0 ∧ max_val < s.totalops then printstats_scan next (j + 1) s.totalops (some j)
    else printstats_scan next (j + 1) max_val m

/-- The statement `m->printed = mDNStrue` on the entry at position `j`. -/
def markPrinted : List ActivityStat → Nat → List ActivityStat
  | [], _ => []
  | s :: next, 0 => { s with printed := 1 } :: next
  | s :: next, j + 1 => s :: markPrinted next j

/-- The outer loop of `printstats`, `n` iterations left: the list at the end and
the lines printed, each given by the position of the entry it prints, in the
order of printing. -/
def printstats_loop : Nat → List ActivityStat → List Nat → List ActivityStat × List Nat
  | 0, stats, out => (stats, out)
  | n + 1, stats, out =>
    match printstats_scan stats 0 0 none with
    | none => (stats, out)
    | some j => printstats_loop n (markPrinted stats j) (out ++ [j])

/-- `printstats(max)`: the state at the end and the positions in `stats` of the
entries printed, in the order of printing. -/
def printstats (σ : State) (max : Int) : State × List Nat :=
  if σ.stats = [] then (σ, [])
  else
    let r := printstats_loop max.toNat σ.stats []
    ({ σ with stats := r.1 }, r.2)

/-- The positions of the entries of the list that have not been reported, in
the order of the list. -/
def unreported (stats : List ActivityStat) : List Nat :=
  (List.range stats.length).filter fun j => (stats[j]?.map fun s => s.printed) = some 0

/-- The field `totalops` of the entry at position `j`. -/
def totalopsAt (stats : List ActivityStat) (j : Nat) : Int :=
  (stats[j]?.map fun s => s.totalops).getD 0

/-- The order of the report: the entry at `a` comes no later than the entry at
`b` when it has more operations, or as many and comes no later in the list. -/
def reportOrder (stats : List ActivityStat) (a b : Nat) : Prop :=
  totalopsAt stats b < totalopsAt stats a ∨ (totalopsAt stats a = totalopsAt stats b ∧ a ≤ b)

instance (stats : List ActivityStat) : DecidableRel (reportOrder stats) :=
  fun a b => inferInstanceAs (Decidable
    (totalopsAt stats b < totalopsAt stats a ∨ (totalopsAt stats a = totalopsAt stats b ∧ a ≤ b)))

/-- The positions of the unreported entries sorted by `totalops` in descending
order, ties kept in the order of the list. -/
def sortedUnreported (stats : List ActivityStat) : List Nat :=
  (unreported stats).insertionSort (reportOrder stats)

/-- The service types `_http._tcp`, `_ipp._tcp` and `_ssh._tcp` with 2, 5 and 5
operations and `_smb._tcp`, already reported, with 9. -/
def statsFour : List ActivityStat :=
  [ { srvtype := name_http_tcp, printed := 0, totalops := 2, stat := [0, 0, 2, 0, 0, 0] },
    { srvtype := nameOfLabels [[95, 105, 112, 112], [95, 116, 99, 112]], printed := 0,
      totalops := 5, stat := [0, 0, 5, 0, 0, 0] },
    { srvtype := nameOfLabels [[95, 115, 115, 104], [95, 116, 99, 112]], printed := 0,
      totalops := 5, stat := [0, 0, 0, 5, 0, 0] },
    { srvtype := nameOfLabels [[95, 115, 109, 98], [95, 116, 99, 112]], printed := 1,
      totalops := 9, stat := [9, 0, 0, 0, 0, 0] } ]

/-- The initial state of a capture with the list `statsFour` of service types. -/
def stateFour : State := { state0 with stats := statsFour }

instance (stats : List ActivityStat) : IsTotal Nat (reportOrder stats) where
  total a b := by
    unfold reportOrder
    rcases lt_trichotomy (totalopsAt stats a) (totalopsAt stats b) with h | h | h
    · exact Or.inr (Or.inl h)
    · rcases Nat.le_total a b with hab | hab
      · exact Or.inl (Or.inr ⟨h, hab⟩)
      · exact Or.inr (Or.inr ⟨h.symm, hab⟩)
    · exact Or.inl (Or.inl h)

instance (stats : List ActivityStat) : IsTrans Nat (reportOrder stats) where
  trans a b c := by
    unfold reportOrder
    rintro (h1 | ⟨h1, h2⟩) (h3 | ⟨h3, h4⟩)
    · exact Or.inl (lt_trans h3 h1)
    · exact Or.inl (h3 ▸ h1)
    · exact Or.inl (h1 ▸ h3)
    · exact Or.inr ⟨h1.trans h3, Nat.le_trans h2 h4⟩

instance (stats : List ActivityStat) : IsAntisymm Nat (reportOrder stats) where
  antisymm a b := by
    unfold reportOrder
    rintro (h1 | ⟨h1, h2⟩) (h3 | ⟨h3, h4⟩)
    · exact absurd h1 (not_lt_of_gt h3)
    · rw [h3] at h1; exact absurd h1 (lt_irrefl _)
    · rw [h1] at h3; exact absurd h3 (lt_irrefl _)
    · exact Nat.le_antisymm h2 h4

/-! ## The report of the hosts -/

/-- The macro `HostEntryTotalPackets(H)`, a sum of four `unsigned long`. On the
Windows targets of this program `unsigned long` has 32 bits, so the sum is taken
modulo `2^32`. -/
def HostEntryTotalPackets (H : HostEntry) : Nat :=
  (H.pkts.getD HostPkt_Q 0 + H.pkts.getD HostPkt_L 0 + H.pkts.getD HostPkt_R 0 +
    H.pkts.getD HostPkt_B 0) % 2 ^ 32

/-- The conversion `(int)` of an `unsigned long` value, both of 32 bits: the
value with the same bits in two's complement. -/
def toInt32 (x : Nat) : Int :=
  if x % 2 ^ 32 < 2 ^ 31 then (x % 2 ^ 32 : Nat) else ((x % 2 ^ 32 : Nat) : Int) - 2 ^ 32

/-- `CompareHosts(p1, p2)`: the difference of the two totals, computed in
`unsigned long` and converted to `int`. -/
def CompareHosts (p1 p2 : HostEntry) : Int :=
  toInt32 ((HostEntryTotalPackets p2 + 2 ^ 32 - HostEntryTotalPackets p1) % 2 ^ 32)

/-- The bytes of the string literal `"\x27*** Unknown (Jaguar, Windows, etc.) ***"`
with its terminator. -/
def unknownSoftwareText : List Nat :=
  [0x27, 42, 42, 42, 32, 85, 110, 107, 110, 111, 119, 110, 32, 40, 74, 97, 103, 117, 97, 114,
   44, 32, 87, 105, 110, 100, 111, 119, 115, 44, 32, 101, 116, 99, 46, 41, 32, 42, 42, 42, 0]

/-- The body of the loop of `ShowSortedHostList` on the entry `e`: the lines
printed show the entry, and the entry gets the text "Unknown" as its software
when it has none and has been asked more than twice. -/
def ShowSortedHostList_entry (e : HostEntry) : HostEntry :=
  if byteAt e.HISoftware 0 = 0 ∧ 2 < e.NumQueries then
    { e with HISoftware := memCopy e.HISoftware unknownSoftwareText 0 0x28 }
  else e

/-- `ShowSortedHostList(list, max)`: the list afterwards and the entries
reported, in the order of the report. The function `qsort` of the C library is
the parameter `qsort`: it is given the comparison function and the array and
gives the array sorted. A negative `max` puts `end` before the array, and the
loop is not entered. -/
def ShowSortedHostList
    (qsort : (HostEntry → HostEntry → Int) → List HostEntry → List HostEntry)
    (list : HostList) (max : Int) : HostList × List HostEntry :=
  let last := if max < list.num then max else list.num
  let sorted := qsort CompareHosts list.hosts
  let shown := (sorted.take last.toNat).map ShowSortedHostList_entry
  ({ list with hosts := shown ++ sorted.drop last.toNat }, shown)

/-- A sorting function that a C library may use for `qsort`: insertion sort that
keeps elements that compare equal in their order. -/
def qsortStable (cmp : HostEntry → HostEntry → Int) (l : List HostEntry) : List HostEntry :=
  l.insertionSort fun a b => cmp a b ≤ 0

/-- Another sorting function that a C library may use for `qsort`: insertion
sort of the array read from its end. -/
def qsortBackwards (cmp : HostEntry → HostEntry → Int) (l : List HostEntry) : List HostEntry :=
  l.reverse.insertionSort fun a b => cmp a b ≤ 0

/-- The sum of the four packet counters of a host as a number, without the
limit of the machine type. -/
def HostEntry.totalPackets (e : HostEntry) : Nat :=
  e.pkts.getD HostPkt_Q 0 + e.pkts.getD HostPkt_L 0 + e.pkts.getD HostPkt_R 0 +
    e.pkts.getD HostPkt_B 0

/-- The entry of 192.168.1.10 after 10 query packets. -/
def hostTen : HostEntry := { newHostEntry addrA with pkts := [10, 0, 0, 0] }

/-- The entry of 192.168.1.11 after 3 query packets. -/
def hostThree : HostEntry := { newHostEntry addrB with pkts := [3, 0, 0, 0] }

/-- The entry of 192.168.1.11 after 10 response packets. -/
def hostTenB : HostEntry := { newHostEntry addrB with pkts := [0, 0, 10, 0] }

/-- The entry of 192.168.1.10 after `2^31 + 1` query packets. -/
def hostBusy : HostEntry := { newHostEntry addrA with pkts := [2 ^ 31 + 1, 0, 0, 0] }

/-- The entry of 192.168.1.11 with no packet counted. -/
def hostIdle : HostEntry := newHostEntry addrB

/-! ## Example data for the host information -/

/-- The entry of 192.168.1.10 named `a.local.` with the hardware text `Mac` and
the software text `OS`. -/
def hostWithInfo : HostEntry :=
  { hostNamed with HIHardware := [3, 77, 97, 99], HISoftware := [2, 79, 83] }

/-- An HINFO record owned by `a.local.` with the strings `PC` and `Win`. -/
def rrHinfoPC : ResourceRecord :=
  { name := name_a_local, rrtype := kDNSType_HINFO, rrclass := 1, unique := true,
    rroriginalttl := 120, rdlength := 7, rdata := [2, 80, 67, 3, 87, 105, 110] }

/-! ## Properties of every host of the registries -/

/-- Every host entry of the two registries has the property `P`. -/
def State.AllHosts (P : HostEntry → Prop) (σ : State) : Prop :=
  (∀ e ∈ σ.IPv4HostList.hosts, P e) ∧ (∀ e ∈ σ.IPv6HostList.hosts, P e)

/-- The follow-up queries of a host are in order: when queries have been sent
(`NumQueries` is not zero) the field `LastQuery` has been written, and no more
than four queries have been sent. -/
def HostEntry.Asked (e : HostEntry) : Prop :=
  (e.NumQueries ≠ 0 → e.LastQuery ≠ none) ∧ e.NumQueries ≤ 4

instance (e : HostEntry) : Decidable e.Asked :=
  inferInstanceAs (Decidable ((e.NumQueries ≠ 0 → e.LastQuery ≠ none) ∧ e.NumQueries ≤ 4))

/-- The address and the counters of a host entry: packet counts, total of the
operations, operation counts. -/
def HostEntry.counters (e : HostEntry) : mDNSAddr × List Nat × Nat × List Nat :=
  (e.addr, e.pkts, e.totalops, e.stat)

/-! ## Probes -/

/-- The type and the class of the record read as zero. -/
def ResourceRecord.zeroed (rr : ResourceRecord) : Prop := rr.rrtype = 0 ∧ rr.rrclass = 0

instance (rr : ResourceRecord) : Decidable rr.zeroed :=
  inferInstanceAs (Decidable (rr.rrtype = 0 ∧ rr.rrclass = 0))

/-- A PTR record for `_http._tcp.local.` that points to the instance
`a._http._tcp.local.`. -/
def rrHttpPtr : ResourceRecord :=
  { name := name_http_tcp_local, rrtype := kDNSType_PTR, rrclass := 1, unique := false,
    rroriginalttl := 120, rdlength := 2,
    rdata := (nameOfLabels [[97], [95, 104, 116, 116, 112], [95, 116, 99, 112],
      [108, 111, 99, 97, 108]]).c }

/-- The browse query `pktBrowse` with one authority record, `rrHttpPtr`, that
answers its question: a probe. A record answers a question of the same name and
type. -/
def pktProbeService : Packet :=
  { pktBrowse with
    msg := { pktBrowse.msg with numAuthorities := 1, authorities := [rrHttpPtr] }
    ResourceRecordAnswersQuestion := fun rr q => decide (rr.name = q.qname ∧ rr.rrtype = q.qtype) }

/-- An A record for `a.local.` with the address 192.168.1.10. -/
def rrAddrA : ResourceRecord :=
  { name := name_a_local, rrtype := kDNSType_A, rrclass := 1, unique := true,
    rroriginalttl := 120, rdlength := 4, rdata := [192, 168, 1, 10] }

/-- A probe for a host name: a standard query sent to the multicast group by
192.168.1.10 with one question, for `a.local.` and of type A, and one authority
record, `rrAddrA`, that answers it. -/
def pktProbeHost : Packet :=
  { pktBrowse with
    msg := { pktBrowse.msg with
      questions := [{ qname := name_a_local, qtype := kDNSType_A, qclass := 1 }]
      numAuthorities := 1, authorities := [rrAddrA] }
    ResourceRecordAnswersQuestion := fun rr q => decide (rr.name = q.qname ∧ rr.rrtype = q.qtype) }

/-- The tag with which `DisplayQuery` displays the record of a probe: `(PU)` when
the question asks for a unicast reply, `(PM)` otherwise. -/
def probeTag (q0 : DNSQuestion) : DisplayTag :=
  if q0.qclass &&& kDNSQClass_UnicastResponse ≠ 0 then .PU else .PM

/-- The state after the statements `NumProbes++` and `DisplayResourceRecord` of
`DisplayQuery` for the question `q0` matched by the record `rr`, before the
call of `recordstat`. -/
def probeTally (σ : State) (q0 : DNSQuestion) (rr : ResourceRecord) : State :=
  State.display { σ with NumProbes := σ.NumProbes + 1 } (probeTag q0) rr

/-! # Theorems -/

/-! ## `ExtractServiceType` on well-formed names -/

theorem ExtractServiceType_eq (fqdn : domainname) :
    ExtractServiceType fqdn =
      if byteAt fqdn.c 0 = 0 ∨ byteAt fqdn.c 0 ≥ 0x40 then none
      else
        (readLabel fqdn.c (if byteAt fqdn.c 1 ≠ underscore then 1 + byteAt fqdn.c 0 else 0)).bind
          fun r1 => (readLabel fqdn.c r1.2).bind fun r2 => some ⟨r1.1 ++ r2.1 ++ [0]⟩ := by
  unfold ExtractServiceType
  simp only [Nat.zero_add]
  by_cases h0 : byteAt fqdn.c 0 = 0 ∨ byteAt fqdn.c 0 ≥ 0x40
  · rw [if_pos h0, if_pos h0]
  · rw [if_neg h0, if_neg h0]
    generalize (if byteAt fqdn.c 1 ≠ underscore then 1 + byteAt fqdn.c 0 else 0) = src1
    unfold readLabel
    by_cases h1 : byteAt fqdn.c src1 = 0 ∨ byteAt fqdn.c src1 ≥ 0x40 ∨
        byteAt fqdn.c (src1 + 1) ≠ underscore
    · simp only [if_pos h1, Option.bind]
    · simp only [if_neg h1, Option.bind]
      split_ifs <;> rfl

theorem byteAt_append_length (a b : List Nat) (i : Nat) :
    byteAt (a ++ b) (a.length + i) = byteAt b i := by
  unfold byteAt
  rw [List.getD_append_right _ _ _ _ (by omega)]
  congr 1; omega

theorem copyLabel_append (a b : List Nat) (s n : Nat) :
    copyLabel (a ++ b) (a.length + s) n = copyLabel b s n := by
  unfold copyLabel
  apply List.map_congr_left
  intro i _
  rw [Nat.add_assoc, byteAt_append_length]

theorem copyLabel_prefix (a post : List Nat) (n : Nat) (h : n + 1 = a.length) :
    copyLabel (a ++ post) 0 n = a := by
  unfold copyLabel byteAt
  apply List.ext_getElem
  · simp [h]
  · intro i h1 h2
    simp at h1
    simp [List.getD_eq_getElem?_getD, List.getElem?_append_left h2, List.getElem?_eq_getElem h2]

theorem bytesOfLabels_cons (l : List Nat) (ls : List (List Nat)) :
    bytesOfLabels (l :: ls) = labelBytes l ++ bytesOfLabels ls := by
  simp [bytesOfLabels]

theorem readLabel_nil (pre : List Nat) : readLabel (pre ++ bytesOfLabels []) pre.length = none := by
  have h := byteAt_append_length pre (bytesOfLabels []) 0
  simp only [Nat.add_zero] at h
  simp [readLabel, h, bytesOfLabels, byteAt]

theorem readLabel_cons (pre : List Nat) (l : List Nat) (ls : List (List Nat)) (hl : LabelOK l) :
    readLabel (pre ++ bytesOfLabels (l :: ls)) pre.length =
      if UnderscoreLabel l then some (labelBytes l, (pre ++ labelBytes l).length) else none := by
  obtain ⟨h1, h2⟩ := hl
  match l, h1, h2 with
  | x :: t, _, h2 =>
    simp only [List.length_cons] at h2
    have e0 := byteAt_append_length pre (bytesOfLabels ((x :: t) :: ls)) 0
    have e1 := byteAt_append_length pre (bytesOfLabels ((x :: t) :: ls)) 1
    have ec := copyLabel_append pre (bytesOfLabels ((x :: t) :: ls)) 0 (t.length + 1)
    simp only [Nat.add_zero] at e0 ec
    have b0 : byteAt (bytesOfLabels ((x :: t) :: ls)) 0 = t.length + 1 := by
      simp [bytesOfLabels_cons, labelBytes, byteAt]
    have b1 : byteAt (bytesOfLabels ((x :: t) :: ls)) 1 = x := by
      simp [bytesOfLabels_cons, labelBytes, byteAt]
    have bc : copyLabel (bytesOfLabels ((x :: t) :: ls)) 0 (t.length + 1) = labelBytes (x :: t) := by
      rw [bytesOfLabels_cons]
      exact copyLabel_prefix _ _ _ (by simp [labelBytes])
    unfold readLabel
    simp only [e0, e1, b0, b1, ec, bc, UnderscoreLabel, List.head?_cons, Option.some.injEq]
    by_cases hx : x = underscore
    · rw [if_neg (by omega), if_pos hx]
      simp [labelBytes]
    · rw [if_pos (by right; right; exact hx), if_neg hx]

theorem readTwo_labels (pre : List Nat) (ls : List (List Nat)) (hls : ∀ l ∈ ls, LabelOK l) :
    ((readLabel (pre ++ bytesOfLabels ls) pre.length).bind fun r1 =>
      (readLabel (pre ++ bytesOfLabels ls) r1.2).bind fun r2 =>
        some (⟨r1.1 ++ r2.1 ++ [0]⟩ : domainname)) = twoUnderscoreLabels ls := by
  match ls, hls with
  | [], _ => simp [readLabel_nil, twoUnderscoreLabels]
  | [l1], hls =>
    rw [readLabel_cons pre l1 [] (hls l1 (by simp))]
    by_cases u1 : UnderscoreLabel l1
    · have e : pre ++ bytesOfLabels [l1] = (pre ++ labelBytes l1) ++ bytesOfLabels [] := by
        simp [bytesOfLabels_cons]
      simp only [if_pos u1, Option.bind, twoUnderscoreLabels]
      rw [e, readLabel_nil]
    · simp [if_neg u1, twoUnderscoreLabels]
  | l1 :: l2 :: r, hls =>
    rw [readLabel_cons pre l1 (l2 :: r) (hls l1 (by simp))]
    by_cases u1 : UnderscoreLabel l1
    · have e : pre ++ bytesOfLabels (l1 :: l2 :: r) =
          (pre ++ labelBytes l1) ++ bytesOfLabels (l2 :: r) := by
        simp [bytesOfLabels_cons]
      simp only [if_pos u1, Option.bind, twoUnderscoreLabels]
      rw [e, readLabel_cons _ l2 r (hls l2 (by simp))]
      by_cases u2 : UnderscoreLabel l2
      · simp [u1, u2, nameOfLabels]
      · simp [u1, u2]
    · simp [if_neg u1, twoUnderscoreLabels, u1]

/-- On a well-formed name `ExtractServiceType` computes `serviceTypeOfLabels`. -/
theorem ExtractServiceType_labels (ls : List (List Nat)) (hls : ∀ l ∈ ls, LabelOK l) :
    ExtractServiceType (nameOfLabels ls) = serviceTypeOfLabels ls := by
  rw [ExtractServiceType_eq]
  match ls, hls with
  | [], _ => simp [nameOfLabels, byteAt, serviceTypeOfLabels]
  | [] :: _, hls => exact absurd (hls [] (by simp)).1 (by simp)
  | (x :: t) :: rest, hls =>
    have hl := hls (x :: t) (by simp)
    have h2 : t.length + 1 ≤ 63 := by simpa [LabelOK] using hl.2
    have hrest : ∀ l ∈ rest, LabelOK l := fun l hl => hls l (by simp [hl])
    have ec : (nameOfLabels ((x :: t) :: rest)).c = bytesOfLabels ((x :: t) :: rest) := rfl
    have b0 : byteAt (bytesOfLabels ((x :: t) :: rest)) 0 = t.length + 1 := by
      simp [bytesOfLabels_cons, labelBytes, byteAt]
    have b1 : byteAt (bytesOfLabels ((x :: t) :: rest)) 1 = x := by
      simp [bytesOfLabels_cons, labelBytes, byteAt]
    rw [ec, b0, b1, if_neg (by omega)]
    by_cases hx : x = underscore
    · have u : UnderscoreLabel (x :: t) := by simp [UnderscoreLabel, hx]
      have := readTwo_labels [] ((x :: t) :: rest) hls
      simp only [List.nil_append, List.length_nil] at this
      simp only [serviceTypeOfLabels, if_pos u]
      rw [if_neg (by simpa using hx)]
      exact this
    · have u : ¬ UnderscoreLabel (x :: t) := by simp [UnderscoreLabel, hx]
      have := readTwo_labels (labelBytes (x :: t)) rest hrest
      simp only [serviceTypeOfLabels, if_neg u]
      rw [if_pos hx]
      rw [bytesOfLabels_cons]
      have e : 1 + (t.length + 1) = (labelBytes (x :: t)).length := by
        simp [labelBytes]; omega
      rw [e]
      exact this

theorem twoUnderscoreLabels_some (ls : List (List Nat)) (t : domainname)
    (h : twoUnderscoreLabels ls = some t) :
    ∃ l1 l2 rest, ls = l1 :: l2 :: rest ∧ UnderscoreLabel l1 ∧ UnderscoreLabel l2 ∧
      t = nameOfLabels [l1, l2] := by
  match ls, h with
  | l1 :: l2 :: rest, h =>
    simp only [twoUnderscoreLabels] at h
    split_ifs at h with hu
    exact ⟨l1, l2, rest, rfl, hu.1, hu.2, (Option.some.inj h).symm⟩

theorem serviceTypeOfLabels_some (ls : List (List Nat)) (t : domainname)
    (h : serviceTypeOfLabels ls = some t) :
    ∃ lead l1 l2 rest, ls = lead ++ l1 :: l2 :: rest ∧ lead.length ≤ 1 ∧
      (∀ l ∈ lead, ¬ UnderscoreLabel l) ∧ UnderscoreLabel l1 ∧ UnderscoreLabel l2 ∧
      t = nameOfLabels [l1, l2] := by
  match ls, h with
  | l0 :: rest, h =>
    simp only [serviceTypeOfLabels] at h
    split_ifs at h with hu
    · obtain ⟨l1, l2, r, e, u1, u2, ht⟩ := twoUnderscoreLabels_some _ _ h
      exact ⟨[], l1, l2, r, by simpa using e, by simp, by simp, u1, u2, ht⟩
    · obtain ⟨l1, l2, r, e, u1, u2, ht⟩ := twoUnderscoreLabels_some _ _ h
      exact ⟨[l0], l1, l2, r, by simp [e], by simp, by simpa using hu, u1, u2, ht⟩

/-- C5: on a well-formed name made of at most one ordinary leading label
(1..63 bytes, not starting with an underscore), then two labels of 1..63 bytes
that start with an underscore, then any further labels, `ExtractServiceType`
succeeds, and its output is the two underscore labels, byte for byte, followed
by the root label. -/
theorem ExtractServiceType_two_underscore_labels (lead : List (List Nat)) (l1 l2 : List Nat)
    (rest : List (List Nat)) (hlead : lead.length ≤ 1)
    (hl : ∀ l ∈ lead, LabelOK l ∧ ¬ UnderscoreLabel l)
    (h1 : LabelOK l1) (u1 : UnderscoreLabel l1) (h2 : LabelOK l2) (u2 : UnderscoreLabel l2)
    (hrest : ∀ l ∈ rest, LabelOK l) :
    ExtractServiceType (nameOfLabels (lead ++ l1 :: l2 :: rest)) =
      some ⟨labelBytes l1 ++ labelBytes l2 ++ [0]⟩ := by
  have hwf : ∀ l ∈ lead ++ l1 :: l2 :: rest, LabelOK l := by
    intro l hmem
    simp only [List.mem_append, List.mem_cons] at hmem
    rcases hmem with h | h | h | h
    · exact (hl l h).1
    · exact h ▸ h1
    · exact h ▸ h2
    · exact hrest l h
  rw [ExtractServiceType_labels _ hwf]
  match lead, hlead, hl with
  | [], _, _ =>
    simp [serviceTypeOfLabels, twoUnderscoreLabels, u1, u2, nameOfLabels]
  | [l0], _, hl =>
    have n0 : ¬ UnderscoreLabel l0 := (hl l0 (by simp)).2
    simp [serviceTypeOfLabels, twoUnderscoreLabels, u1, u2, n0, nameOfLabels]

/-- C5, at the name `inst._http._tcp.local.`: the output is `_http._tcp.`. -/
theorem ExtractServiceType_two_underscore_labels_witness :
    ExtractServiceType (nameOfLabels
        ([[105, 110, 115, 116]] ++ [95, 104, 116, 116, 112] :: [95, 116, 99, 112] ::
          [[108, 111, 99, 97, 108]])) =
      some ⟨labelBytes [95, 104, 116, 116, 112] ++ labelBytes [95, 116, 99, 112] ++ [0]⟩ :=
  ExtractServiceType_two_underscore_labels [[105, 110, 115, 116]] [95, 104, 116, 116, 112]
    [95, 116, 99, 112] [[108, 111, 99, 97, 108]] (by decide) (by decide) (by decide) (by decide)
    (by decide) (by decide) (by decide)

/-- C6 as stated fails: the well-formed name `_a._b._c.` has three labels that
start with an underscore, and `ExtractServiceType` succeeds on it (with the
first two). -/
theorem ExtractServiceType_three_underscore_labels :
    (∀ l ∈ [[95, 97], [95, 98], [95, 99]], LabelOK l ∧ UnderscoreLabel l) ∧
    ExtractServiceType (nameOfLabels [[95, 97], [95, 98], [95, 99]]) =
      some (nameOfLabels [[95, 97], [95, 98]]) := by
  decide

/-- C6, amended: on a well-formed name `ExtractServiceType` succeeds only if the
name begins with at most one ordinary leading label followed by two labels that
start with an underscore (what follows them is not looked at), and the result
is these two labels; it fails on a name with fewer than two labels that start
with an underscore; and it fails on every name whose first length byte is zero
or greater than 63. -/
theorem ExtractServiceType_succeeds_only_if (ls : List (List Nat)) (fqdn : domainname)
    (hls : ∀ l ∈ ls, LabelOK l) :
    (∀ t, ExtractServiceType (nameOfLabels ls) = some t →
      ∃ lead l1 l2 rest, ls = lead ++ l1 :: l2 :: rest ∧ lead.length ≤ 1 ∧
        (∀ l ∈ lead, ¬ UnderscoreLabel l) ∧ UnderscoreLabel l1 ∧ UnderscoreLabel l2 ∧
        t = nameOfLabels [l1, l2]) ∧
    (ls.countP (fun l => decide (UnderscoreLabel l)) < 2 →
      ExtractServiceType (nameOfLabels ls) = none) ∧
    (byteAt fqdn.c 0 = 0 ∨ 63 < byteAt fqdn.c 0 → ExtractServiceType fqdn = none) := by
  have key : ∀ t, ExtractServiceType (nameOfLabels ls) = some t →
      ∃ lead l1 l2 rest, ls = lead ++ l1 :: l2 :: rest ∧ lead.length ≤ 1 ∧
        (∀ l ∈ lead, ¬ UnderscoreLabel l) ∧ UnderscoreLabel l1 ∧ UnderscoreLabel l2 ∧
        t = nameOfLabels [l1, l2] := by
    intro t ht
    rw [ExtractServiceType_labels ls hls] at ht
    exact serviceTypeOfLabels_some ls t ht
  refine ⟨key, ?_, ?_⟩
  · intro hc
    cases hres : ExtractServiceType (nameOfLabels ls) with
    | none => rfl
    | some t =>
      obtain ⟨lead, l1, l2, rest, e, _, _, u1, u2, _⟩ := key t hres
      rw [e] at hc
      simp [List.countP_append, List.countP_cons, u1, u2] at hc
      omega
  · intro h0
    rw [ExtractServiceType_eq, if_pos]
    rcases h0 with h | h
    · exact Or.inl h
    · exact Or.inr (by omega)

/-- C6, amended, at the names `x._a.` (one underscore label) and at a name
whose first length byte is 64. -/
theorem ExtractServiceType_succeeds_only_if_witness :
    ExtractServiceType (nameOfLabels [[120], [95, 97]]) = none ∧
    ExtractServiceType ⟨[64, 95, 97]⟩ = none :=
  ⟨(ExtractServiceType_succeeds_only_if [[120], [95, 97]] ⟨[64, 95, 97]⟩ (by decide)).2.1
      (by decide),
   (ExtractServiceType_succeeds_only_if [[120], [95, 97]] ⟨[64, 95, 97]⟩ (by decide)).2.2
      (by decide)⟩

/-! ## Counter arrays -/

theorem length_bumpAt {α : Type} [Add α] [One α] (l : List α) (i : Nat) :
    (bumpAt l i).length = l.length := by
  induction l generalizing i with
  | nil => rfl
  | cons x xs ih => cases i <;> simp [bumpAt, ih]

theorem getD_bumpAt_int (l : List Int) (i k : Nat) (h : i < l.length) :
    (bumpAt l i).getD k 0 = l.getD k 0 + if k = i then 1 else 0 := by
  induction l generalizing i k with
  | nil => simp at h
  | cons x xs ih =>
    cases i with
    | zero => cases k <;> simp [bumpAt]
    | succ i =>
      cases k with
      | zero => simp [bumpAt]
      | succ k =>
        have := ih i k (by simpa using h)
        simpa [bumpAt] using this

theorem getD_bumpAt_nat (l : List Nat) (i k : Nat) (h : i < l.length) :
    (bumpAt l i).getD k 0 = l.getD k 0 + if k = i then 1 else 0 := by
  induction l generalizing i k with
  | nil => simp at h
  | cons x xs ih =>
    cases i with
    | zero => cases k <;> simp [bumpAt]
    | succ i =>
      cases k with
      | zero => simp [bumpAt]
      | succ k =>
        have := ih i k (by simpa using h)
        simpa [bumpAt] using this

theorem length_bumpOp {α : Type} [Add α] [One α] (l : List α) (op : Int) :
    (bumpOp l op).length = l.length := by
  unfold bumpOp
  split_ifs
  · exact length_bumpAt l _
  · rfl

theorem sum_bumpAt_int (l : List Int) (i : Nat) (h : i < l.length) :
    (bumpAt l i).sum = l.sum + 1 := by
  induction l generalizing i with
  | nil => simp at h
  | cons x xs ih =>
    cases i with
    | zero => simp [bumpAt]; ring
    | succ i =>
      have := ih i (by simpa using h)
      simp [bumpAt, this]; ring

theorem sum_bumpAt_nat (l : List Nat) (i : Nat) (h : i < l.length) :
    (bumpAt l i).sum = l.sum + 1 := by
  induction l generalizing i with
  | nil => simp at h
  | cons x xs ih =>
    cases i with
    | zero => simp [bumpAt]; ring
    | succ i =>
      have := ih i (by simpa using h)
      simp [bumpAt, this]; ring

theorem mem_bumpAt_nonneg (l : List Int) (i : Nat) (h : ∀ x ∈ l, 0 ≤ x) :
    ∀ x ∈ bumpAt l i, 0 ≤ x := by
  induction l generalizing i with
  | nil => simp [bumpAt]
  | cons y ys ih =>
    have hy : 0 ≤ y := h y (by simp)
    have hys : ∀ x ∈ ys, 0 ≤ x := fun x hx => h x (by simp [hx])
    cases i with
    | zero =>
      intro x hx
      simp only [bumpAt, List.mem_cons] at hx
      rcases hx with rfl | hx
      · omega
      · exact hys x hx
    | succ i =>
      intro x hx
      simp only [bumpAt, List.mem_cons] at hx
      rcases hx with rfl | hx
      · exact hy
      · exact ih i hys x hx

/-! ## The host registry as a list -/

theorem length_modifyAt (f : HostEntry → HostEntry) (l : List HostEntry) (i : Nat) :
    (modifyAt f l i).length = l.length := by
  induction l generalizing i with
  | nil => rfl
  | cons x xs ih => cases i <;> simp [modifyAt, ih]

theorem get?_modifyAt (f : HostEntry → HostEntry) (l : List HostEntry) (i j : Nat) :
    (modifyAt f l i)[j]? = if j = i then (l[j]?).map f else l[j]? := by
  induction l generalizing i j with
  | nil => simp [modifyAt]
  | cons x xs ih =>
    cases i with
    | zero => cases j <;> simp [modifyAt]
    | succ i =>
      cases j with
      | zero => simp [modifyAt]
      | succ j => simpa [modifyAt] using ih i j

theorem mem_modifyAt (f : HostEntry → HostEntry) (l : List HostEntry) (i : Nat) (e : HostEntry)
    (h : e ∈ modifyAt f l i) : e ∈ l ∨ ∃ e0 ∈ l, e = f e0 := by
  induction l generalizing i with
  | nil => simp [modifyAt] at h
  | cons x xs ih =>
    cases i with
    | zero =>
      simp only [modifyAt, List.mem_cons] at h
      rcases h with h | h
      · exact Or.inr ⟨x, by simp, h⟩
      · exact Or.inl (by simp [h])
    | succ i =>
      simp only [modifyAt, List.mem_cons] at h
      rcases h with h | h
      · exact Or.inl (by simp [h])
      · rcases ih i h with h1 | ⟨e0, h0, h1⟩
        · exact Or.inl (by simp [h1])
        · exact Or.inr ⟨e0, by simp [h0], h1⟩

theorem host?_modifyHost (σ : State) (f : HostEntry → HostEntry) (r r1 : HostRef) :
    (σ.modifyHost f r).host? r1 = if r1 = r then (σ.host? r1).map f else σ.host? r1 := by
  cases r <;> cases r1 <;> simp [State.modifyHost, State.host?, get?_modifyAt]

/-! ## The list of service types -/

theorem statsFind_eq_false (t : domainname) (l : List ActivityStat) :
    statsFind t l = false ↔ ∀ x ∈ l, x.srvtype ≠ t := by
  induction l with
  | nil => simp [statsFind]
  | cons s next ih =>
    by_cases h : s.srvtype = t
    · simp [statsFind, SameDomainName, h]
    · simp [statsFind, SameDomainName, h, ih]

theorem statsCount_new (t : domainname) (op : Int) (l : List ActivityStat)
    (h : ∀ x ∈ l, x.srvtype ≠ t) :
    statsCount t op l = l ++ [(newActivityStat t).count op] := by
  induction l with
  | nil => rfl
  | cons s next ih =>
    have hs : s.srvtype ≠ t := h s (by simp)
    have := ih (fun x hx => h x (by simp [hx]))
    simp [statsCount, SameDomainName, hs, this]

theorem statsCount_found (t : domainname) (op : Int) (l : List ActivityStat)
    (h : statsFind t l = true) :
    ∃ pre s post, l = pre ++ s :: post ∧ (∀ x ∈ pre, x.srvtype ≠ t) ∧ s.srvtype = t ∧
      statsCount t op l = pre ++ s.count op :: post := by
  induction l with
  | nil => simp [statsFind] at h
  | cons s next ih =>
    by_cases hs : s.srvtype = t
    · exact ⟨[], s, next, rfl, by simp, hs, by simp [statsCount, SameDomainName, hs]⟩
    · have h1 : statsFind t next = true := by
        simpa [statsFind, SameDomainName, hs] using h
      obtain ⟨pre, s1, post, e, hp, hs1, hc⟩ := ih h1
      refine ⟨s :: pre, s1, post, by simp [e], ?_, hs1, by simp [statsCount, SameDomainName, hs, hc]⟩
      intro x hx
      simp only [List.mem_cons] at hx
      rcases hx with rfl | hx
      · exact hs
      · exact hp x hx

/-! ## `recordstat` -/

theorem getD_bumpOp_int (l : List Int) (slot : Int) (k : Nat) (h0 : 0 ≤ slot)
    (h1 : slot.toNat < l.length) :
    (bumpOp l slot).getD k 0 = l.getD k 0 + if k = slot.toNat then 1 else 0 := by
  unfold bumpOp
  rw [if_pos h0]
  exact getD_bumpAt_int l _ k h1

theorem getD_bumpOp_nat (l : List Nat) (slot : Int) (k : Nat) (h0 : 0 ≤ slot)
    (h1 : slot.toNat < l.length) :
    (bumpOp l slot).getD k 0 = l.getD k 0 + if k = slot.toNat then 1 else 0 := by
  unfold bumpOp
  rw [if_pos h0]
  exact getD_bumpAt_nat l _ k h1

theorem getD_replicate_zero (n k : Nat) : (List.replicate n (0 : Int)).getD k 0 = 0 := by
  induction n generalizing k with
  | zero => simp
  | succ n ih => cases k <;> simp [List.replicate_succ, ih]

/-- The effect of `recordstat` once the type gate has chosen the slot and the
service type has been extracted. -/
theorem recordstat_counted (σ : State) (mallocOk : Bool) (entry : Option HostRef)
    (fqdn : domainname) (op : Int) (rrtype : Nat) (slot : Int) (t : domainname)
    (hwf : σ.WF) (hgate : recordstatOp op rrtype = some slot)
    (hslot : 0 ≤ slot ∧ slot < OP_NumTypes) (ht : ExtractServiceType fqdn = some t)
    (hm : mallocOk = true ∨ statsFind t σ.stats = true) :
    ∃ σ1, recordstat σ mallocOk entry fqdn op rrtype = some σ1 ∧
      Counted σ σ1 entry t slot.toNat := by
  have hlt : slot.toNat < OP_NumTypes := by
    have := hslot.2
    omega
  have hnoexit : ¬ (statsFind t σ.stats = false ∧ mallocOk = false) := by
    rintro ⟨h1, h2⟩
    rcases hm with h | h
    · simp [h] at h2
    · simp [h] at h1
  -- the list of service types
  have hstats :
      ((∀ x ∈ σ.stats, x.srvtype ≠ t) ∧
        ∃ s, statsCount t slot σ.stats = σ.stats ++ [s] ∧ s.srvtype = t ∧ s.printed = 0 ∧
          s.totalops = 1 ∧ s.stat.length = OP_NumTypes ∧
          ∀ k, s.stat.getD k 0 = if k = slot.toNat then 1 else 0) ∨
      (∃ pre s post s1, σ.stats = pre ++ s :: post ∧ (∀ x ∈ pre, x.srvtype ≠ t) ∧
          s.srvtype = t ∧ statsCount t slot σ.stats = pre ++ s1 :: post ∧ s1.srvtype = t ∧
          s1.printed = s.printed ∧ s1.totalops = s.totalops + 1 ∧
          s1.stat.length = s.stat.length ∧
          ∀ k, s1.stat.getD k 0 = s.stat.getD k 0 + if k = slot.toNat then 1 else 0) := by
    cases hf : statsFind t σ.stats with
    | false =>
      left
      have hne := (statsFind_eq_false t σ.stats).1 hf
      refine ⟨hne, (newActivityStat t).count slot, statsCount_new t slot σ.stats hne, rfl, rfl,
        rfl, ?_, ?_⟩
      · simp [ActivityStat.count, newActivityStat, length_bumpOp]
      · intro k
        have := getD_bumpOp_int (List.replicate OP_NumTypes 0) slot k hslot.1 (by simpa using hlt)
        simpa [ActivityStat.count, newActivityStat, getD_replicate_zero] using this
    | true =>
      right
      obtain ⟨pre, s, post, e, hp, hs, hc⟩ := statsCount_found t slot σ.stats hf
      have hsw : s.stat.length = OP_NumTypes := hwf.2.2 s (by simp [e])
      refine ⟨pre, s, post, s.count slot, e, hp, hs, hc, hs, rfl, rfl, ?_, ?_⟩
      · simp [ActivityStat.count, length_bumpOp]
      · intro k
        exact getD_bumpOp_int s.stat slot k hslot.1 (by omega)
  unfold recordstat
  simp only [hgate, ht, if_neg hnoexit]
  cases entry with
  | none =>
    refine ⟨_, rfl, hstats, fun _ _ => rfl, ?_, rfl, rfl, rfl, rfl, rfl⟩
    intro r e h
    simp at h
  | some r0 =>
    refine ⟨_, rfl, ?_, ?_, ?_, ?_, ?_, ?_, ?_, ?_⟩
    · cases r0 <;> exact hstats
    · intro r hr
      rw [host?_modifyHost, if_neg (fun h => hr (by rw [h]))]
      cases r <;> rfl
    · intro r e hr he
      have hr0 : r0 = r := Option.some.inj hr
      subst hr0
      have he1 : ({ σ with stats := statsCount t slot σ.stats } : State).host? r0 = some e := by
        cases r0 <;> exact he
      have hew : e.stat.length = OP_NumTypes := by
        cases r0 with
        | v4 i => exact (hwf.1 e (List.getElem?_mem he)).2
        | v6 i => exact (hwf.2.1 e (List.getElem?_mem he)).2
      refine ⟨e.count slot, ?_, rfl, ?_, ?_⟩
      · rw [host?_modifyHost, if_pos rfl, he1]
        rfl
      · simp [HostEntry.count, length_bumpOp]
      · intro k
        exact getD_bumpOp_nat e.stat slot k hslot.1 (by omega)
    · cases r0 <;> simp [State.modifyHost, length_modifyAt]
    · cases r0 <;> simp [State.modifyHost, length_modifyAt]
    · cases r0 <;> rfl
    · cases r0 <;> rfl
    · cases r0 <;> rfl

/-- When the type gate refuses the record type, `recordstat` changes nothing. -/
theorem recordstat_dropped (σ : State) (mallocOk : Bool) (entry : Option HostRef)
    (fqdn : domainname) (op : Int) (rrtype : Nat) (hgate : recordstatOp op rrtype = none) :
    recordstat σ mallocOk entry fqdn op rrtype = some σ := by
  unfold recordstat
  simp only [hgate]

/-- C1 as stated fails. In a state holding the host 192.168.1.10, a goodbye for
`_http._tcp.local.` (a name that yields the service type `_http._tcp.`) with
record type A is dropped: `recordstat` returns the state unchanged, and no
`ActivityStat` is created. With record type SRV the goodbye is counted, but in
slot 3 (browse-answer), and the goodbye slot 1 stays at 0. -/
theorem recordstat_goodbye_not_counted :
    ExtractServiceType name_http_tcp_local = some name_http_tcp ∧
    stateA.host? (.v4 0) = some { newHostEntry addrA with pkts := [0, 0, 1, 0] } ∧
    recordstat stateA true (some (.v4 0)) name_http_tcp_local OP_goodbye kDNSType_A
      = some stateA ∧
    stateA.stats = [] ∧
    (recordstat stateA true (some (.v4 0)) name_http_tcp_local OP_goodbye kDNSType_SRV).map
      (fun σ1 => (σ1.stats.map (fun s => s.stat), (σ1.host? (.v4 0)).map (fun e => e.stat)))
      = some ([[0, 0, 0, 1, 0, 0]], some [0, 0, 0, 1, 0, 0]) := by
  decide

/-- C1, amended: for a goodbye event whose name yields the service type `t`,
`recordstat` counts the event in the goodbye slot of the `ActivityStat` of `t`
and of the supplied host when the record type is PTR, and it returns without
counting anything when the record type is none of PTR, SRV and TXT. -/
theorem recordstat_goodbye (σ : State) (mallocOk : Bool) (entry : Option HostRef)
    (fqdn : domainname) (rrtype : Nat) (t : domainname) (hwf : σ.WF)
    (ht : ExtractServiceType fqdn = some t)
    (hm : mallocOk = true ∨ statsFind t σ.stats = true) :
    (rrtype = kDNSType_PTR →
      ∃ σ1, recordstat σ mallocOk entry fqdn OP_goodbye rrtype = some σ1 ∧
        Counted σ σ1 entry t OP_goodbye.toNat) ∧
    (rrtype ≠ kDNSType_PTR ∧ rrtype ≠ kDNSType_SRV ∧ rrtype ≠ kDNSType_TXT →
      recordstat σ mallocOk entry fqdn OP_goodbye rrtype = some σ) := by
  constructor
  · intro h
    subst h
    exact recordstat_counted σ mallocOk entry fqdn OP_goodbye kDNSType_PTR OP_goodbye t hwf
      (by decide) (by decide) ht hm
  · rintro ⟨h1, h2, h3⟩
    apply recordstat_dropped
    simp [recordstatOp, h1, h2, h3, OP_goodbye, OP_probe]

/-- C1, amended, at a goodbye for `_http._tcp.local.` from 192.168.1.10: with
record type PTR it is counted in slot 1, with record type AAAA it is dropped. -/
theorem recordstat_goodbye_witness :
    (∃ σ1, recordstat stateA true (some (.v4 0)) name_http_tcp_local OP_goodbye kDNSType_PTR
        = some σ1 ∧ Counted stateA σ1 (some (.v4 0)) name_http_tcp OP_goodbye.toNat) ∧
    recordstat stateA true (some (.v4 0)) name_http_tcp_local OP_goodbye kDNSType_AAAA
      = some stateA :=
  ⟨(recordstat_goodbye stateA true (some (.v4 0)) name_http_tcp_local kDNSType_PTR name_http_tcp
      (by decide) (by decide) (Or.inl rfl)).1 rfl,
   (recordstat_goodbye stateA true (some (.v4 0)) name_http_tcp_local kDNSType_AAAA name_http_tcp
      (by decide) (by decide) (Or.inl rfl)).2 (by decide)⟩

/-- C2: for a name that yields the service type `t` and for `op` one of
browse-query and browse-answer, `recordstat` counts the event in the resolve
slot of the same kind (resolve-query for browse-query, resolve-answer for
browse-answer) when the record type is SRV or TXT, in the slot `op` itself when
the record type is PTR, and it counts nothing for any other record type. For
`op` the probe the event is counted in the probe slot whatever the record
type. -/
theorem recordstat_slot (σ : State) (mallocOk : Bool) (entry : Option HostRef)
    (fqdn : domainname) (op : Int) (rrtype : Nat) (t : domainname) (hwf : σ.WF)
    (ht : ExtractServiceType fqdn = some t)
    (hm : mallocOk = true ∨ statsFind t σ.stats = true)
    (hop : op = OP_browseq ∨ op = OP_browsea) :
    (rrtype = kDNSType_SRV ∨ rrtype = kDNSType_TXT →
      ∃ σ1, recordstat σ mallocOk entry fqdn op rrtype = some σ1 ∧
        Counted σ σ1 entry t (if op = OP_browseq then OP_resolveq else OP_resolvea).toNat) ∧
    (rrtype = kDNSType_PTR →
      ∃ σ1, recordstat σ mallocOk entry fqdn op rrtype = some σ1 ∧
        Counted σ σ1 entry t op.toNat) ∧
    (rrtype ≠ kDNSType_SRV ∧ rrtype ≠ kDNSType_TXT ∧ rrtype ≠ kDNSType_PTR →
      recordstat σ mallocOk entry fqdn op rrtype = some σ) ∧
    (∃ σ1, recordstat σ mallocOk entry fqdn OP_probe rrtype = some σ1 ∧
        Counted σ σ1 entry t OP_probe.toNat) := by
  refine ⟨?_, ?_, ?_, ?_⟩
  · intro h
    rcases hop with rfl | rfl
    · exact recordstat_counted σ mallocOk entry fqdn OP_browseq rrtype OP_resolveq t hwf
        (by rcases h with h | h <;> simp [recordstatOp, h, OP_browseq, OP_probe, OP_browsegroup,
          OP_resolvegroup, OP_resolveq]) (by decide) ht hm
    · exact recordstat_counted σ mallocOk entry fqdn OP_browsea rrtype OP_resolvea t hwf
        (by rcases h with h | h <;> simp [recordstatOp, h, OP_browsea, OP_probe, OP_browsegroup,
          OP_resolvegroup, OP_resolvea]) (by decide) ht hm
  · intro h
    subst h
    rcases hop with rfl | rfl
    · exact recordstat_counted σ mallocOk entry fqdn OP_browseq kDNSType_PTR OP_browseq t hwf
        (by decide) (by decide) ht hm
    · exact recordstat_counted σ mallocOk entry fqdn OP_browsea kDNSType_PTR OP_browsea t hwf
        (by decide) (by decide) ht hm
  · rintro ⟨h1, h2, h3⟩
    apply recordstat_dropped
    rcases hop with rfl | rfl <;> simp [recordstatOp, h1, h2, h3, OP_browseq, OP_browsea, OP_probe]
  · exact recordstat_counted σ mallocOk entry fqdn OP_probe rrtype OP_probe t hwf
      (by simp [recordstatOp]) (by decide) ht hm

/-- C2, at a browse-answer for `_http._tcp.local.` from 192.168.1.10: SRV is
counted in slot 5 (resolve-answer), PTR in slot 3, A is dropped, and a probe is
counted in slot 0. -/
theorem recordstat_slot_witness :
    (∃ σ1, recordstat stateA true (some (.v4 0)) name_http_tcp_local OP_browsea kDNSType_SRV
        = some σ1 ∧ Counted stateA σ1 (some (.v4 0)) name_http_tcp 5) ∧
    (∃ σ1, recordstat stateA true (some (.v4 0)) name_http_tcp_local OP_browsea kDNSType_PTR
        = some σ1 ∧ Counted stateA σ1 (some (.v4 0)) name_http_tcp 3) ∧
    recordstat stateA true (some (.v4 0)) name_http_tcp_local OP_browsea kDNSType_A
      = some stateA ∧
    (∃ σ1, recordstat stateA true (some (.v4 0)) name_http_tcp_local OP_probe kDNSType_A
        = some σ1 ∧ Counted stateA σ1 (some (.v4 0)) name_http_tcp 0) :=
  ⟨(recordstat_slot stateA true (some (.v4 0)) name_http_tcp_local OP_browsea kDNSType_SRV
      name_http_tcp (by decide) (by decide) (Or.inl rfl) (Or.inr rfl)).1 (Or.inl rfl),
   (recordstat_slot stateA true (some (.v4 0)) name_http_tcp_local OP_browsea kDNSType_PTR
      name_http_tcp (by decide) (by decide) (Or.inl rfl) (Or.inr rfl)).2.1 rfl,
   (recordstat_slot stateA true (some (.v4 0)) name_http_tcp_local OP_browsea kDNSType_A
      name_http_tcp (by decide) (by decide) (Or.inl rfl) (Or.inr rfl)).2.2.1 (by decide),
   (recordstat_slot stateA true (some (.v4 0)) name_http_tcp_local OP_browsea kDNSType_A
      name_http_tcp (by decide) (by decide) (Or.inl rfl) (Or.inr rfl)).2.2.2⟩

/-- C3: when `recordstat` counts an event (the type gate yields the slot `slot`,
which lies in the array, `ExtractServiceType` yields `t`, and the allocation of
a new entry, if one is needed, succeeds), it returns a state `σ1` in which
exactly this has changed. If no `ActivityStat` had service type `t`, one is
appended at the end of the list, with `totalops = 1`, 1 in the slot and 0 in
the other slots, not printed; otherwise the first entry for `t` has
`totalops + 1` and `+ 1` in the slot, and the entries before and after it are
the same. The host supplied has `totalops + 1` and `+ 1` in the slot, and its
other fields (packet counts among them) are the same; every other host is the
same, and so is every host when none is supplied. The rest of the state is
unchanged. -/
theorem recordstat_frame (σ : State) (mallocOk : Bool) (entry : Option HostRef)
    (fqdn : domainname) (op : Int) (rrtype : Nat) (slot : Int) (t : domainname)
    (hwf : σ.WF) (hgate : recordstatOp op rrtype = some slot)
    (hslot : 0 ≤ slot ∧ slot < OP_NumTypes) (ht : ExtractServiceType fqdn = some t)
    (hm : mallocOk = true ∨ statsFind t σ.stats = true) :
    ∃ σ1, recordstat σ mallocOk entry fqdn op rrtype = some σ1 ∧
      (((∀ x ∈ σ.stats, x.srvtype ≠ t) ∧
          ∃ s, σ1.stats = σ.stats ++ [s] ∧ s.srvtype = t ∧ s.printed = 0 ∧ s.totalops = 1 ∧
            s.stat.length = OP_NumTypes ∧
            ∀ k, s.stat.getD k 0 = if k = slot.toNat then 1 else 0) ∨
        (∃ pre s post s1, σ.stats = pre ++ s :: post ∧ (∀ x ∈ pre, x.srvtype ≠ t) ∧
            s.srvtype = t ∧ σ1.stats = pre ++ s1 :: post ∧ s1.srvtype = t ∧
            s1.printed = s.printed ∧ s1.totalops = s.totalops + 1 ∧
            s1.stat.length = s.stat.length ∧
            ∀ k, s1.stat.getD k 0 = s.stat.getD k 0 + if k = slot.toNat then 1 else 0)) ∧
      (∀ r, entry ≠ some r → σ1.host? r = σ.host? r) ∧
      (∀ r e, entry = some r → σ.host? r = some e →
        ∃ e1, σ1.host? r = some e1 ∧
          e1 = { e with totalops := e.totalops + 1, stat := e1.stat } ∧
          e1.stat.length = e.stat.length ∧
          ∀ k, e1.stat.getD k 0 = e.stat.getD k 0 + if k = slot.toNat then 1 else 0) ∧
      σ1.IPv4HostList.hosts.length = σ.IPv4HostList.hosts.length ∧
      σ1.IPv6HostList.hosts.length = σ.IPv6HostList.hosts.length ∧
      σ1.IPv4HostList.max = σ.IPv4HostList.max ∧
      σ1.IPv6HostList.max = σ.IPv6HostList.max ∧
      σ1 = { σ with stats := σ1.stats, IPv4HostList := σ1.IPv4HostList,
                    IPv6HostList := σ1.IPv6HostList } := by
  obtain ⟨σ1, h1, h2⟩ :=
    recordstat_counted σ mallocOk entry fqdn op rrtype slot t hwf hgate hslot ht hm
  exact ⟨σ1, h1, h2⟩

/-- C3, at a browse-query of type PTR for `_http._tcp.local.` from the host
192.168.1.10, in a state without statistics: the entry for `_http._tcp.` is
created with 1 in slot 2, and the host has 1 in slot 2 and its packet counts
as before. -/
theorem recordstat_frame_witness :
    ∃ σ1, recordstat stateA true (some (.v4 0)) name_http_tcp_local OP_browseq kDNSType_PTR
        = some σ1 ∧
      σ1.stats = [{ srvtype := name_http_tcp, printed := 0, totalops := 1,
                    stat := [0, 0, 1, 0, 0, 0] }] ∧
      σ1.host? (.v4 0) = some { newHostEntry addrA with
        pkts := [0, 0, 1, 0], totalops := 1, stat := [0, 0, 1, 0, 0, 0] } := by
  obtain ⟨σ1, h1, _⟩ := recordstat_frame stateA true (some (.v4 0)) name_http_tcp_local
    OP_browseq kDNSType_PTR OP_browseq name_http_tcp (by decide) (by decide) (by decide)
    (by decide) (Or.inl rfl)
  refine ⟨σ1, h1, ?_, ?_⟩
  · have h2 : recordstat stateA true (some (.v4 0)) name_http_tcp_local OP_browseq kDNSType_PTR
        = some (Option.get (recordstat stateA true (some (.v4 0)) name_http_tcp_local OP_browseq
            kDNSType_PTR) (by decide)) := by simp
    rw [h2] at h1
    rw [← Option.some.inj h1]
    decide
  · have h2 : recordstat stateA true (some (.v4 0)) name_http_tcp_local OP_browseq kDNSType_PTR
        = some (Option.get (recordstat stateA true (some (.v4 0)) name_http_tcp_local OP_browseq
            kDNSType_PTR) (by decide)) := by simp
    rw [h2] at h1
    rw [← Option.some.inj h1]
    decide

/-! ## The counting invariant is kept by every operation -/

theorem Flow.Holds_andThen {α β : Type} {P : α → Prop} {P1 : β → Prop} {Q : State → Prop}
    (x : Flow α) (f : α → Flow β) (hx : x.Holds P Q) (hf : ∀ a, P a → (f a).Holds P1 Q) :
    (x.andThen f).Holds P1 Q := by
  cases x with
  | next a => exact hf a hx
  | ret σ => exact hx
  | exit => trivial

theorem Flow.Holds_result {Q : State → Prop} (x : Flow State) (hx : x.Holds Q Q) (σ1 : State)
    (h : x.result = some σ1) : Q σ1 := by
  cases x with
  | next a => simp only [Flow.result, Option.some.injEq] at h; exact h ▸ hx
  | ret σ => simp only [Flow.result, Option.some.injEq] at h; exact h ▸ hx
  | exit => simp [Flow.result] at h

theorem Inv_of_eq (σ σ1 : State) (h4 : σ1.IPv4HostList.hosts = σ.IPv4HostList.hosts)
    (h6 : σ1.IPv6HostList.hosts = σ.IPv6HostList.hosts) (hs : σ1.stats = σ.stats)
    (h : σ.Inv) : σ1.Inv := by
  unfold State.Inv
  rw [h4, h6, hs]
  exact h

theorem Inv_initState (Filters : List mDNSAddr) (FilterInterface : Int) (AddressType : Nat)
    (OneSecond : Int) : (initState Filters FilterInterface AddressType OneSecond).Inv := by
  simp [State.Inv, initState]

theorem all_modifyAt (P : HostEntry → Prop) (f : HostEntry → HostEntry) (l : List HostEntry)
    (i : Nat) (hf : ∀ e, P e → P (f e)) (h : ∀ e ∈ l, P e) : ∀ e ∈ modifyAt f l i, P e := by
  intro e he
  rcases mem_modifyAt f l i e he with h1 | ⟨e0, h0, h1⟩
  · exact h e h1
  · exact h1 ▸ hf e0 (h e0 h0)

theorem Inv_modifyHost (σ : State) (f : HostEntry → HostEntry) (r : HostRef)
    (hf : ∀ e, e.OK → (f e).OK) (h : σ.Inv) : (σ.modifyHost f r).Inv := by
  cases r with
  | v4 i => exact ⟨all_modifyAt _ f _ i hf h.1, h.2.1, h.2.2⟩
  | v6 i => exact ⟨h.1, all_modifyAt _ f _ i hf h.2.1, h.2.2⟩

theorem newHostEntry_OK (addr : mDNSAddr) : (newHostEntry addr).OK := by
  simp [HostEntry.OK, HostEntry.WF, newHostEntry, HostPkt_NumTypes, OP_NumTypes]

theorem newActivityStat_OK (t : domainname) : (newActivityStat t).OK := by
  simp [ActivityStat.OK, ActivityStat.WF, newActivityStat, OP_NumTypes]

theorem HostEntry_count_OK (e : HostEntry) (slot : Int) (h0 : 0 ≤ slot)
    (h1 : slot < OP_NumTypes) (h : e.OK) : (e.count slot).OK := by
  obtain ⟨⟨hp, hl⟩, hs⟩ := h
  have hlt : slot.toNat < e.stat.length := by rw [hl]; omega
  refine ⟨⟨hp, ?_⟩, ?_⟩
  · simp [HostEntry.count, length_bumpOp, hl]
  · simp only [HostEntry.count, bumpOp, if_pos h0]
    rw [sum_bumpAt_nat _ _ hlt, hs]

theorem ActivityStat_count_OK (s : ActivityStat) (slot : Int) (h0 : 0 ≤ slot)
    (h1 : slot < OP_NumTypes) (h : s.OK) : (s.count slot).OK := by
  obtain ⟨hl, hs, hn⟩ := h
  have hl1 : s.stat.length = OP_NumTypes := hl
  have hlt : slot.toNat < s.stat.length := by rw [hl1]; omega
  refine ⟨?_, ?_, ?_⟩
  · simp [ActivityStat.WF, ActivityStat.count, length_bumpOp, hl1]
  · simp only [ActivityStat.count, bumpOp, if_pos h0]
    rw [sum_bumpAt_int _ _ hlt, hs]
  · simp only [ActivityStat.count, bumpOp, if_pos h0]
    exact mem_bumpAt_nonneg _ _ hn

theorem statsCount_OK (t : domainname) (slot : Int) (l : List ActivityStat) (h0 : 0 ≤ slot)
    (h1 : slot < OP_NumTypes) (h : ∀ s ∈ l, s.OK) : ∀ s ∈ statsCount t slot l, s.OK := by
  induction l with
  | nil =>
    intro s hs
    simp only [statsCount, List.mem_singleton] at hs
    exact hs ▸ ActivityStat_count_OK _ slot h0 h1 (newActivityStat_OK t)
  | cons a next ih =>
    have ha : a.OK := h a (by simp)
    have hn : ∀ s ∈ next, s.OK := fun s hs => h s (by simp [hs])
    intro s hs
    simp only [statsCount] at hs
    split_ifs at hs
    · simp only [List.mem_cons] at hs
      rcases hs with rfl | hs
      · exact ActivityStat_count_OK _ slot h0 h1 ha
      · exact hn s hs
    · simp only [List.mem_cons] at hs
      rcases hs with rfl | hs
      · exact ha
      · exact ih hn s hs

theorem recordstatOp_range (op : Int) (rrtype : Nat) (slot : Int) (hop : 0 ≤ op ∧ op ≤ 3)
    (h : recordstatOp op rrtype = some slot) : 0 ≤ slot ∧ slot < OP_NumTypes := by
  unfold recordstatOp at h
  simp only [OP_probe, OP_browsegroup, OP_resolvegroup] at h
  simp only [OP_NumTypes]
  split_ifs at h <;> simp only [Option.some.injEq] at h <;> omega

theorem Inv_recordstat (σ σ1 : State) (mallocOk : Bool) (entry : Option HostRef)
    (fqdn : domainname) (op : Int) (rrtype : Nat) (hop : 0 ≤ op ∧ op ≤ 3)
    (hr : recordstat σ mallocOk entry fqdn op rrtype = some σ1) (h : σ.Inv) : σ1.Inv := by
  unfold recordstat at hr
  cases hg : recordstatOp op rrtype with
  | none =>
    simp only [hg, Option.some.injEq] at hr
    exact hr ▸ h
  | some slot =>
    obtain ⟨h0, h1⟩ := recordstatOp_range op rrtype slot hop hg
    cases ht : ExtractServiceType fqdn with
    | none =>
      simp only [hg, ht, Option.some.injEq] at hr
      exact hr ▸ h
    | some t =>
      simp only [hg, ht] at hr
      split_ifs at hr
      have hi : ({ σ with stats := statsCount t slot σ.stats } : State).Inv :=
        ⟨h.1, h.2.1, statsCount_OK t slot σ.stats h0 h1 h.2.2⟩
      cases entry with
      | none =>
        simp only [Option.some.injEq] at hr
        exact hr ▸ hi
      | some r =>
        simp only [Option.some.injEq] at hr
        exact hr ▸ Inv_modifyHost _ _ r (fun e he => HostEntry_count_OK e slot h0 h1 he) hi

theorem GotPacketInList_OK (reallocOk : Bool) (addr : mDNSAddr) (t id : Nat) (list : HostList)
    (h : ∀ e ∈ list.hosts, e.OK) :
    ∀ e ∈ (GotPacketInList reallocOk addr t id list).1.hosts, e.OK := by
  have hadd : ∀ e ∈ (AddHost reallocOk addr list).1.hosts, e.OK := by
    intro e he
    unfold AddHost at he
    split_ifs at he
    · simp only [List.mem_append, List.mem_singleton] at he
      rcases he with he | rfl
      · exact h e he
      · exact newHostEntry_OK addr
    · exact h e he
    · simp only [List.mem_append, List.mem_singleton] at he
      rcases he with he | rfl
      · exact h e he
      · exact newHostEntry_OK addr
  have hbump : ∀ e : HostEntry, e.OK → ({ e with pkts := bumpAt e.pkts t } : HostEntry).OK := by
    intro e he
    exact ⟨⟨by simpa [length_bumpAt] using he.1.1, he.1.2⟩, he.2⟩
  unfold GotPacketInList
  cases hf : FindHost addr list with
  | some i =>
    simp only []
    split_ifs
    · exact all_modifyAt _ _ _ i hbump h
    · exact h
  | none =>
    simp only []
    cases ha : (AddHost reallocOk addr list).2 with
    | none => exact hadd
    | some i =>
      simp only []
      split_ifs
      · exact all_modifyAt _ _ _ i hbump hadd
      · exact hadd

theorem Inv_GotPacketFromHost (σ : State) (reallocOk : Bool) (addr : mDNSAddr) (t id : Nat)
    (h : σ.Inv) : (GotPacketFromHost σ reallocOk addr t id).1.Inv := by
  unfold GotPacketFromHost
  split_ifs
  · exact h
  · exact ⟨GotPacketInList_OK reallocOk addr t id _ h.1, h.2.1, h.2.2⟩
  · exact ⟨h.1, GotPacketInList_OK reallocOk addr t id _ h.2.1, h.2.2⟩

theorem RecordHostInfo_counters (entry : HostEntry) (pktrr : ResourceRecord) :
    (RecordHostInfo entry pktrr).pkts = entry.pkts ∧
    (RecordHostInfo entry pktrr).stat = entry.stat ∧
    (RecordHostInfo entry pktrr).totalops = entry.totalops := by
  unfold RecordHostInfo
  dsimp only
  split_ifs <;> exact ⟨rfl, rfl, rfl⟩

theorem RecordHostInfo_OK (entry : HostEntry) (pktrr : ResourceRecord) (h : entry.OK) :
    (RecordHostInfo entry pktrr).OK := by
  obtain ⟨h1, h2, h3⟩ := RecordHostInfo_counters entry pktrr
  unfold HostEntry.OK HostEntry.WF
  rw [h1, h2, h3]
  exact h

theorem AnalyseHost_counters (timenow OneSecond : Int) (entry : HostEntry) (InterfaceID : Nat) :
    (AnalyseHost timenow OneSecond entry InterfaceID).1.pkts = entry.pkts ∧
    (AnalyseHost timenow OneSecond entry InterfaceID).1.stat = entry.stat ∧
    (AnalyseHost timenow OneSecond entry InterfaceID).1.totalops = entry.totalops := by
  unfold AnalyseHost SendUnicastQuery
  dsimp only
  split_ifs <;> exact ⟨rfl, rfl, rfl⟩

theorem AnalyseHost_OK (timenow OneSecond : Int) (entry : HostEntry) (InterfaceID : Nat)
    (h : entry.OK) : (AnalyseHost timenow OneSecond entry InterfaceID).1.OK := by
  obtain ⟨h1, h2, h3⟩ := AnalyseHost_counters timenow OneSecond entry InterfaceID
  unfold HostEntry.OK HostEntry.WF
  rw [h1, h2, h3]
  exact h

theorem Inv_display (σ : State) (tag : DisplayTag) (rr : ResourceRecord) (h : σ.Inv) :
    (σ.display tag rr).Inv := h

theorem Inv_recordHostInfo (σ : State) (pktrr : ResourceRecord) (entry : Option HostRef)
    (h : σ.Inv) : (σ.recordHostInfo pktrr entry).Inv := by
  cases entry with
  | none => exact h
  | some r => exact Inv_modifyHost σ _ r (fun e he => RecordHostInfo_OK e pktrr he) h

theorem Inv_analyse (σ : State) (timenow : Int) (InterfaceID : Nat) (entry : Option HostRef)
    (h : σ.Inv) : (σ.analyse timenow InterfaceID entry).Inv := by
  cases entry with
  | none => exact h
  | some r =>
    cases he : σ.host? r with
    | none =>
      simp only [State.analyse, he]
      exact h
    | some e =>
      have heOK : e.OK := by
        cases r with
        | v4 i => exact h.1 e (List.getElem?_mem he)
        | v6 i => exact h.2.1 e (List.getElem?_mem he)
      have hm : (σ.modifyHost
          (fun _ => (AnalyseHost timenow σ.mDNSPlatformOneSecond e InterfaceID).1) r).Inv :=
        Inv_modifyHost σ _ r (fun _ _ => AnalyseHost_OK timenow _ e InterfaceID heOK) h
      simp only [State.analyse, he]
      cases (AnalyseHost timenow σ.mDNSPlatformOneSecond e InterfaceID).2 with
      | none => exact hm
      | some q => exact hm

theorem Inv_DisplayQuery_questions (pkt : Packet) (entry : Option HostRef) (n i : Nat)
    (σ : State) (auths : List ResourceRecord) (h : σ.Inv) :
    (DisplayQuery_questions pkt entry n i σ auths).Holds (fun qa => qa.1.Inv) State.Inv := by
  induction n generalizing i σ auths with
  | zero => exact h
  | succ n ih =>
    unfold DisplayQuery_questions
    cases hq : pkt.msg.questions[i]? with
    | none => exact h
    | some q0 =>
      simp only []
      cases hu : FindUpdate pkt auths { q0 with qclass := q0.qclass &&& 0x7FFF } with
      | some jr =>
        obtain ⟨j, rr⟩ := jr
        simp only []
        cases hr : recordstat
            (State.display { σ with NumProbes := σ.NumProbes + 1 }
              (if q0.qclass &&& kDNSQClass_UnicastResponse ≠ 0 then DisplayTag.PU
                else DisplayTag.PM) rr)
            pkt.mallocOk entry q0.qname OP_probe q0.qtype with
        | none => trivial
        | some σ3 =>
          exact ih _ _ _ (Inv_recordstat _ σ3 _ _ _ _ _ (by decide) hr h)
      | none =>
        simp only []
        by_cases hid : pkt.msg.id ≠ 0xFFFF
        · simp only [if_pos hid]
          cases hr : recordstat
              (if pkt.srcport = MulticastDNSPort then
                { σ with NumQuestions := σ.NumQuestions + 1 }
              else { σ with NumLegacy := σ.NumLegacy + 1 })
              pkt.mallocOk entry q0.qname OP_query q0.qtype with
          | none => trivial
          | some σ2 =>
            refine ih _ _ _ (Inv_recordstat _ σ2 _ _ _ _ _ (by decide) hr ?_)
            split_ifs <;> exact h
        · simp only [if_neg hid]
          refine ih _ _ _ ?_
          split_ifs <;> exact h

theorem Inv_DisplayQuery_answers (pkt : Packet) (entry : Option HostRef) (n i : Nat)
    (σ : State) (h : σ.Inv) :
    (DisplayQuery_answers pkt entry n i σ).Holds State.Inv State.Inv := by
  induction n generalizing i σ with
  | zero => exact h
  | succ n ih =>
    unfold DisplayQuery_answers
    cases hq : pkt.msg.answers[i]? with
    | none => exact h
    | some rr =>
      simp only []
      by_cases hc : pkt.msg.numQuestions = 0 ∧ i = 0
      · simp only [if_pos hc]
        cases hr : recordstat (σ.display DisplayTag.KA rr) pkt.mallocOk entry rr.name OP_query
            rr.rrtype with
        | none => trivial
        | some σ2 => exact ih _ _ (Inv_recordstat _ σ2 _ _ _ _ _ (by decide) hr h)
      · simp only [if_neg hc]
        exact ih _ _ h

theorem Inv_DisplayQuery_authorities (auths : List ResourceRecord) (n i : Nat) (σ : State)
    (h : σ.Inv) : (DisplayQuery_authorities auths n i σ).Holds State.Inv State.Inv := by
  induction n generalizing i σ with
  | zero => exact h
  | succ n ih =>
    unfold DisplayQuery_authorities
    cases hq : auths[i]? with
    | none => exact h
    | some rr =>
      simp only []
      refine ih _ _ ?_
      split_ifs <;> exact h

theorem Inv_DisplayQuery_additionals (pkt : Packet) (n i : Nat) (σ : State) (h : σ.Inv) :
    (DisplayQuery_additionals pkt n i σ).Holds State.Inv State.Inv := by
  induction n generalizing i σ with
  | zero => exact h
  | succ n ih =>
    unfold DisplayQuery_additionals
    cases hq : pkt.msg.additionals[i]? with
    | none => exact h
    | some rr => exact ih _ _ h

theorem Inv_DisplayQuery (σ σ1 : State) (pkt : Packet) (hr : DisplayQuery σ pkt = some σ1)
    (h : σ.Inv) : σ1.Inv := by
  unfold DisplayQuery at hr
  dsimp only at hr
  have hg := Inv_GotPacketFromHost σ pkt.reallocOk pkt.srcaddr
    (if pkt.srcport = MulticastDNSPort then HostPkt_Q else HostPkt_L) pkt.msg.id h
  generalize GotPacketFromHost σ pkt.reallocOk pkt.srcaddr
    (if pkt.srcport = MulticastDNSPort then HostPkt_Q else HostPkt_L) pkt.msg.id = g at hr hg
  refine Flow.Holds_result _ ?_ σ1 hr
  refine Flow.Holds_andThen _ _ (Inv_DisplayQuery_questions pkt _ _ _ _ _ ?_) ?_
  · split_ifs <;> exact hg
  intro qa hqa
  refine Flow.Holds_andThen _ _ (Inv_DisplayQuery_answers pkt _ _ _ _ hqa) ?_
  intro σ2 h2
  refine Flow.Holds_andThen _ _ (Inv_DisplayQuery_authorities _ _ _ _ h2) ?_
  intro σ3 h3
  refine Flow.Holds_andThen _ _ (Inv_DisplayQuery_additionals pkt _ _ _ h3) ?_
  intro σ4 h4
  exact Inv_analyse σ4 _ _ _ h4

theorem Inv_DisplayResponse_questions (pkt : Packet) (n i : Nat) (σ : State) (h : σ.Inv) :
    (DisplayResponse_questions pkt n i σ).Holds State.Inv State.Inv := by
  induction n generalizing i σ with
  | zero => exact h
  | succ n ih =>
    unfold DisplayResponse_questions
    cases hq : pkt.msg.questions[i]? with
    | none => exact h
    | some q => exact ih _ _ h

theorem Inv_DisplayResponse_answers (pkt : Packet) (entry : Option HostRef) (n i : Nat)
    (σ : State) (h : σ.Inv) :
    (DisplayResponse_answers pkt entry n i σ).Holds State.Inv State.Inv := by
  induction n generalizing i σ with
  | zero => exact h
  | succ n ih =>
    unfold DisplayResponse_answers
    cases hq : pkt.msg.answers[i]? with
    | none => exact h
    | some rr =>
      simp only []
      by_cases httl : rr.rroriginalttl ≠ 0
      · simp only [if_pos httl]
        by_cases hid : pkt.msg.id ≠ 0xFFFF
        · simp only [if_pos hid]
          cases hr : recordstat
              (State.display { σ with NumAnswers := σ.NumAnswers + 1 }
                (if rr.unique = true then DisplayTag.AN else DisplayTag.ANplus) rr)
              pkt.mallocOk entry rr.name OP_answer rr.rrtype with
          | none => trivial
          | some σ3 =>
            exact ih _ _ (Inv_recordHostInfo _ _ _
              (Inv_recordstat _ σ3 _ _ _ _ _ (by decide) hr h))
        · simp only [if_neg hid]
          exact ih _ _ (Inv_recordHostInfo _ _ _ h)
      · simp only [if_neg httl]
        cases hr : recordstat
            (State.display { σ with NumGoodbyes := σ.NumGoodbyes + 1 } DisplayTag.DE rr)
            pkt.mallocOk entry rr.name OP_goodbye rr.rrtype with
        | none => trivial
        | some σ3 => exact ih _ _ (Inv_recordstat _ σ3 _ _ _ _ _ (by decide) hr h)

theorem Inv_DisplayResponse_authorities (pkt : Packet) (n i : Nat) (σ : State) (h : σ.Inv) :
    (DisplayResponse_authorities pkt n i σ).Holds State.Inv State.Inv := by
  induction n generalizing i σ with
  | zero => exact h
  | succ n ih =>
    unfold DisplayResponse_authorities
    cases hq : pkt.msg.authorities[i]? with
    | none => exact h
    | some rr => exact ih _ _ h

theorem Inv_DisplayResponse_additionals (pkt : Packet) (entry : Option HostRef) (n i : Nat)
    (σ : State) (h : σ.Inv) :
    (DisplayResponse_additionals pkt entry n i σ).Holds State.Inv State.Inv := by
  induction n generalizing i σ with
  | zero => exact h
  | succ n ih =>
    unfold DisplayResponse_additionals
    cases hq : pkt.msg.additionals[i]? with
    | none => exact h
    | some rr => exact ih _ _ (Inv_recordHostInfo _ _ _ h)

theorem Inv_DisplayResponse (σ σ1 : State) (pkt : Packet)
    (hr : DisplayResponse σ pkt = some σ1) (h : σ.Inv) : σ1.Inv := by
  unfold DisplayResponse at hr
  dsimp only at hr
  have hg := Inv_GotPacketFromHost σ pkt.reallocOk pkt.srcaddr HostPkt_R pkt.msg.id h
  generalize GotPacketFromHost σ pkt.reallocOk pkt.srcaddr HostPkt_R pkt.msg.id = g at hr hg
  refine Flow.Holds_result _ ?_ σ1 hr
  refine Flow.Holds_andThen _ _ (Inv_DisplayResponse_questions pkt _ _ _ ?_) ?_
  · split_ifs <;> exact hg
  intro σ2 h2
  refine Flow.Holds_andThen _ _ (Inv_DisplayResponse_answers pkt _ _ _ _ h2) ?_
  intro σ3 h3
  refine Flow.Holds_andThen _ _ (Inv_DisplayResponse_authorities pkt _ _ _ h3) ?_
  intro σ4 h4
  refine Flow.Holds_andThen _ _ (Inv_DisplayResponse_additionals pkt _ _ _ _ h4) ?_
  intro σ5 h5
  exact Inv_analyse σ5 _ _ _ h5

theorem Inv_foldl_recordHostInfo (entry : Option HostRef) (l : List ResourceRecord) (σ : State)
    (h : σ.Inv) :
    (l.foldl (fun s rr => if rr.rroriginalttl ≠ 0 then s.recordHostInfo rr entry else s) σ).Inv := by
  induction l generalizing σ with
  | nil => exact h
  | cons rr rest ih =>
    simp only [List.foldl_cons]
    apply ih
    split_ifs
    · exact Inv_recordHostInfo _ _ _ h
    · exact h

theorem Inv_ProcessUnicastResponse (σ : State) (pkt : Packet) (h : σ.Inv) :
    (ProcessUnicastResponse σ pkt).Inv := by
  unfold ProcessUnicastResponse
  exact Inv_foldl_recordHostInfo _ _ _ (Inv_GotPacketFromHost σ _ _ _ _ h)

theorem Inv_mDNSCoreReceive (σ σ1 : State) (pkt : Packet)
    (hr : mDNSCoreReceive σ pkt = some σ1) (h : σ.Inv) : σ1.Inv := by
  unfold mDNSCoreReceive at hr
  dsimp only at hr
  split_ifs at hr
  · exact Option.some.inj hr ▸ h
  · exact Option.some.inj hr ▸ Inv_ProcessUnicastResponse σ pkt h
  · exact Option.some.inj hr ▸ h
  · exact Inv_DisplayQuery σ σ1 pkt hr h
  · exact Inv_DisplayResponse σ σ1 pkt hr h
  · exact Option.some.inj hr ▸ Inv_GotPacketFromHost σ _ _ _ _ h
  · exact Option.some.inj hr ▸ h

theorem Inv_run (pkts : List Packet) (σ σ1 : State) (hr : run σ pkts = some σ1) (h : σ.Inv) :
    σ1.Inv := by
  induction pkts generalizing σ with
  | nil => exact Option.some.inj hr ▸ h
  | cons pkt rest ih =>
    unfold run at hr
    cases hp : mDNSCoreReceive σ pkt with
    | none => simp [hp] at hr
    | some σ2 =>
      simp only [hp] at hr
      exact ih σ2 hr (Inv_mDNSCoreReceive σ σ2 pkt hp h)

theorem sum_six_nat (l : List Nat) (h : l.length = 6) :
    l.sum = l.getD 0 0 + l.getD 1 0 + l.getD 2 0 + l.getD 3 0 + l.getD 4 0 + l.getD 5 0 := by
  match l, h with
  | [a, b, c, d, e, f], _ => simp; ring

theorem sum_six_int (l : List Int) (h : l.length = 6) :
    l.sum = l.getD 0 0 + l.getD 1 0 + l.getD 2 0 + l.getD 3 0 + l.getD 4 0 + l.getD 5 0 := by
  match l, h with
  | [a, b, c, d, e, f], _ => simp; ring

theorem getD_nonneg (l : List Int) (k : Nat) (h : ∀ x ∈ l, 0 ≤ x) : 0 ≤ l.getD k 0 := by
  rw [List.getD_eq_getElem?_getD]
  cases hk : l[k]? with
  | none => simp
  | some x => simpa using h x (List.getElem?_mem hk)

/-- C4: in every state reached from the empty state by classifying any sequence
of packets, every `HostEntry` of the two registries and every `ActivityStat`
has six operation counters, `totalops` is their sum
`stat[0] + stat[1] + stat[2] + stat[3] + stat[4] + stat[5]`, and no counter is
negative. -/
theorem counters_consistent (Filters : List mDNSAddr) (FilterInterface : Int)
    (AddressType : Nat) (OneSecond : Int) (pkts : List Packet) (σ : State)
    (h : run (initState Filters FilterInterface AddressType OneSecond) pkts = some σ) :
    (∀ e ∈ σ.IPv4HostList.hosts ++ σ.IPv6HostList.hosts,
      e.stat.length = OP_NumTypes ∧
      e.totalops = e.stat.getD 0 0 + e.stat.getD 1 0 + e.stat.getD 2 0 + e.stat.getD 3 0 +
        e.stat.getD 4 0 + e.stat.getD 5 0 ∧
      ∀ k, 0 ≤ e.stat.getD k 0) ∧
    (∀ s ∈ σ.stats,
      s.stat.length = OP_NumTypes ∧
      s.totalops = s.stat.getD 0 0 + s.stat.getD 1 0 + s.stat.getD 2 0 + s.stat.getD 3 0 +
        s.stat.getD 4 0 + s.stat.getD 5 0 ∧
      ∀ k, 0 ≤ s.stat.getD k 0) := by
  have hinv : σ.Inv :=
    Inv_run pkts _ σ h (Inv_initState Filters FilterInterface AddressType OneSecond)
  constructor
  · intro e he
    have hOK : e.OK := by
      rcases List.mem_append.1 he with h4 | h6
      · exact hinv.1 e h4
      · exact hinv.2.1 e h6
    exact ⟨hOK.1.2, hOK.2.trans (sum_six_nat e.stat hOK.1.2), fun k => Nat.zero_le _⟩
  · intro s hs
    obtain ⟨hl, hsum, hn⟩ := hinv.2.2 s hs
    exact ⟨hl, hsum.trans (sum_six_int s.stat hl), fun k => getD_nonneg s.stat k hn⟩

/-- C4, at the state reached by classifying the same browse query twice. -/
theorem counters_consistent_witness :
    ∃ σ, run (initState [] 0 mDNSAddrType_IPv4 1000) [pktBrowse, pktBrowse] = some σ ∧
      (∀ e ∈ σ.IPv4HostList.hosts ++ σ.IPv6HostList.hosts,
        e.stat.length = OP_NumTypes ∧
        e.totalops = e.stat.getD 0 0 + e.stat.getD 1 0 + e.stat.getD 2 0 + e.stat.getD 3 0 +
          e.stat.getD 4 0 + e.stat.getD 5 0 ∧
        ∀ k, 0 ≤ e.stat.getD k 0) ∧
      (∀ s ∈ σ.stats,
        s.stat.length = OP_NumTypes ∧
        s.totalops = s.stat.getD 0 0 + s.stat.getD 1 0 + s.stat.getD 2 0 + s.stat.getD 3 0 +
          s.stat.getD 4 0 + s.stat.getD 5 0 ∧
        ∀ k, 0 ≤ s.stat.getD k 0) :=
  ⟨(run (initState [] 0 mDNSAddrType_IPv4 1000) [pktBrowse, pktBrowse]).get (by decide),
    by simp,
    counters_consistent [] 0 mDNSAddrType_IPv4 1000 [pktBrowse, pktBrowse] _ (by simp)⟩

/-! ## The host registry -/

theorem FindHostFrom_none (addr : mDNSAddr) (l : List HostEntry) (k : Nat) :
    FindHostFrom addr l k = none ↔ addr ∉ l.map (fun e => e.addr) := by
  induction l generalizing k with
  | nil => simp [FindHostFrom]
  | cons e rest ih =>
    by_cases h : addr = e.addr
    · simp [FindHostFrom, mDNSSameAddress, h]
    · simp [FindHostFrom, mDNSSameAddress, h, ih]

theorem FindHostFrom_some (addr : mDNSAddr) (l : List HostEntry) (k i : Nat)
    (h : FindHostFrom addr l k = some i) :
    ∃ j e, i = k + j ∧ l[j]? = some e ∧ e.addr = addr ∧
      ∀ j1 e1, j1 < j → l[j1]? = some e1 → e1.addr ≠ addr := by
  induction l generalizing k with
  | nil => simp [FindHostFrom] at h
  | cons e rest ih =>
    by_cases ha : addr = e.addr
    · simp only [FindHostFrom, mDNSSameAddress, ha, decide_True, if_true, Option.some.injEq] at h
      exact ⟨0, e, by omega, by simp, ha.symm, fun j1 _ hj => absurd hj (by omega)⟩
    · simp only [FindHostFrom, mDNSSameAddress, ha, decide_False] at h
      obtain ⟨j, e1, hi, hj, he, hfirst⟩ := ih (k + 1) h
      refine ⟨j + 1, e1, by omega, by simpa using hj, he, ?_⟩
      intro j1 e2 hlt h2
      cases j1 with
      | zero =>
        simp only [List.getElem?_cons_zero, Option.some.injEq] at h2
        exact h2 ▸ fun hc => ha hc.symm
      | succ j1 => exact hfirst j1 e2 (by omega) (by simpa using h2)

theorem FindHost_of_mem (addr : mDNSAddr) (list : HostList) (h : addr ∈ list.addrs) :
    ∃ i e, FindHost addr list = some i ∧ list.hosts[i]? = some e ∧ e.addr = addr := by
  unfold FindHost
  cases hf : FindHostFrom addr list.hosts 0 with
  | none => exact absurd h ((FindHostFrom_none addr list.hosts 0).1 hf)
  | some i =>
    obtain ⟨j, e, hi, hj, he, _⟩ := FindHostFrom_some addr list.hosts 0 i hf
    have : i = j := by omega
    exact ⟨i, e, rfl, this ▸ hj, he⟩

theorem FindHost_of_not_mem (addr : mDNSAddr) (list : HostList) (h : addr ∉ list.addrs) :
    FindHost addr list = none :=
  (FindHostFrom_none addr list.hosts 0).2 h

theorem map_addr_modifyAt (f : HostEntry → HostEntry) (l : List HostEntry) (i : Nat)
    (hf : ∀ e, (f e).addr = e.addr) :
    (modifyAt f l i).map (fun e => e.addr) = l.map (fun e => e.addr) := by
  induction l generalizing i with
  | nil => rfl
  | cons x xs ih => cases i <;> simp [modifyAt, hf, ih]

theorem AddHost_ok (addr : mDNSAddr) (list : HostList) :
    (AddHost true addr list).2 = some list.num ∧
    (AddHost true addr list).1.hosts = list.hosts ++ [newHostEntry addr] := by
  unfold AddHost
  by_cases h : list.num ≥ list.max <;> simp [h]

/-- The addresses of a registry after `GotPacketFromHost` has dealt with an
address, when `realloc` succeeds: the address is added at the end when
`FindHost` does not find it, and the registry keeps its entries otherwise. -/
theorem addrs_GotPacketInList (addr : mDNSAddr) (t id : Nat) (list : HostList) :
    (GotPacketInList true addr t id list).1.addrs =
      if addr ∈ list.addrs then list.addrs else list.addrs ++ [addr] := by
  unfold GotPacketInList
  cases hf : FindHost addr list with
  | some i =>
    have hmem : addr ∈ list.addrs := by
      by_contra hn
      rw [FindHost_of_not_mem addr list hn] at hf
      exact Option.noConfusion hf
    rw [if_pos hmem]
    dsimp only
    split_ifs
    · exact map_addr_modifyAt _ _ _ (fun _ => rfl)
    · rfl
  | none =>
    have hmem : addr ∉ list.addrs := (FindHostFrom_none addr list.hosts 0).1 hf
    rw [if_neg hmem]
    obtain ⟨h2, h1⟩ := AddHost_ok addr list
    dsimp only
    rw [h2]
    dsimp only
    split_ifs
    · dsimp only [HostList.addrs]
      rw [map_addr_modifyAt (fun e => { e with pkts := bumpAt e.pkts t }) _ _ (fun _ => rfl), h1]
      simp [newHostEntry]
    · dsimp only [HostList.addrs]
      rw [h1]
      simp [newHostEntry]

theorem ExactlyOneFilter_eq_false (σ : State) (h : σ.Filters.length ≠ 1) :
    ExactlyOneFilter σ = false := by
  unfold ExactlyOneFilter
  match hF : σ.Filters with
  | [] => rfl
  | [_] => simp [hF] at h
  | _ :: _ :: _ => rfl

theorem Filters_GotPacketFromHost (σ : State) (reallocOk : Bool) (addr : mDNSAddr) (t id : Nat) :
    (GotPacketFromHost σ reallocOk addr t id).1.Filters = σ.Filters := by
  unfold GotPacketFromHost
  split_ifs <;> rfl

theorem lists_GotPacketFromHost (σ : State) (addr : mDNSAddr) (t id : Nat)
    (h : σ.Filters.length ≠ 1) :
    (GotPacketFromHost σ true addr t id).1.IPv4HostList.addrs =
      (if addr.type = mDNSAddrType_IPv4 ∧ addr ∉ σ.IPv4HostList.addrs
        then σ.IPv4HostList.addrs ++ [addr] else σ.IPv4HostList.addrs) ∧
    (GotPacketFromHost σ true addr t id).1.IPv6HostList.addrs =
      (if addr.type ≠ mDNSAddrType_IPv4 ∧ addr ∉ σ.IPv6HostList.addrs
        then σ.IPv6HostList.addrs ++ [addr] else σ.IPv6HostList.addrs) := by
  unfold GotPacketFromHost
  rw [ExactlyOneFilter_eq_false σ h]
  by_cases h4 : addr.type = mDNSAddrType_IPv4
  · simp only [Bool.false_eq_true, if_false, if_pos h4, addrs_GotPacketInList]
    by_cases hm : addr ∈ σ.IPv4HostList.addrs <;> simp [h4, hm]
  · simp only [Bool.false_eq_true, if_false, if_neg h4, addrs_GotPacketInList]
    by_cases hm : addr ∈ σ.IPv6HostList.addrs <;> simp [h4, hm]

/-- What a sequence of calls of `GotPacketFromHost` keeps true of the two
registries: no address twice, and the addresses are those they had plus those
of the calls, each in the registry of its family. -/
theorem GotPacketsFromHosts_addrs (calls : List (mDNSAddr × Nat × Nat)) (σ : State)
    (hF : σ.Filters.length ≠ 1) (h4 : σ.IPv4HostList.addrs.Nodup)
    (h6 : σ.IPv6HostList.addrs.Nodup) :
    (GotPacketsFromHosts σ calls).IPv4HostList.addrs.Nodup ∧
    (GotPacketsFromHosts σ calls).IPv6HostList.addrs.Nodup ∧
    (∀ a, a ∈ (GotPacketsFromHosts σ calls).IPv4HostList.addrs ↔
      a ∈ σ.IPv4HostList.addrs ∨
        (a.type = mDNSAddrType_IPv4 ∧ a ∈ calls.map (fun c => c.1))) ∧
    (∀ a, a ∈ (GotPacketsFromHosts σ calls).IPv6HostList.addrs ↔
      a ∈ σ.IPv6HostList.addrs ∨
        (a.type ≠ mDNSAddrType_IPv4 ∧ a ∈ calls.map (fun c => c.1))) := by
  induction calls generalizing σ with
  | nil => simp [GotPacketsFromHosts, h4, h6]
  | cons c cs ih =>
    obtain ⟨e4, e6⟩ := lists_GotPacketFromHost σ c.1 c.2.1 c.2.2 hF
    have hF1 : (GotPacketFromHost σ true c.1 c.2.1 c.2.2).1.Filters.length ≠ 1 := by
      rw [Filters_GotPacketFromHost]; exact hF
    have n4 : (GotPacketFromHost σ true c.1 c.2.1 c.2.2).1.IPv4HostList.addrs.Nodup := by
      rw [e4]
      split_ifs with hc
      · exact List.Nodup.append h4 (by simp) (by simpa using hc.2)
      · exact h4
    have n6 : (GotPacketFromHost σ true c.1 c.2.1 c.2.2).1.IPv6HostList.addrs.Nodup := by
      rw [e6]
      split_ifs with hc
      · exact List.Nodup.append h6 (by simp) (by simpa using hc.2)
      · exact h6
    obtain ⟨r4, r6, m4, m6⟩ := ih _ hF1 n4 n6
    refine ⟨r4, r6, ?_, ?_⟩
    · intro a
      simp only [GotPacketsFromHosts]
      rw [m4 a, e4]
      by_cases hc : c.1.type = mDNSAddrType_IPv4 ∧ c.1 ∉ σ.IPv4HostList.addrs
      · rw [if_pos hc]
        simp only [List.mem_append, List.mem_singleton, List.map_cons, List.mem_cons,
          List.not_mem_nil, or_false]
        constructor
        · rintro ((h | h) | h)
          · exact Or.inl h
          · exact Or.inr ⟨h ▸ hc.1, Or.inl h⟩
          · exact Or.inr ⟨h.1, Or.inr h.2⟩
        · rintro (h | ⟨ht, h | h⟩)
          · exact Or.inl (Or.inl h)
          · exact Or.inl (Or.inr h)
          · exact Or.inr ⟨ht, h⟩
      · rw [if_neg hc]
        simp only [List.map_cons, List.mem_cons]
        constructor
        · rintro (h | h)
          · exact Or.inl h
          · exact Or.inr ⟨h.1, Or.inr h.2⟩
        · rintro (h | ⟨ht, h | h⟩)
          · exact Or.inl h
          · subst h
            by_cases hm : c.1 ∈ σ.IPv4HostList.addrs
            · exact Or.inl hm
            · exact absurd ⟨ht, hm⟩ hc
          · exact Or.inr ⟨ht, h⟩
    · intro a
      simp only [GotPacketsFromHosts]
      rw [m6 a, e6]
      by_cases hc : c.1.type ≠ mDNSAddrType_IPv4 ∧ c.1 ∉ σ.IPv6HostList.addrs
      · rw [if_pos hc]
        simp only [List.mem_append, List.mem_singleton, List.map_cons, List.mem_cons,
          List.not_mem_nil, or_false]
        constructor
        · rintro ((h | h) | h)
          · exact Or.inl h
          · exact Or.inr ⟨h ▸ hc.1, Or.inl h⟩
          · exact Or.inr ⟨h.1, Or.inr h.2⟩
        · rintro (h | ⟨ht, h | h⟩)
          · exact Or.inl (Or.inl h)
          · exact Or.inl (Or.inr h)
          · exact Or.inr ⟨ht, h⟩
      · rw [if_neg hc]
        simp only [List.map_cons, List.mem_cons]
        constructor
        · rintro (h | h)
          · exact Or.inl h
          · exact Or.inr ⟨h.1, Or.inr h.2⟩
        · rintro (h | ⟨ht, h | h⟩)
          · exact Or.inl h
          · subst h
            by_cases hm : c.1 ∈ σ.IPv6HostList.addrs
            · exact Or.inl hm
            · exact absurd ⟨ht, hm⟩ hc
          · exact Or.inr ⟨ht, h⟩

theorem length_GotPacketInList_found (reallocOk : Bool) (addr : mDNSAddr) (t id : Nat)
    (list : HostList) (i : Nat) (h : FindHost addr list = some i) :
    (GotPacketInList reallocOk addr t id list).1.hosts.length = list.hosts.length ∧
    (GotPacketInList reallocOk addr t id list).2 = some i := by
  unfold GotPacketInList
  simp only [h]
  split_ifs
  · exact ⟨length_modifyAt _ _ _, rfl⟩
  · exact ⟨rfl, rfl⟩

/-- `GotPacketFromHost` adds no entry to either registry when `FindHost` finds
the address in the registry of its family. -/
theorem GotPacketFromHost_found (σ : State) (reallocOk : Bool) (addr : mDNSAddr) (t id : Nat)
    (i : Nat) (h : FindHost addr (σ.listFor addr) = some i) :
    (GotPacketFromHost σ reallocOk addr t id).1.IPv4HostList.hosts.length =
      σ.IPv4HostList.hosts.length ∧
    (GotPacketFromHost σ reallocOk addr t id).1.IPv6HostList.hosts.length =
      σ.IPv6HostList.hosts.length := by
  unfold State.listFor at h
  unfold GotPacketFromHost
  by_cases h1 : ExactlyOneFilter σ = true
  · simp only [if_pos h1, and_self]
  · by_cases h4 : addr.type = mDNSAddrType_IPv4
    · rw [if_pos h4] at h
      simp only [if_neg h1, if_pos h4]
      exact ⟨(length_GotPacketInList_found reallocOk addr t id _ i h).1, trivial⟩
    · rw [if_neg h4] at h
      simp only [if_neg h1, if_neg h4]
      exact ⟨trivial, (length_GotPacketInList_found reallocOk addr t id _ i h).1⟩

/-- C7: with host tracking enabled (the filter list does not have exactly one
entry) and every `realloc` succeeding, after any sequence of calls of
`GotPacketFromHost` from the empty state: no registry holds two entries with
the same address; the IPv4 registry holds exactly the IPv4 addresses of the
calls and the IPv6 registry exactly the others; `FindHost` on the registry of
an address returns an entry with this address when the address was in a call,
and `NULL` otherwise; and a further call of `GotPacketFromHost` adds an entry
to a registry only when `FindHost` returns `NULL`. -/
theorem host_registry_one_entry_per_address (Filters : List mDNSAddr) (FilterInterface : Int)
    (AddressType : Nat) (OneSecond : Int) (calls : List (mDNSAddr × Nat × Nat)) (σ : State)
    (hF : Filters.length ≠ 1)
    (hσ : GotPacketsFromHosts (initState Filters FilterInterface AddressType OneSecond) calls = σ) :
    σ.IPv4HostList.addrs.Nodup ∧ σ.IPv6HostList.addrs.Nodup ∧
    (∀ a, a ∈ σ.IPv4HostList.addrs ↔
      a.type = mDNSAddrType_IPv4 ∧ a ∈ calls.map (fun c => c.1)) ∧
    (∀ a, a ∈ σ.IPv6HostList.addrs ↔
      a.type ≠ mDNSAddrType_IPv4 ∧ a ∈ calls.map (fun c => c.1)) ∧
    (∀ a, a ∈ calls.map (fun c => c.1) →
      ∃ i e, FindHost a (σ.listFor a) = some i ∧ (σ.listFor a).hosts[i]? = some e ∧
        e.addr = a) ∧
    (∀ a, a ∉ calls.map (fun c => c.1) →
      FindHost a σ.IPv4HostList = none ∧ FindHost a σ.IPv6HostList = none) ∧
    (∀ reallocOk a t id,
      ((GotPacketFromHost σ reallocOk a t id).1.IPv4HostList.hosts.length ≠
          σ.IPv4HostList.hosts.length ∨
        (GotPacketFromHost σ reallocOk a t id).1.IPv6HostList.hosts.length ≠
          σ.IPv6HostList.hosts.length) →
      FindHost a (σ.listFor a) = none) := by
  subst hσ
  obtain ⟨n4, n6, m4, m6⟩ := GotPacketsFromHosts_addrs calls
    (initState Filters FilterInterface AddressType OneSecond) hF (by simp [initState, HostList.addrs])
    (by simp [initState, HostList.addrs])
  have m4' : ∀ a, a ∈ (GotPacketsFromHosts (initState Filters FilterInterface AddressType
      OneSecond) calls).IPv4HostList.addrs ↔
      a.type = mDNSAddrType_IPv4 ∧ a ∈ calls.map (fun c => c.1) := by
    intro a
    rw [m4 a]
    simp [initState, HostList.addrs]
  have m6' : ∀ a, a ∈ (GotPacketsFromHosts (initState Filters FilterInterface AddressType
      OneSecond) calls).IPv6HostList.addrs ↔
      a.type ≠ mDNSAddrType_IPv4 ∧ a ∈ calls.map (fun c => c.1) := by
    intro a
    rw [m6 a]
    simp [initState, HostList.addrs]
  refine ⟨n4, n6, m4', m6', ?_, ?_, ?_⟩
  · intro a ha
    apply FindHost_of_mem
    unfold State.listFor
    by_cases h4 : a.type = mDNSAddrType_IPv4
    · rw [if_pos h4]
      exact (m4' a).2 ⟨h4, ha⟩
    · rw [if_neg h4]
      exact (m6' a).2 ⟨h4, ha⟩
  · intro a ha
    exact ⟨FindHost_of_not_mem a _ (fun h => ha ((m4' a).1 h).2),
      FindHost_of_not_mem a _ (fun h => ha ((m6' a).1 h).2)⟩
  · intro reallocOk a t id hne
    cases hf : FindHost a ((GotPacketsFromHosts (initState Filters FilterInterface AddressType
        OneSecond) calls).listFor a) with
    | none => rfl
    | some i =>
      obtain ⟨h1, h2⟩ := GotPacketFromHost_found _ reallocOk a t id i hf
      rcases hne with h | h
      · exact absurd h1 h
      · exact absurd h2 h

/-- C7, after packets from 192.168.1.10, 192.168.1.11 and again 192.168.1.10:
the IPv4 registry holds the two addresses once each, and `FindHost` finds
192.168.1.11 in slot 1. -/
theorem host_registry_one_entry_per_address_witness :
    (GotPacketsFromHosts state0 [(addrA, 0, 0), (addrB, 2, 0), (addrA, 0, 7)]).IPv4HostList.addrs
      = [addrA, addrB] ∧
    FindHost addrB
      (GotPacketsFromHosts state0 [(addrA, 0, 0), (addrB, 2, 0), (addrA, 0, 7)]).IPv4HostList
      = some 1 ∧
    (GotPacketsFromHosts state0
      [(addrA, 0, 0), (addrB, 2, 0), (addrA, 0, 7)]).IPv4HostList.addrs.Nodup :=
  ⟨by decide, by decide,
    (host_registry_one_entry_per_address [] 0 mDNSAddrType_IPv4 1000
      [(addrA, 0, 0), (addrB, 2, 0), (addrA, 0, 7)] _ (by decide) rfl).1⟩

/-! ## The reverse-mapping name of a new host -/

theorem dotLabels_cons_ne (x : Nat) (rest cur : List Nat) (hx : x ≠ dot) :
    dotLabels (x :: rest) cur = dotLabels rest (cur ++ [x]) := by
  rw [dotLabels, if_neg hx]

theorem dotLabels_cons_dot (rest cur : List Nat) :
    dotLabels (dot :: rest) cur = cur :: dotLabels rest [] := by
  rw [dotLabels, if_pos rfl]

theorem dotLabels_append_dot (l rest cur : List Nat) (h : dot ∉ l) :
    dotLabels (l ++ dot :: rest) cur = (cur ++ l) :: dotLabels rest [] := by
  induction l generalizing cur with
  | nil => simp [dotLabels_cons_dot]
  | cons x xs ih =>
    have hx : x ≠ dot := fun e => h (by simp [e])
    have hxs : dot ∉ xs := fun e => h (by simp [e])
    rw [List.cons_append, dotLabels_cons_ne _ _ _ hx, ih _ hxs]
    simp

set_option maxRecDepth 100000 in
theorem decimal_byte (b : Fin 256) : dot ∉ decimal b.val ∧ (decimal b.val).length ≤ 3 := by
  revert b
  decide

theorem hexValues_ne_dot (k : Nat) : hexValues.getD k 0 ≠ dot := by
  by_cases hk : k < 16
  · interval_cases k <;> decide
  · rw [List.getD_eq_default _ _ (by simp [hexValues]; omega)]
    decide

theorem revnameOf_v4 (b0 b1 b2 b3 : Fin 256) :
    revnameOf (.v4 b0 b1 b2 b3) = nameOfLabels (reverseLabels_v4 b0 b1 b2 b3) := by
  obtain ⟨n0, l0⟩ := decimal_byte b0
  obtain ⟨n1, l1⟩ := decimal_byte b1
  obtain ⟨n2, l2⟩ := decimal_byte b2
  obtain ⟨n3, l3⟩ := decimal_byte b3
  unfold revnameOf MakeDomainNameFromDNSNameString reverseLabels_v4
  dsimp only
  rw [List.take_of_length_le (by simp [str_in_addr_arpa]; omega)]
  congr 1
  have hz : dotLabels str_in_addr_arpa [] = [label_in_addr, label_arpa] := by decide
  simp only [List.append_assoc, List.singleton_append, List.cons_append, List.nil_append,
    dotLabels_append_dot _ _ _ n3, dotLabels_append_dot _ _ _ n2,
    dotLabels_append_dot _ _ _ n1, dotLabels_append_dot _ _ _ n0, hz]

theorem dotLabels_nibbles (js : List Nat) (h1 h2 : Nat → Nat) (rest : List Nat)
    (n1 : ∀ j, h1 j ≠ dot) (n2 : ∀ j, h2 j ≠ dot) :
    dotLabels ((js.map (fun j => [h1 j, dot, h2 j, dot])).flatten ++ rest) [] =
      (js.map (fun j => [[h1 j], [h2 j]])).flatten ++ dotLabels rest [] := by
  induction js with
  | nil => simp
  | cons j js ih =>
    simp only [List.map_cons, List.flatten_cons, List.cons_append, List.nil_append,
      List.append_assoc]
    rw [dotLabels_cons_ne _ _ _ (n1 j), dotLabels_cons_dot, dotLabels_cons_ne _ _ _ (n2 j),
      dotLabels_cons_dot, ih]
    rfl

theorem revnameOf_v6 (b : List (Fin 256)) :
    revnameOf (.v6 b) = nameOfLabels (reverseLabels_v6 b) := by
  unfold revnameOf MakeDomainNameFromDNSNameString reverseLabels_v6
  dsimp only
  congr 1
  rw [dotLabels_nibbles (List.range 16)
    (fun j => hexValues.getD ((b.getD (15 - j) 0).val % 16) 0)
    (fun j => hexValues.getD ((b.getD (15 - j) 0).val / 16) 0) _
    (fun j => hexValues_ne_dot _) (fun j => hexValues_ne_dot _)]
  rfl

/-- C8: the entry that `AddHost` creates has the address given and the reverse
name built from it. For the IPv4 address `b0.b1.b2.b3` the labels are the
decimal numbers `b3`, `b2`, `b1`, `b0` (no padding), then `in-addr` and `arpa`.
For the IPv6 address with bytes `b[0..15]` they are 32 labels of one
hexadecimal digit, label `2j` the low nibble and label `2j+1` the high nibble of
`b[15-j]` for `j = 0..15`, then `ip6` and `arpa`. -/
theorem AddHost_revname (reallocOk : Bool) (addr : mDNSAddr) (list : HostList) (i : Nat)
    (h : (AddHost reallocOk addr list).2 = some i) :
    ∃ e, (AddHost reallocOk addr list).1.hosts[i]? = some e ∧ e.addr = addr ∧
      (∀ b0 b1 b2 b3, addr = .v4 b0 b1 b2 b3 →
        e.revname = nameOfLabels
          [decimal b3.val, decimal b2.val, decimal b1.val, decimal b0.val,
            label_in_addr, label_arpa]) ∧
      (∀ b, addr = .v6 b →
        e.revname = nameOfLabels
          (((List.range 16).map (fun j =>
              [hexLabel ((b.getD (15 - j) 0).val % 16),
               hexLabel ((b.getD (15 - j) 0).val / 16)])).flatten
            ++ [label_ip6, label_arpa])) := by
  have hget : (AddHost reallocOk addr list).1.hosts[i]? = some (newHostEntry addr) := by
    unfold AddHost at h ⊢
    split_ifs at h ⊢ <;> simp_all [HostList.num]
  refine ⟨newHostEntry addr, hget, rfl, ?_, ?_⟩
  · intro b0 b1 b2 b3 e
    subst e
    exact revnameOf_v4 b0 b1 b2 b3
  · intro b e
    subst e
    exact revnameOf_v6 b

/-- C8, at the addresses 192.168.1.10 and 2001:db8::1f added to an empty
registry: the names are `10.1.168.192.in-addr.arpa.` and
`F.1.0.0. ... .8.B.D.0.1.0.0.2.ip6.arpa.`. -/
theorem AddHost_revname_witness :
    (∃ e, (AddHost true addrA ⟨0, []⟩).1.hosts[0]? = some e ∧
      e.revname = nameOfLabels [[49, 48], [49], [49, 54, 56], [49, 57, 50],
        label_in_addr, label_arpa]) ∧
    (∃ e, (AddHost true (.v6 [0x20, 0x01, 0x0d, 0xb8, 0, 0, 0, 0, 0, 0, 0, 0, 0, 0, 0, 0x1f])
        ⟨0, []⟩).1.hosts[0]? = some e ∧
      (e.revname.c.take 8, (e.revname.c.drop 48).take 16) =
        ([1, 70, 1, 49, 1, 48, 1, 48],
         [1, 56, 1, 66, 1, 68, 1, 48, 1, 49, 1, 48, 1, 48, 1, 50])) := by
  obtain ⟨e, h1, _, h2, _⟩ := AddHost_revname true addrA ⟨0, []⟩ 0 (by decide)
  obtain ⟨e6, g1, _, _, g2⟩ := AddHost_revname true
    (.v6 [0x20, 0x01, 0x0d, 0xb8, 0, 0, 0, 0, 0, 0, 0, 0, 0, 0, 0, 0x1f]) ⟨0, []⟩ 0 (by decide)
  refine ⟨⟨e, h1, ?_⟩, ⟨e6, g1, ?_⟩⟩
  · rw [h2 192 168 1 10 rfl]
    decide
  · rw [g2 _ rfl]
    decide

/-! ## `GotPacketFromHost` and `AddHost` -/

theorem getElem?_modifyAt_self (f : HostEntry → HostEntry) (l : List HostEntry) (i : Nat) :
    (modifyAt f l i)[i]? = (l[i]?).map f := by
  rw [get?_modifyAt, if_pos rfl]

theorem GotPacketInList_found (reallocOk : Bool) (addr : mDNSAddr) (t id : Nat)
    (list : HostList) (i : Nat) (h : FindHost addr list = some i) :
    (GotPacketInList reallocOk addr t id list).2 = some i ∧
    (GotPacketInList reallocOk addr t id list).1.max = list.max ∧
    (GotPacketInList reallocOk addr t id list).1.hosts.length = list.hosts.length ∧
    ∃ e, list.hosts[i]? = some e ∧ e.addr = addr ∧
      (GotPacketInList reallocOk addr t id list).1.hosts[i]? = some (e.gotPacket t id) := by
  obtain ⟨j, e, hi, hj, he, _⟩ := FindHostFrom_some addr list.hosts 0 i h
  have hij : j = i := by omega
  subst hij
  unfold GotPacketInList HostEntry.gotPacket
  simp only [h]
  split_ifs
  · exact ⟨rfl, rfl, length_modifyAt _ _ _, e, hj, he, by
      show (modifyAt _ list.hosts j)[j]? = _
      rw [getElem?_modifyAt_self, hj]; rfl⟩
  · exact ⟨rfl, rfl, rfl, e, hj, he, hj⟩

theorem GotPacketInList_added (reallocOk : Bool) (addr : mDNSAddr) (t id : Nat)
    (list : HostList) (h : FindHost addr list = none)
    (hroom : list.num < list.max ∨ reallocOk = true) :
    (GotPacketInList reallocOk addr t id list).2 = some list.num ∧
    (GotPacketInList reallocOk addr t id list).1.max =
      (if list.num ≥ list.max then list.max + 64 else list.max) ∧
    (GotPacketInList reallocOk addr t id list).1.hosts =
      list.hosts ++ [(newHostEntry addr).gotPacket t id] := by
  have hadd : AddHost reallocOk addr list =
      ({ max := if list.num ≥ list.max then list.max + 64 else list.max,
         hosts := list.hosts ++ [newHostEntry addr] }, some list.num) := by
    unfold AddHost
    by_cases c : list.num ≥ list.max
    · have hr : reallocOk = true := by
        rcases hroom with h1 | h1
        · omega
        · exact h1
      simp [c, hr]
    · simp [c]
  have hmod : ∀ f : HostEntry → HostEntry,
      modifyAt f (list.hosts ++ [newHostEntry addr]) list.num =
        list.hosts ++ [f (newHostEntry addr)] := by
    intro f
    unfold HostList.num
    induction list.hosts with
    | nil => rfl
    | cons x xs ih => simp [modifyAt, ih]
  unfold GotPacketInList HostEntry.gotPacket
  simp only [h, hadd]
  by_cases hid : id ≠ 0xFFFF
  · simp only [if_pos hid]
    exact ⟨trivial, trivial, hmod _⟩
  · simp only [if_neg hid]
    exact ⟨trivial, trivial, trivial⟩

theorem GotPacketInList_failed (addr : mDNSAddr) (t id : Nat) (list : HostList)
    (h : FindHost addr list = none) (hfull : list.num ≥ list.max) :
    AddHost false addr list = (list, none) ∧
    GotPacketInList false addr t id list = (list, none) := by
  have hadd : AddHost false addr list = (list, none) := by
    unfold AddHost
    simp [hfull]
  exact ⟨hadd, by unfold GotPacketInList; simp only [h, hadd]⟩

theorem ExactlyOneFilter_eq_true (σ : State) (h : σ.Filters.length = 1) :
    ExactlyOneFilter σ = true := by
  unfold ExactlyOneFilter
  match hF : σ.Filters with
  | [] => simp [hF] at h
  | [_] => rfl
  | _ :: _ :: _ => simp [hF] at h

theorem GotPacketFromHost_tracking (σ : State) (reallocOk : Bool) (addr : mDNSAddr)
    (t id : Nat) (h : σ.Filters.length ≠ 1) :
    (addr.type = mDNSAddrType_IPv4 →
      GotPacketFromHost σ reallocOk addr t id =
        ({ σ with IPv4HostList := (GotPacketInList reallocOk addr t id σ.IPv4HostList).1 },
          (GotPacketInList reallocOk addr t id σ.IPv4HostList).2.map HostRef.v4)) ∧
    (addr.type ≠ mDNSAddrType_IPv4 →
      GotPacketFromHost σ reallocOk addr t id =
        ({ σ with IPv6HostList := (GotPacketInList reallocOk addr t id σ.IPv6HostList).1 },
          (GotPacketInList reallocOk addr t id σ.IPv6HostList).2.map HostRef.v6)) := by
  unfold GotPacketFromHost
  rw [ExactlyOneFilter_eq_false σ h]
  constructor
  · intro h4
    simp [h4]
  · intro h4
    simp [h4]

theorem GotPacketInList_max (reallocOk : Bool) (addr : mDNSAddr) (t id : Nat) (list : HostList) :
    (GotPacketInList reallocOk addr t id list).1.max = list.max ∨
    ((GotPacketInList reallocOk addr t id list).1.max = list.max + 64 ∧ list.num ≥ list.max ∧
      (GotPacketInList reallocOk addr t id list).1.num = list.num + 1) := by
  cases hf : FindHost addr list with
  | some i => exact Or.inl (GotPacketInList_found reallocOk addr t id list i hf).2.1
  | none =>
    by_cases hroom : list.num < list.max ∨ reallocOk = true
    · obtain ⟨_, h2, h3⟩ := GotPacketInList_added reallocOk addr t id list hf hroom
      by_cases c : list.num ≥ list.max
      · right
        rw [if_pos c] at h2
        exact ⟨h2, c, by simp [HostList.num, h3]⟩
      · left
        rw [if_neg c] at h2
        exact h2
    · have hfull : list.num ≥ list.max := by
        by_contra hc
        exact hroom (Or.inl (by omega))
      have hr : reallocOk = false := by
        cases reallocOk with
        | false => rfl
        | true => exact absurd (Or.inr rfl) hroom
      subst hr
      left
      rw [(GotPacketInList_failed addr t id list hf hfull).2]

/-- C9: when the filter list has exactly one entry, `GotPacketFromHost` returns
`NULL` and leaves the state (both registries included) unchanged, for every
address, packet type and id. When the filter list is empty or has two or more
entries, it returns the entry that `FindHost` finds for the address, and
otherwise the entry that `AddHost` creates in the next free slot of the
registry of the address; the entry returned has the address of the packet; and
it returns `NULL` exactly when `FindHost` finds nothing, the registry is full
and `realloc` fails. -/
theorem GotPacketFromHost_filter (σ : State) (reallocOk : Bool) (addr : mDNSAddr) (t id : Nat) :
    (σ.Filters.length = 1 → GotPacketFromHost σ reallocOk addr t id = (σ, none)) ∧
    (σ.Filters.length ≠ 1 →
      (∀ i, FindHost addr (σ.listFor addr) = some i →
        (GotPacketFromHost σ reallocOk addr t id).2 = some (HostRef.forAddr addr i) ∧
        ∃ e, σ.host? (HostRef.forAddr addr i) = some e ∧ e.addr = addr ∧
          (GotPacketFromHost σ reallocOk addr t id).1.host? (HostRef.forAddr addr i) =
            some (e.gotPacket t id)) ∧
      (FindHost addr (σ.listFor addr) = none →
        (σ.listFor addr).num < (σ.listFor addr).max ∨ reallocOk = true →
        (GotPacketFromHost σ reallocOk addr t id).2 =
          some (HostRef.forAddr addr (σ.listFor addr).num) ∧
        (GotPacketFromHost σ reallocOk addr t id).1.host?
            (HostRef.forAddr addr (σ.listFor addr).num) =
          some ((newHostEntry addr).gotPacket t id)) ∧
      ((GotPacketFromHost σ reallocOk addr t id).2 = none ↔
        FindHost addr (σ.listFor addr) = none ∧
          (σ.listFor addr).num ≥ (σ.listFor addr).max ∧ reallocOk = false)) := by
  constructor
  · intro h
    unfold GotPacketFromHost
    rw [ExactlyOneFilter_eq_true σ h]
    rfl
  · intro h
    obtain ⟨g4, g6⟩ := GotPacketFromHost_tracking σ reallocOk addr t id h
    have key : ∀ (list : HostList) (mk : Nat → HostRef)
        (sel : State → HostList) (σ1 : State) (r : Option HostRef),
        sel σ = list → (∀ s i, s.host? (mk i) = (sel s).hosts[i]?) →
        sel σ1 = (GotPacketInList reallocOk addr t id list).1 →
        r = (GotPacketInList reallocOk addr t id list).2.map mk →
        (∀ i, FindHost addr list = some i →
          r = some (mk i) ∧
          ∃ e, σ.host? (mk i) = some e ∧ e.addr = addr ∧
            σ1.host? (mk i) = some (e.gotPacket t id)) ∧
        (FindHost addr list = none → list.num < list.max ∨ reallocOk = true →
          r = some (mk list.num) ∧
          σ1.host? (mk list.num) = some ((newHostEntry addr).gotPacket t id)) ∧
        (r = none ↔ FindHost addr list = none ∧ list.num ≥ list.max ∧ reallocOk = false) := by
      intro list mk sel σ1 r hsel hmk hσ1 hr
      refine ⟨?_, ?_, ?_⟩
      · intro i hf
        obtain ⟨h1, _, _, e, he, ha, h4⟩ := GotPacketInList_found reallocOk addr t id list i hf
        refine ⟨by rw [hr, h1]; rfl, e, ?_, ha, ?_⟩
        · rw [hmk, hsel]; exact he
        · rw [hmk, hσ1]; exact h4
      · intro hf hroom
        obtain ⟨h1, _, h3⟩ := GotPacketInList_added reallocOk addr t id list hf hroom
        refine ⟨by rw [hr, h1]; rfl, ?_⟩
        rw [hmk, hσ1, h3]
        simp [HostList.num]
      · constructor
        · intro hnone
          rw [hr] at hnone
          cases hf : FindHost addr list with
          | some i =>
            rw [(GotPacketInList_found reallocOk addr t id list i hf).1] at hnone
            simp at hnone
          | none =>
            by_cases hroom : list.num < list.max ∨ reallocOk = true
            · rw [(GotPacketInList_added reallocOk addr t id list hf hroom).1] at hnone
              simp at hnone
            · refine ⟨rfl, ?_, ?_⟩
              · by_contra hc
                exact hroom (Or.inl (by omega))
              · cases reallocOk with
                | false => rfl
                | true => exact absurd (Or.inr rfl) hroom
        · rintro ⟨hf, hfull, hfalse⟩
          subst hfalse
          rw [hr, (GotPacketInList_failed addr t id list hf hfull).2]
          rfl
    by_cases h4 : addr.type = mDNSAddrType_IPv4
    · have := key σ.IPv4HostList HostRef.v4 (fun s => s.IPv4HostList)
        (GotPacketFromHost σ reallocOk addr t id).1 (GotPacketFromHost σ reallocOk addr t id).2
        rfl (fun _ _ => rfl) (by rw [g4 h4]) (by rw [g4 h4])
      simpa [State.listFor, HostRef.forAddr, h4] using this
    · have := key σ.IPv6HostList HostRef.v6 (fun s => s.IPv6HostList)
        (GotPacketFromHost σ reallocOk addr t id).1 (GotPacketFromHost σ reallocOk addr t id).2
        rfl (fun _ _ => rfl) (by rw [g6 h4]) (by rw [g6 h4])
      simpa [State.listFor, HostRef.forAddr, h4] using this

/-- C9, with the single filter 192.168.1.10 (nothing is tracked) and without
filter (the host is created in slot 0 of the IPv4 registry). -/
theorem GotPacketFromHost_filter_witness :
    GotPacketFromHost (initState [addrA] 0 mDNSAddrType_IPv4 1000) true addrA HostPkt_Q 0 =
      (initState [addrA] 0 mDNSAddrType_IPv4 1000, none) ∧
    (GotPacketFromHost state0 true addrA HostPkt_Q 0).2 = some (.v4 0) :=
  ⟨(GotPacketFromHost_filter (initState [addrA] 0 mDNSAddrType_IPv4 1000) true addrA
      HostPkt_Q 0).1 (by decide),
   (((GotPacketFromHost_filter state0 true addrA HostPkt_Q 0).2 (by decide)).2.1 (by decide)
      (Or.inr rfl)).1⟩

/-- C10: the capacity `max` of a registry changes only in `AddHost`, by exactly
64, and only when `num >= max` at an insertion, which then takes place. When
the registry is full and `realloc` fails, `AddHost` returns `NULL` and leaves
the registry as it is, and `GotPacketFromHost` returns `NULL` and leaves the
whole state (the packet counts of every host included) as it is. -/
theorem AddHost_growth (σ : State) (reallocOk : Bool) (addr : mDNSAddr) (t id : Nat)
    (list : HostList) :
    ((AddHost reallocOk addr list).1.max = list.max ∨
      ((AddHost reallocOk addr list).1.max = list.max + 64 ∧ list.num ≥ list.max ∧
        (AddHost reallocOk addr list).1.num = list.num + 1)) ∧
    (list.num ≥ list.max → reallocOk = false → AddHost reallocOk addr list = (list, none)) ∧
    ((GotPacketFromHost σ reallocOk addr t id).1.IPv4HostList.max = σ.IPv4HostList.max ∨
      ((GotPacketFromHost σ reallocOk addr t id).1.IPv4HostList.max = σ.IPv4HostList.max + 64 ∧
        σ.IPv4HostList.num ≥ σ.IPv4HostList.max ∧
        (GotPacketFromHost σ reallocOk addr t id).1.IPv4HostList.num =
          σ.IPv4HostList.num + 1)) ∧
    ((GotPacketFromHost σ reallocOk addr t id).1.IPv6HostList.max = σ.IPv6HostList.max ∨
      ((GotPacketFromHost σ reallocOk addr t id).1.IPv6HostList.max = σ.IPv6HostList.max + 64 ∧
        σ.IPv6HostList.num ≥ σ.IPv6HostList.max ∧
        (GotPacketFromHost σ reallocOk addr t id).1.IPv6HostList.num =
          σ.IPv6HostList.num + 1)) ∧
    (FindHost addr (σ.listFor addr) = none →
      (σ.listFor addr).num ≥ (σ.listFor addr).max → reallocOk = false →
      GotPacketFromHost σ reallocOk addr t id = (σ, none)) := by
  refine ⟨?_, ?_, ?_, ?_, ?_⟩
  · unfold AddHost HostList.num
    by_cases c : list.hosts.length ≥ list.max
    · cases reallocOk with
      | false => left; simp [c]
      | true => right; simp [c]
    · left; simp [c]
  · intro hfull hr
    subst hr
    unfold AddHost
    simp [hfull]
  · unfold GotPacketFromHost
    split_ifs
    · exact Or.inl rfl
    · exact GotPacketInList_max reallocOk addr t id σ.IPv4HostList
    · exact Or.inl rfl
  · unfold GotPacketFromHost
    split_ifs
    · exact Or.inl rfl
    · exact Or.inl rfl
    · exact GotPacketInList_max reallocOk addr t id σ.IPv6HostList
  · intro hf hfull hr
    subst hr
    unfold State.listFor at hf hfull
    unfold GotPacketFromHost
    split_ifs with h1 h4
    · rfl
    · rw [if_pos h4] at hf hfull
      rw [(GotPacketInList_failed addr t id _ hf hfull).2]
      rfl
    · rw [if_neg h4] at hf hfull
      rw [(GotPacketInList_failed addr t id _ hf hfull).2]
      rfl

/-- C10, at the empty registry (`num = max = 0`): a successful insertion raises
the capacity to 64, and a failing `realloc` leaves the state as it is. -/
theorem AddHost_growth_witness :
    (AddHost true addrA ⟨0, []⟩).1.max = 64 ∧
    AddHost false addrA ⟨0, []⟩ = (⟨0, []⟩, none) ∧
    GotPacketFromHost state0 false addrA HostPkt_Q 0 = (state0, none) :=
  ⟨by decide,
   (AddHost_growth state0 false addrA HostPkt_Q 0 ⟨0, []⟩).2.1 (by decide) rfl,
   (AddHost_growth state0 false addrA HostPkt_Q 0 ⟨0, []⟩).2.2.2.2 (by decide) (by decide) rfl⟩

/-! ## Allocation failure in `recordstat` -/

/-- C11 as stated fails: when `malloc` fails for a service type seen for the
first time (here a probe for `_http._tcp.local.` in a state without statistics),
`recordstat` does not return: the result is `exit(-1)`. -/
theorem recordstat_exits_on_malloc_failure :
    recordstat state0 false none name_http_tcp_local OP_probe kDNSType_PTR = none := by
  decide

/-- C11, amended: `recordstat` returns to its caller for every input, except
that it ends the process with `exit(-1)` exactly when the event passes the type
gate, the name yields a service type that has no `ActivityStat` yet, and the
allocation of the new `ActivityStat` fails. -/
theorem recordstat_returns_unless_malloc_fails (σ : State) (mallocOk : Bool)
    (entry : Option HostRef) (fqdn : domainname) (op : Int) (rrtype : Nat) :
    recordstat σ mallocOk entry fqdn op rrtype = none ↔
      ∃ slot t, recordstatOp op rrtype = some slot ∧ ExtractServiceType fqdn = some t ∧
        statsFind t σ.stats = false ∧ mallocOk = false := by
  unfold recordstat
  cases hg : recordstatOp op rrtype with
  | none => simp
  | some slot =>
    cases ht : ExtractServiceType fqdn with
    | none => simp
    | some t =>
      by_cases hc : statsFind t σ.stats = false ∧ mallocOk = false
      · simp only [if_pos hc, true_iff]
        exact ⟨slot, t, rfl, rfl, hc⟩
      · simp only [if_neg hc]
        constructor
        · intro h
          cases entry <;> simp at h
        · rintro ⟨_, t1, _, e, h⟩
          exact absurd ((Option.some.inj e) ▸ h) hc

/-! ## `AnalyseHost` -/

theorem sub32_range (a b : Int) : -2 ^ 31 ≤ sub32 a b ∧ sub32 a b < 2 ^ 31 := by
  unfold sub32
  norm_num
  omega

theorem sub32_eq (a b : Int) (h1 : -2 ^ 31 ≤ a - b) (h2 : a - b < 2 ^ 31) :
    sub32 a b = a - b := by
  unfold sub32
  norm_num at h1 h2 ⊢
  omega

theorem sub32_wrap (a b k : Int) : sub32 (a + k * 2 ^ 32) b = sub32 a b := by
  unfold sub32
  have e : a + k * 2 ^ 32 - b + 2 ^ 31 = (a - b + 2 ^ 31) + k * 2 ^ 32 := by ring
  rw [e, Int.add_mul_emod_self]

/-- C12 as stated fails across the wrap of the 32-bit tick counter. The host, with
no hostname and with a reverse name, has been sent one query at time
2147483000, and the counter has wrapped to -2147483000, which is 1296 ticks
later. The difference of the two numbers is below one second (1000 ticks), so by
the claim the throttle applies and no query is sent; but the program computes
the difference in 32 bits, 1296, and sends a PTR query for the reverse name. -/
theorem AnalyseHost_sends_across_wrap :
    (hostAskedAt 2147483000).NumQueries = 1 ∧
    (hostAskedAt 2147483000).LastQuery = some 2147483000 ∧
    ¬ ((hostAskedAt 2147483000).NumQueries = 0 ∨
        (-2147483000 : Int) - (hostAskedAt 2147483000).LastQuery.getD 0 ≥ 1000) ∧
    sub32 (-2147483000) 2147483000 = 1296 ∧
    (AnalyseHost (-2147483000) 1000 (hostAskedAt 2147483000) 1).2 =
      some { name := revnameOf addrA, rrtype := kDNSType_PTR, target := addrA,
             InterfaceID := mDNSInterface_Any } := by
  decide

/-- C12, amended: `AnalyseHost` sends at most one query, and it sends one if and
only if `NumQueries < 4`, the throttle does not apply (`NumQueries = 0`, or the
32-bit difference `sub32 timenow LastQuery` is a second or more), and either
the hostname is empty and the reverse name is not, or the hostname is not empty
and the hardware info is. In the first case the query is a PTR query for the
reverse name, in the second an HINFO query for the hostname. When no query is
sent the entry is unchanged. The 32-bit difference is the difference of the two
numbers whenever that lies in `-2^31 .. 2^31 - 1`, and it does not change when
the counter wraps (a multiple of `2^32` is added to the time). -/
theorem AnalyseHost_sends_iff (timenow OneSecond : Int) (entry : HostEntry) (InterfaceID : Nat) :
    ((AnalyseHost timenow OneSecond entry InterfaceID).2.isSome = true ↔
      entry.NumQueries < 4 ∧
      (entry.NumQueries = 0 ∨ sub32 timenow (entry.LastQuery.getD 0) ≥ OneSecond) ∧
      ((byteAt entry.hostname.c 0 = 0 ∧ byteAt entry.revname.c 0 ≠ 0) ∨
       (byteAt entry.hostname.c 0 ≠ 0 ∧ byteAt entry.HIHardware 0 = 0))) ∧
    (∀ q, (AnalyseHost timenow OneSecond entry InterfaceID).2 = some q →
      (byteAt entry.hostname.c 0 = 0 → q.name = entry.revname ∧ q.rrtype = kDNSType_PTR) ∧
      (byteAt entry.hostname.c 0 ≠ 0 → q.name = entry.hostname ∧ q.rrtype = kDNSType_HINFO)) ∧
    ((AnalyseHost timenow OneSecond entry InterfaceID).2 = none →
      (AnalyseHost timenow OneSecond entry InterfaceID).1 = entry) ∧
    (-2 ^ 31 ≤ timenow - entry.LastQuery.getD 0 → timenow - entry.LastQuery.getD 0 < 2 ^ 31 →
      sub32 timenow (entry.LastQuery.getD 0) = timenow - entry.LastQuery.getD 0) ∧
    (∀ k : Int, sub32 (timenow + k * 2 ^ 32) (entry.LastQuery.getD 0) =
      sub32 timenow (entry.LastQuery.getD 0)) := by
  refine ⟨?_, ?_, ?_, sub32_eq _ _, fun k => sub32_wrap _ _ k⟩
  all_goals
    unfold AnalyseHost SendUnicastQuery
    dsimp only
    generalize sub32 timenow (entry.LastQuery.getD 0) = d
  · by_cases h4 : entry.NumQueries ≥ 4
    · rw [if_pos h4]
      simp only [Option.isSome_none, Bool.false_eq_true, false_iff]
      rintro ⟨h, _⟩
      omega
    rw [if_neg h4]
    by_cases hth : entry.NumQueries ≠ 0 ∧ d < OneSecond
    · rw [if_pos hth]
      simp only [Option.isSome_none, Bool.false_eq_true, false_iff]
      rintro ⟨_, h, _⟩
      rcases h with h | h
      · exact hth.1 h
      · omega
    rw [if_neg hth]
    have hgo : entry.NumQueries = 0 ∨ d ≥ OneSecond := by
      by_cases h0 : entry.NumQueries = 0
      · exact Or.inl h0
      · right
        by_contra hc
        exact hth ⟨h0, by omega⟩
    have hlt : entry.NumQueries < 4 := by omega
    by_cases hn : byteAt entry.hostname.c 0 = 0
    · rw [if_pos hn]
      by_cases hr : byteAt entry.revname.c 0 ≠ 0
      · rw [if_pos hr]
        have hs : ∀ x : SentQuery, (some x).isSome = true := fun _ => rfl
        constructor
        · intro _
          exact ⟨hlt, hgo, Or.inl ⟨hn, hr⟩⟩
        · intro _
          split_ifs <;> rfl
      · rw [if_neg hr]
        simp only [Option.isSome_none, Bool.false_eq_true, false_iff]
        rintro ⟨_, _, h | h⟩
        · exact hr h.2
        · exact h.1 hn
    · rw [if_neg hn]
      by_cases hh : byteAt entry.HIHardware 0 = 0
      · rw [if_pos hh]
        constructor
        · intro _
          exact ⟨hlt, hgo, Or.inr ⟨hn, hh⟩⟩
        · intro _
          split_ifs <;> rfl
      · rw [if_neg hh]
        simp only [Option.isSome_none, Bool.false_eq_true, false_iff]
        rintro ⟨_, _, h | h⟩
        · exact hn h.1
        · exact hh h.2
  · intro q hq
    split_ifs at hq with h1 h2 h3 h4 h5 h6 h7
    all_goals first
      | exact Option.noConfusion hq
      | (simp only [Option.some.injEq] at hq
         subst hq
         first
           | exact ⟨fun _ => ⟨rfl, rfl⟩, fun h => absurd (by assumption) h⟩
           | exact ⟨fun h => absurd h (by assumption), fun _ => ⟨rfl, rfl⟩⟩)
  · intro h
    split_ifs at h ⊢ <;> rfl

/-- C12, amended, at a new entry for 192.168.1.10 (no hostname, reverse name
`10.1.168.192.in-addr.arpa.`): one PTR query for the reverse name is sent. -/
theorem AnalyseHost_sends_iff_witness :
    ∃ q, (AnalyseHost 5000 1000 (newHostEntry addrA) 1).2 = some q ∧
      q.name = (newHostEntry addrA).revname ∧ q.rrtype = kDNSType_PTR := by
  have h := AnalyseHost_sends_iff 5000 1000 (newHostEntry addrA) 1
  have hs : (AnalyseHost 5000 1000 (newHostEntry addrA) 1).2.isSome = true :=
    h.1.2 (by decide)
  obtain ⟨q, hq⟩ := Option.isSome_iff_exists.1 hs
  exact ⟨q, hq, (h.2.1 q hq).1 (by decide)⟩

/-- C13 as stated fails across the wrap of the 32-bit tick counter. The host, with
no hostname and with a reverse name, has been sent one query at time
2147483000; 1500 ticks later the counter reads -2147482796. That number is
less than one second (1000 ticks) above `LastQuery`, so by the claim no query
is sent and `NumQueries` and `LastQuery` are unchanged; but the program
computes the difference in 32 bits, 1500, sends a query and writes `NumQueries`
and `LastQuery`. -/
theorem AnalyseHost_throttle_across_wrap :
    (hostAskedAt 2147483000).NumQueries = 1 ∧
    byteAt (hostAskedAt 2147483000).hostname.c 0 = 0 ∧
    byteAt (hostAskedAt 2147483000).revname.c 0 ≠ 0 ∧
    (-2147482796 : Int) - (hostAskedAt 2147483000).LastQuery.getD 0 < 1000 ∧
    sub32 (-2147482796) 2147483000 = 1500 ∧
    (AnalyseHost (-2147482796) 1000 (hostAskedAt 2147483000) 1).2.isSome = true ∧
    (AnalyseHost (-2147482796) 1000 (hostAskedAt 2147483000) 1).1.NumQueries = 2 ∧
    (AnalyseHost (-2147482796) 1000 (hostAskedAt 2147483000) 1).1.LastQuery
      = some (-2147482796) := by
  decide

/-- C13, amended: for a host with `1 <= NumQueries < 4` that has a reverse name
(as every host of a reachable state has, `revname_nonempty_run`) and whose
identity is not resolved (no hostname, or no hardware info), `AnalyseHost` at a
time whose 32-bit difference to `LastQuery` is less than a second sends nothing
and leaves the entry (`NumQueries` and `LastQuery` included) unchanged, and at a
time whose 32-bit difference to `LastQuery` is a second or more it sends one
query, counts it in `NumQueries` and sets `LastQuery` to the time. The 32-bit
difference is the difference of the two numbers whenever that lies in
`-2^31 .. 2^31 - 1`; and `d` ticks after `LastQuery`, for `0 <= d < 2^31`, it is
`d`, however often the counter has wrapped. -/
theorem AnalyseHost_throttle (timenow OneSecond : Int) (entry : HostEntry) (InterfaceID : Nat)
    (hq : 1 ≤ entry.NumQueries ∧ entry.NumQueries < 4)
    (hrev : byteAt entry.revname.c 0 ≠ 0)
    (hun : (byteAt entry.hostname.c 0 = 0 ∧ byteAt entry.revname.c 0 ≠ 0) ∨
      byteAt entry.HIHardware 0 = 0) :
    (sub32 timenow (entry.LastQuery.getD 0) < OneSecond →
      AnalyseHost timenow OneSecond entry InterfaceID = (entry, none)) ∧
    (sub32 timenow (entry.LastQuery.getD 0) ≥ OneSecond →
      ∃ q, (AnalyseHost timenow OneSecond entry InterfaceID).2 = some q ∧
        (AnalyseHost timenow OneSecond entry InterfaceID).1.NumQueries = entry.NumQueries + 1 ∧
        (AnalyseHost timenow OneSecond entry InterfaceID).1.LastQuery = some timenow) ∧
    (-2 ^ 31 ≤ timenow - entry.LastQuery.getD 0 → timenow - entry.LastQuery.getD 0 < 2 ^ 31 →
      sub32 timenow (entry.LastQuery.getD 0) = timenow - entry.LastQuery.getD 0) ∧
    (∀ d k : Int, 0 ≤ d → d < 2 ^ 31 →
      sub32 (entry.LastQuery.getD 0 + d + k * 2 ^ 32) (entry.LastQuery.getD 0) = d) := by
  have h4 : ¬ entry.NumQueries ≥ 4 := by omega
  have h0 : entry.NumQueries ≠ 0 := by omega
  refine ⟨?_, ?_, sub32_eq _ _, ?_⟩
  · intro hlt
    unfold AnalyseHost
    rw [if_neg h4, if_pos ⟨h0, hlt⟩]
  · intro hge
    have hth : ¬ (entry.NumQueries ≠ 0 ∧
        sub32 timenow (entry.LastQuery.getD 0) < OneSecond) := by
      rintro ⟨_, h⟩
      omega
    unfold AnalyseHost SendUnicastQuery
    dsimp only
    rw [if_neg h4, if_neg hth]
    by_cases hn : byteAt entry.hostname.c 0 = 0
    · rw [if_pos hn, if_pos hrev]
      split_ifs <;> exact ⟨_, rfl, rfl, rfl⟩
    · have hh : byteAt entry.HIHardware 0 = 0 := by
        rcases hun with h | h
        · exact absurd h.1 hn
        · exact h
      rw [if_neg hn, if_pos hh]
      split_ifs <;> exact ⟨_, rfl, rfl, rfl⟩
  · intro d k hd0 hd1
    rw [sub32_wrap, sub32_eq _ _ (by norm_num; omega) (by norm_num at hd1 ⊢; omega)]
    ring

/-- C13, amended, at `NumQueries = 1`, `LastQuery = 5000` and 1000 ticks per
second: no query at time 5500, one query at time 6500. And across the wrap of
the counter, with `LastQuery = 2147483000`: no query 500 ticks later, one query
1500 ticks later, at the time -2147482796. -/
theorem AnalyseHost_throttle_witness :
    AnalyseHost 5500 1000 hostAsked 1 = (hostAsked, none) ∧
    (∃ q, (AnalyseHost 6500 1000 hostAsked 1).2 = some q ∧
      (AnalyseHost 6500 1000 hostAsked 1).1.NumQueries = hostAsked.NumQueries + 1 ∧
      (AnalyseHost 6500 1000 hostAsked 1).1.LastQuery = some 6500) ∧
    AnalyseHost 2147483500 1000 (hostAskedAt 2147483000) 1 = (hostAskedAt 2147483000, none) ∧
    (∃ q, (AnalyseHost (-2147482796) 1000 (hostAskedAt 2147483000) 1).2 = some q ∧
      (AnalyseHost (-2147482796) 1000 (hostAskedAt 2147483000) 1).1.NumQueries
        = (hostAskedAt 2147483000).NumQueries + 1 ∧
      (AnalyseHost (-2147482796) 1000 (hostAskedAt 2147483000) 1).1.LastQuery
        = some (-2147482796)) :=
  ⟨(AnalyseHost_throttle 5500 1000 hostAsked 1 (by decide) (by decide) (by decide)).1
      (by decide),
   (AnalyseHost_throttle 6500 1000 hostAsked 1 (by decide) (by decide) (by decide)).2.1
      (by decide),
   (AnalyseHost_throttle 2147483500 1000 (hostAskedAt 2147483000) 1 (by decide) (by decide)
      (by decide)).1 (by decide),
   (AnalyseHost_throttle (-2147482796) 1000 (hostAskedAt 2147483000) 1 (by decide) (by decide)
      (by decide)).2.1 (by decide)⟩

/-! ## `RecordHostInfo` and the hostname -/

/-- C20 as stated fails: for the host named `a.local.`, an HINFO record owned by
`b.local.` makes `RecordHostInfo` replace the hostname by `b.local.`, and an
HINFO record owned by the root name makes the hostname empty. -/
theorem RecordHostInfo_replaces_hostname :
    byteAt hostNamed.hostname.c 0 ≠ 0 ∧ hostNamed.hostname = name_a_local ∧
    (RecordHostInfo hostNamed rrHinfo).hostname = name_b_local ∧
    name_b_local ≠ name_a_local ∧
    byteAt (RecordHostInfo hostNamed rrHinfoRoot).hostname.c 0 = 0 := by
  decide

/-- C20, amended: `RecordHostInfo` leaves a non-empty hostname unchanged, unless
the record is an HINFO record whose two strings fit in its rdata: then the
hostname becomes the owner name of the record (a different name, or the empty
root name, if the record has it). For any other record type the whole entry
with a non-empty hostname is unchanged. An empty hostname stays empty or
becomes the name of an A or AAAA record or the target of a PTR record for the
reverse name of the host. -/
theorem RecordHostInfo_hostname (entry : HostEntry) (pktrr : ResourceRecord) :
    (byteAt entry.hostname.c 0 ≠ 0 →
      (RecordHostInfo entry pktrr).hostname = entry.hostname ∨
      (pktrr.rrtype = kDNSType_HINFO ∧
        0 + 1 + byteAt pktrr.rdata 0 + 1 + byteAt pktrr.rdata (0 + 1 + byteAt pktrr.rdata 0)
          ≤ pktrr.rdlength ∧
        (RecordHostInfo entry pktrr).hostname = pktrr.name)) ∧
    (byteAt entry.hostname.c 0 ≠ 0 → pktrr.rrtype ≠ kDNSType_HINFO →
      RecordHostInfo entry pktrr = entry) ∧
    (byteAt entry.hostname.c 0 = 0 →
      (RecordHostInfo entry pktrr).hostname = entry.hostname ∨
      ((pktrr.rrtype = kDNSType_A ∨ pktrr.rrtype = kDNSType_AAAA) ∧
        (RecordHostInfo entry pktrr).hostname = pktrr.name) ∨
      (pktrr.rrtype = kDNSType_PTR ∧ SameDomainName entry.revname pktrr.name = true ∧
        (RecordHostInfo entry pktrr).hostname = ⟨pktrr.rdata⟩)) := by
  refine ⟨?_, ?_, ?_⟩
  · intro hn
    unfold RecordHostInfo
    dsimp only
    rw [if_neg hn]
    split_ifs with h1 h2
    · exact Or.inr ⟨h1, h2, rfl⟩
    · exact Or.inl rfl
    · exact Or.inl rfl
  · intro hn ht
    unfold RecordHostInfo
    dsimp only
    rw [if_neg hn, if_neg ht]
  · intro hn
    unfold RecordHostInfo
    dsimp only
    rw [if_pos hn]
    by_cases ha : pktrr.rrtype = kDNSType_A ∨ pktrr.rrtype = kDNSType_AAAA
    · by_cases hp : pktrr.rrtype = kDNSType_PTR
      · by_cases hs : SameDomainName entry.revname pktrr.name = true
        · rw [if_pos ha, if_pos hp, if_pos hs]
          exact Or.inr (Or.inr ⟨hp, hs, rfl⟩)
        · rw [if_pos ha, if_pos hp, if_neg hs]
          exact Or.inr (Or.inl ⟨ha, rfl⟩)
      · rw [if_pos ha, if_neg hp]
        exact Or.inr (Or.inl ⟨ha, rfl⟩)
    · by_cases hp : pktrr.rrtype = kDNSType_PTR
      · by_cases hs : SameDomainName entry.revname pktrr.name = true
        · rw [if_neg ha, if_pos hp, if_pos hs]
          exact Or.inr (Or.inr ⟨hp, hs, rfl⟩)
        · rw [if_neg ha, if_pos hp, if_neg hs]
          exact Or.inl rfl
      · rw [if_neg ha, if_neg hp]
        exact Or.inl rfl

/-- C20, amended, at the host named `a.local.`: an A record leaves the entry
unchanged. -/
theorem RecordHostInfo_hostname_witness :
    RecordHostInfo hostNamed { rrHinfo with rrtype := kDNSType_A } = hostNamed :=
  (RecordHostInfo_hostname hostNamed { rrHinfo with rrtype := kDNSType_A }).2.1
    (by decide) (by decide)

/-! ## Traffic with the private transaction id -/

/-- C15, at its failing input: the host 192.168.1.10 has no operation counted;
after a multicast response with the transaction id 0xFFFF that carries a
goodbye for `_http._tcp.local.`, its packet counts are the same, but `totalops`
is 1 and the goodbye slot is 1. -/
theorem private_id_goodbye_counted :
    (stateA.IPv4HostList.hosts.map (fun e => (e.pkts, e.totalops, e.stat)))
      = [([0, 0, 1, 0], 0, [0, 0, 0, 0, 0, 0])] ∧
    (mDNSCoreReceive stateA pktGoodbyeSelf).map
        (fun σ1 => σ1.IPv4HostList.hosts.map (fun e => (e.pkts, e.totalops, e.stat)))
      = some [([0, 0, 1, 0], 1, [0, 1, 0, 0, 0, 0])] := by
  decide

/-! ## Messages that are neither a standard query nor a standard response -/

/-- The entry of the source address after `GotPacketFromHost`, with host
tracking enabled: the entry found, or the new entry, with the packet counted. -/
theorem GotPacketFromHost_host (σ : State) (reallocOk : Bool) (addr : mDNSAddr) (t id : Nat)
    (h : σ.Filters.length ≠ 1) :
    (∀ i, FindHost addr (σ.listFor addr) = some i →
      ∃ e, σ.host? (HostRef.forAddr addr i) = some e ∧ e.addr = addr ∧
        (GotPacketFromHost σ reallocOk addr t id).1.host? (HostRef.forAddr addr i) =
          some (e.gotPacket t id)) ∧
    (FindHost addr (σ.listFor addr) = none →
      (σ.listFor addr).num < (σ.listFor addr).max ∨ reallocOk = true →
      (GotPacketFromHost σ reallocOk addr t id).1.host?
          (HostRef.forAddr addr (σ.listFor addr).num) =
        some ((newHostEntry addr).gotPacket t id)) := by
  obtain ⟨g4, g6⟩ := GotPacketFromHost_tracking σ reallocOk addr t id h
  by_cases h4 : addr.type = mDNSAddrType_IPv4
  · simp only [State.listFor, HostRef.forAddr, if_pos h4, g4 h4]
    constructor
    · intro i hf
      obtain ⟨_, _, _, e, he, ha, hg⟩ := GotPacketInList_found reallocOk addr t id _ i hf
      exact ⟨e, he, ha, hg⟩
    · intro hf hroom
      obtain ⟨_, _, h3⟩ := GotPacketInList_added reallocOk addr t id _ hf hroom
      simp [State.host?, h3, HostList.num]
  · simp only [State.listFor, HostRef.forAddr, if_neg h4, g6 h4]
    constructor
    · intro i hf
      obtain ⟨_, _, _, e, he, ha, hg⟩ := GotPacketInList_found reallocOk addr t id _ i hf
      exact ⟨e, he, ha, hg⟩
    · intro hf hroom
      obtain ⟨_, _, h3⟩ := GotPacketInList_added reallocOk addr t id _ hf hroom
      simp [State.host?, h3, HostList.num]

theorem gotPacket_pkts (e : HostEntry) (t id : Nat) (hid : id ≠ 0xFFFF)
    (ht : t < e.pkts.length) :
    (e.gotPacket t id).pkts.getD t 0 = e.pkts.getD t 0 + 1 := by
  unfold HostEntry.gotPacket
  rw [if_pos hid]
  have := getD_bumpAt_nat e.pkts t t ht
  simpa using this

/-- C16 as stated fails: a message with opcode 5, accepted by the interface and
address filters, whose destination is a unicast address, changes nothing: the
counter of bad packets stays at 0 and no host is recorded. -/
theorem odd_unicast_message_ignored :
    (state0.FilterInterface = 0 ∧ AddressMatchesFilterList state0 pktOddUnicast.srcaddr = true) ∧
    pktOddUnicast.msg.flags0 &&& kDNSFlag0_QROP_Mask ≠ StdQ ∧
    pktOddUnicast.msg.flags0 &&& kDNSFlag0_QROP_Mask ≠ StdR ∧
    mDNSCoreReceive state0 pktOddUnicast = some state0 ∧
    state0.NumPktB = 0 ∧ state0.IPv4HostList.hosts = [] := by
  decide

/-- C16, amended: for a message accepted by the interface and address filters
whose QR and opcode bits are neither a standard query nor a standard response:
when the destination is not the multicast group, nothing changes; when it is,
the counter of bad packets increases by one, and with host tracking enabled the
entry of the source address (found, or created when there is room or `realloc`
succeeds) is credited through `GotPacketFromHost`, which adds one to
`pkts[HostPkt_B]` unless the transaction id is 0xFFFF. -/
theorem mDNSCoreReceive_malformed (σ : State) (pkt : Packet)
    (hacc : (σ.FilterInterface = 0 ∨ σ.FilterInterface = pkt.ifIndex) ∧
      AddressMatchesFilterList σ pkt.srcaddr = true)
    (hq : pkt.msg.flags0 &&& kDNSFlag0_QROP_Mask ≠ StdQ)
    (hr : pkt.msg.flags0 &&& kDNSFlag0_QROP_Mask ≠ StdR) :
    (mDNSAddrIsDNSMulticast pkt.dstaddr = false → mDNSCoreReceive σ pkt = some σ) ∧
    (mDNSAddrIsDNSMulticast pkt.dstaddr = true →
      ∃ σ1, mDNSCoreReceive σ pkt = some σ1 ∧ σ1.NumPktB = σ.NumPktB + 1 ∧
        (σ.Filters.length ≠ 1 →
          (∀ i, FindHost pkt.srcaddr (σ.listFor pkt.srcaddr) = some i →
            ∃ e, σ.host? (HostRef.forAddr pkt.srcaddr i) = some e ∧
              σ1.host? (HostRef.forAddr pkt.srcaddr i) =
                some (e.gotPacket HostPkt_B pkt.msg.id)) ∧
          (FindHost pkt.srcaddr (σ.listFor pkt.srcaddr) = none →
            (σ.listFor pkt.srcaddr).num < (σ.listFor pkt.srcaddr).max ∨ pkt.reallocOk = true →
            σ1.host? (HostRef.forAddr pkt.srcaddr (σ.listFor pkt.srcaddr).num) =
              some ((newHostEntry pkt.srcaddr).gotPacket HostPkt_B pkt.msg.id))) ∧
        (∀ e : HostEntry, pkt.msg.id ≠ 0xFFFF → e.pkts.length = HostPkt_NumTypes →
          (e.gotPacket HostPkt_B pkt.msg.id).pkts.getD HostPkt_B 0 =
            e.pkts.getD HostPkt_B 0 + 1)) := by
  constructor
  · intro hd
    unfold mDNSCoreReceive
    dsimp only
    rw [if_pos hacc, if_pos hd, if_neg hq, if_neg hr]
  · intro hd
    have hd1 : ¬ mDNSAddrIsDNSMulticast pkt.dstaddr = false := by simp [hd]
    have hres : mDNSCoreReceive σ pkt = some
        { (GotPacketFromHost σ pkt.reallocOk pkt.srcaddr HostPkt_B pkt.msg.id).1 with
          NumPktB := (GotPacketFromHost σ pkt.reallocOk pkt.srcaddr HostPkt_B
            pkt.msg.id).1.NumPktB + 1 } := by
      unfold mDNSCoreReceive
      dsimp only
      rw [if_pos hacc, if_neg hd1, if_neg hq, if_neg hr]
    refine ⟨_, hres, ?_, ?_, ?_⟩
    · have : (GotPacketFromHost σ pkt.reallocOk pkt.srcaddr HostPkt_B pkt.msg.id).1.NumPktB
          = σ.NumPktB := by
        unfold GotPacketFromHost
        split_ifs <;> rfl
      simp [this]
    · intro hF
      obtain ⟨h1, h2⟩ := GotPacketFromHost_host σ pkt.reallocOk pkt.srcaddr HostPkt_B
        pkt.msg.id hF
      constructor
      · intro i hf
        obtain ⟨e, he, _, hg⟩ := h1 i hf
        refine ⟨e, he, ?_⟩
        rw [← hg]
        cases HostRef.forAddr pkt.srcaddr i <;> rfl
      · intro hf hroom
        rw [← h2 hf hroom]
        cases HostRef.forAddr pkt.srcaddr (σ.listFor pkt.srcaddr).num <;> rfl
    · intro e hid hl
      exact gotPacket_pkts e HostPkt_B pkt.msg.id hid (by rw [hl]; decide)

/-- C16, amended, at the message with opcode 5 from 192.168.1.10: sent to a
unicast address it changes nothing; sent to the multicast group it is counted
as a bad packet. -/
theorem mDNSCoreReceive_malformed_witness :
    mDNSCoreReceive state0 pktOddUnicast = some state0 ∧
    (∃ σ1, mDNSCoreReceive state0 { pktOddUnicast with dstaddr := AllDNSLinkGroup_v4 } = some σ1 ∧
      σ1.NumPktB = state0.NumPktB + 1) := by
  refine ⟨(mDNSCoreReceive_malformed state0 pktOddUnicast (by decide) (by decide)
    (by decide)).1 (by decide), ?_⟩
  obtain ⟨σ1, h1, h2, _⟩ := (mDNSCoreReceive_malformed state0
    { pktOddUnicast with dstaddr := AllDNSLinkGroup_v4 } (by decide) (by decide)
    (by decide)).2 (by decide)
  exact ⟨σ1, h1, h2⟩

/-! ## Every classification is a sequence of steps -/

theorem Steps.refl (pkt : Packet) (entry : Option HostRef) (σ : State) : Steps pkt entry σ σ :=
  Relation.ReflTransGen.refl

theorem Steps.step {pkt : Packet} {entry : Option HostRef} {σ0 σ σ1 : State}
    (h : Steps pkt entry σ0 σ) (s : Step pkt entry σ σ1) : Steps pkt entry σ0 σ1 :=
  Relation.ReflTransGen.tail h s

theorem Steps.tally {pkt : Packet} {entry : Option HostRef} {σ0 σ σ1 : State}
    (h : Steps pkt entry σ0 σ) (s : σ1.sameCore σ) : Steps pkt entry σ0 σ1 :=
  h.step (Step.tally σ σ1 s)

theorem Steps_DisplayQuery_questions (pkt : Packet) (entry : Option HostRef) (σ0 : State)
    (n i : Nat) (σ : State) (auths : List ResourceRecord) (h : Steps pkt entry σ0 σ) :
    (DisplayQuery_questions pkt entry n i σ auths).Holds
      (fun qa => Steps pkt entry σ0 qa.1) (Steps pkt entry σ0) := by
  induction n generalizing i σ auths with
  | zero => exact h
  | succ n ih =>
    unfold DisplayQuery_questions
    cases hq : pkt.msg.questions[i]? with
    | none => exact h
    | some q0 =>
      simp only []
      cases hu : FindUpdate pkt auths { q0 with qclass := q0.qclass &&& 0x7FFF } with
      | some jr =>
        obtain ⟨j, rr⟩ := jr
        simp only []
        cases hr : recordstat
            (State.display { σ with NumProbes := σ.NumProbes + 1 }
              (if q0.qclass &&& kDNSQClass_UnicastResponse ≠ 0 then DisplayTag.PU
                else DisplayTag.PM) rr)
            pkt.mallocOk entry q0.qname OP_probe q0.qtype with
        | none => trivial
        | some σ3 =>
          exact ih _ _ _ ((h.tally (by rfl)).step
            (Step.count _ σ3 _ _ _ (by decide) hr))
      | none =>
        simp only []
        have ht : Steps pkt entry σ0
            (if pkt.srcport = MulticastDNSPort then
              { σ with NumQuestions := σ.NumQuestions + 1 }
            else { σ with NumLegacy := σ.NumLegacy + 1 }) := by
          split_ifs
          · exact h.tally (by rfl)
          · exact h.tally (by rfl)
        by_cases hid : pkt.msg.id ≠ 0xFFFF
        · simp only [if_pos hid]
          cases hr : recordstat
              (if pkt.srcport = MulticastDNSPort then
                { σ with NumQuestions := σ.NumQuestions + 1 }
              else { σ with NumLegacy := σ.NumLegacy + 1 })
              pkt.mallocOk entry q0.qname OP_query q0.qtype with
          | none => trivial
          | some σ2 => exact ih _ _ _ (ht.step (Step.count _ σ2 _ _ _ (by decide) hr))
        · simp only [if_neg hid]
          exact ih _ _ _ ht

theorem Steps_DisplayQuery_answers (pkt : Packet) (entry : Option HostRef) (σ0 : State)
    (n i : Nat) (σ : State) (h : Steps pkt entry σ0 σ) :
    (DisplayQuery_answers pkt entry n i σ).Holds (Steps pkt entry σ0) (Steps pkt entry σ0) := by
  induction n generalizing i σ with
  | zero => exact h
  | succ n ih =>
    unfold DisplayQuery_answers
    cases hq : pkt.msg.answers[i]? with
    | none => exact h
    | some rr =>
      simp only []
      have ht : Steps pkt entry σ0 (σ.display DisplayTag.KA rr) := h.tally (by rfl)
      by_cases hc : pkt.msg.numQuestions = 0 ∧ i = 0
      · simp only [if_pos hc]
        cases hr : recordstat (σ.display DisplayTag.KA rr) pkt.mallocOk entry rr.name OP_query
            rr.rrtype with
        | none => trivial
        | some σ2 => exact ih _ _ (ht.step (Step.count _ σ2 _ _ _ (by decide) hr))
      · simp only [if_neg hc]
        exact ih _ _ ht

theorem Steps_DisplayQuery_authorities (pkt : Packet) (entry : Option HostRef) (σ0 : State)
    (auths : List ResourceRecord) (n i : Nat) (σ : State) (h : Steps pkt entry σ0 σ) :
    (DisplayQuery_authorities auths n i σ).Holds (Steps pkt entry σ0) (Steps pkt entry σ0) := by
  induction n generalizing i σ with
  | zero => exact h
  | succ n ih =>
    unfold DisplayQuery_authorities
    cases hq : auths[i]? with
    | none => exact h
    | some rr =>
      simp only []
      refine ih _ _ ?_
      split_ifs
      · exact h.tally (by rfl)
      · exact h

theorem Steps_DisplayQuery_additionals (pkt : Packet) (entry : Option HostRef) (σ0 : State)
    (n i : Nat) (σ : State) (h : Steps pkt entry σ0 σ) :
    (DisplayQuery_additionals pkt n i σ).Holds (Steps pkt entry σ0) (Steps pkt entry σ0) := by
  induction n generalizing i σ with
  | zero => exact h
  | succ n ih =>
    unfold DisplayQuery_additionals
    cases hq : pkt.msg.additionals[i]? with
    | none => exact h
    | some rr => exact ih _ _ (h.tally (by rfl))

theorem Steps_DisplayResponse_questions (pkt : Packet) (entry : Option HostRef) (σ0 : State)
    (n i : Nat) (σ : State) (h : Steps pkt entry σ0 σ) :
    (DisplayResponse_questions pkt n i σ).Holds (Steps pkt entry σ0) (Steps pkt entry σ0) := by
  induction n generalizing i σ with
  | zero => exact h
  | succ n ih =>
    unfold DisplayResponse_questions
    cases hq : pkt.msg.questions[i]? with
    | none => exact h
    | some q => exact ih _ _ h

theorem Steps_DisplayResponse_answers (pkt : Packet) (entry : Option HostRef) (σ0 : State)
    (n i : Nat) (σ : State) (h : Steps pkt entry σ0 σ) :
    (DisplayResponse_answers pkt entry n i σ).Holds (Steps pkt entry σ0)
      (Steps pkt entry σ0) := by
  induction n generalizing i σ with
  | zero => exact h
  | succ n ih =>
    unfold DisplayResponse_answers
    cases hq : pkt.msg.answers[i]? with
    | none => exact h
    | some rr =>
      have hmem : rr ∈ pkt.msg.records := by
        unfold DNSMessage.records
        simp [List.getElem?_mem hq]
      simp only []
      by_cases httl : rr.rroriginalttl ≠ 0
      · simp only [if_pos httl]
        have ht : Steps pkt entry σ0
            (State.display { σ with NumAnswers := σ.NumAnswers + 1 }
              (if rr.unique = true then DisplayTag.AN else DisplayTag.ANplus) rr) :=
          h.tally (by rfl)
        by_cases hid : pkt.msg.id ≠ 0xFFFF
        · simp only [if_pos hid]
          cases hr : recordstat
              (State.display { σ with NumAnswers := σ.NumAnswers + 1 }
                (if rr.unique = true then DisplayTag.AN else DisplayTag.ANplus) rr)
              pkt.mallocOk entry rr.name OP_answer rr.rrtype with
          | none => trivial
          | some σ3 =>
            exact ih _ _ (((ht.step (Step.count _ σ3 _ _ _ (by decide) hr))).step
              (Step.info σ3 rr hmem))
        · simp only [if_neg hid]
          exact ih _ _ (ht.step (Step.info _ rr hmem))
      · simp only [if_neg httl]
        cases hr : recordstat
            (State.display { σ with NumGoodbyes := σ.NumGoodbyes + 1 } DisplayTag.DE rr)
            pkt.mallocOk entry rr.name OP_goodbye rr.rrtype with
        | none => trivial
        | some σ3 =>
          exact ih _ _ ((h.tally (by rfl)).step (Step.count _ σ3 _ _ _ (by decide) hr))

theorem Steps_DisplayResponse_authorities (pkt : Packet) (entry : Option HostRef) (σ0 : State)
    (n i : Nat) (σ : State) (h : Steps pkt entry σ0 σ) :
    (DisplayResponse_authorities pkt n i σ).Holds (Steps pkt entry σ0)
      (Steps pkt entry σ0) := by
  induction n generalizing i σ with
  | zero => exact h
  | succ n ih =>
    unfold DisplayResponse_authorities
    cases hq : pkt.msg.authorities[i]? with
    | none => exact h
    | some rr => exact ih _ _ (h.tally (by rfl))

theorem Steps_DisplayResponse_additionals (pkt : Packet) (entry : Option HostRef) (σ0 : State)
    (n i : Nat) (σ : State) (h : Steps pkt entry σ0 σ) :
    (DisplayResponse_additionals pkt entry n i σ).Holds (Steps pkt entry σ0)
      (Steps pkt entry σ0) := by
  induction n generalizing i σ with
  | zero => exact h
  | succ n ih =>
    unfold DisplayResponse_additionals
    cases hq : pkt.msg.additionals[i]? with
    | none => exact h
    | some rr =>
      have hmem : rr ∈ pkt.msg.records := by
        unfold DNSMessage.records
        simp [List.getElem?_mem hq]
      exact ih _ _ ((h.tally (by rfl)).step (Step.info _ rr hmem))

theorem Steps_DisplayQuery (σ σ1 : State) (pkt : Packet) (hr : DisplayQuery σ pkt = some σ1) :
    ∃ t, Steps pkt (GotPacketFromHost σ pkt.reallocOk pkt.srcaddr t pkt.msg.id).2
      (GotPacketFromHost σ pkt.reallocOk pkt.srcaddr t pkt.msg.id).1 σ1 := by
  refine ⟨if pkt.srcport = MulticastDNSPort then HostPkt_Q else HostPkt_L, ?_⟩
  unfold DisplayQuery at hr
  dsimp only at hr
  generalize GotPacketFromHost σ pkt.reallocOk pkt.srcaddr
    (if pkt.srcport = MulticastDNSPort then HostPkt_Q else HostPkt_L) pkt.msg.id = g at hr ⊢
  refine Flow.Holds_result (Q := Steps pkt g.2 g.1) _ ?_ σ1 hr
  refine Flow.Holds_andThen _ _ (Steps_DisplayQuery_questions pkt g.2 g.1 _ _ _ _ ?_) ?_
  · split_ifs
    · exact (Steps.refl pkt g.2 g.1).tally (by rfl)
    · exact (Steps.refl pkt g.2 g.1).tally (by rfl)
    · exact Steps.refl pkt g.2 g.1
  intro qa hqa
  refine Flow.Holds_andThen _ _ (Steps_DisplayQuery_answers pkt g.2 g.1 _ _ _ hqa) ?_
  intro σ2 h2
  refine Flow.Holds_andThen _ _ (Steps_DisplayQuery_authorities pkt g.2 g.1 _ _ _ _ h2) ?_
  intro σ3 h3
  refine Flow.Holds_andThen _ _ (Steps_DisplayQuery_additionals pkt g.2 g.1 _ _ _ h3) ?_
  intro σ4 h4
  exact h4.step (Step.analyse σ4)

theorem Steps_DisplayResponse (σ σ1 : State) (pkt : Packet)
    (hr : DisplayResponse σ pkt = some σ1) :
    ∃ t, Steps pkt (GotPacketFromHost σ pkt.reallocOk pkt.srcaddr t pkt.msg.id).2
      (GotPacketFromHost σ pkt.reallocOk pkt.srcaddr t pkt.msg.id).1 σ1 := by
  refine ⟨HostPkt_R, ?_⟩
  unfold DisplayResponse at hr
  dsimp only at hr
  generalize GotPacketFromHost σ pkt.reallocOk pkt.srcaddr HostPkt_R pkt.msg.id = g at hr ⊢
  refine Flow.Holds_result (Q := Steps pkt g.2 g.1) _ ?_ σ1 hr
  refine Flow.Holds_andThen _ _ (Steps_DisplayResponse_questions pkt g.2 g.1 _ _ _ ?_) ?_
  · split_ifs
    · exact (Steps.refl pkt g.2 g.1).tally (by rfl)
    · exact Steps.refl pkt g.2 g.1
  intro σ2 h2
  refine Flow.Holds_andThen _ _ (Steps_DisplayResponse_answers pkt g.2 g.1 _ _ _ h2) ?_
  intro σ3 h3
  refine Flow.Holds_andThen _ _ (Steps_DisplayResponse_authorities pkt g.2 g.1 _ _ _ h3) ?_
  intro σ4 h4
  refine Flow.Holds_andThen _ _ (Steps_DisplayResponse_additionals pkt g.2 g.1 _ _ _ h4) ?_
  intro σ5 h5
  exact h5.step (Step.analyse σ5)

theorem mem_records_of_unicastRecords (msg : DNSMessage) (rr : ResourceRecord)
    (h : rr ∈ unicastRecords msg) : rr ∈ msg.records := by
  unfold unicastRecords at h
  unfold DNSMessage.records
  dsimp only at h
  split_ifs at h
  · simp at h
  · exact List.mem_append_left _ (List.mem_append_left _ (List.mem_of_mem_take h))
  · rcases List.mem_append.1 h with h1 | h1
    · exact List.mem_append_left _ (List.mem_append_left _ (List.mem_of_mem_take h1))
    · exact List.mem_append_left _ (List.mem_append_right _ (List.mem_of_mem_take h1))
  · rcases List.mem_append.1 h with h1 | h1
    · rcases List.mem_append.1 h1 with h2 | h2
      · exact List.mem_append_left _ (List.mem_append_left _ (List.mem_of_mem_take h2))
      · exact List.mem_append_left _ (List.mem_append_right _ (List.mem_of_mem_take h2))
    · exact List.mem_append_right _ (List.mem_of_mem_take h1)

theorem Steps_foldl_recordHostInfo (pkt : Packet) (entry : Option HostRef) (σ0 : State)
    (l : List ResourceRecord) (hl : ∀ rr ∈ l, rr ∈ pkt.msg.records) (σ : State)
    (h : Steps pkt entry σ0 σ) :
    Steps pkt entry σ0
      (l.foldl (fun s rr => if rr.rroriginalttl ≠ 0 then s.recordHostInfo rr entry else s) σ) := by
  induction l generalizing σ with
  | nil => exact h
  | cons rr rest ih =>
    simp only [List.foldl_cons]
    apply ih (fun x hx => hl x (by simp [hx]))
    split_ifs
    · exact h.step (Step.info σ rr (hl rr (by simp)))
    · exact h

/-- The classification of a packet either leaves the state as it is, or is
`GotPacketFromHost` followed by a sequence of steps for the entry returned. -/
theorem Steps_mDNSCoreReceive (σ σ1 : State) (pkt : Packet)
    (hr : mDNSCoreReceive σ pkt = some σ1) :
    σ1 = σ ∨
    ∃ t, Steps pkt (GotPacketFromHost σ pkt.reallocOk pkt.srcaddr t pkt.msg.id).2
      (GotPacketFromHost σ pkt.reallocOk pkt.srcaddr t pkt.msg.id).1 σ1 := by
  unfold mDNSCoreReceive at hr
  dsimp only at hr
  split_ifs at hr
  · exact Or.inl (Option.some.inj hr).symm
  · right
    refine ⟨HostPkt_R, ?_⟩
    rw [← Option.some.inj hr]
    unfold ProcessUnicastResponse
    exact Steps_foldl_recordHostInfo pkt _ _ _ (mem_records_of_unicastRecords pkt.msg) _
      (Steps.refl _ _ _)
  · exact Or.inl (Option.some.inj hr).symm
  · exact Or.inr (Steps_DisplayQuery σ σ1 pkt hr)
  · exact Or.inr (Steps_DisplayResponse σ σ1 pkt hr)
  · right
    refine ⟨HostPkt_B, ?_⟩
    rw [← Option.some.inj hr]
    exact (Steps.refl _ _ _).tally (by rfl)
  · exact Or.inl (Option.some.inj hr).symm

/-- A property of the state that `GotPacketFromHost` keeps and that every step
of the classification of a packet with the property `Pk` keeps, holds after any
sequence of such packets. -/
theorem run_invariant (I : State → Prop) (Pk : Packet → Prop)
    (hG : ∀ σ reallocOk addr t id, I σ → I (GotPacketFromHost σ reallocOk addr t id).1)
    (hS : ∀ pkt entry σ σ1, Pk pkt → Step pkt entry σ σ1 → I σ → I σ1)
    (pkts : List Packet) (hP : ∀ pkt ∈ pkts, Pk pkt) (σ σ1 : State)
    (hr : run σ pkts = some σ1) (h : I σ) : I σ1 := by
  induction pkts generalizing σ with
  | nil => exact Option.some.inj hr ▸ h
  | cons pkt rest ih =>
    unfold run at hr
    cases hp : mDNSCoreReceive σ pkt with
    | none => simp [hp] at hr
    | some σ2 =>
      simp only [hp] at hr
      have h2 : I σ2 := by
        rcases Steps_mDNSCoreReceive σ σ2 pkt hp with e | ⟨t, hs⟩
        · exact e ▸ h
        · have hg := hG σ pkt.reallocOk pkt.srcaddr t pkt.msg.id h
          have hpk : Pk pkt := hP pkt (by simp)
          clear hp hr
          induction hs with
          | refl => exact hg
          | tail _ s ih2 => exact hS pkt _ _ _ hpk s ih2
      exact ih (fun p hp1 => hP p (by simp [hp1])) σ2 hr h2

/-! ## What a step does to one host entry -/

theorem RecordHostInfo_queries (entry : HostEntry) (pktrr : ResourceRecord) :
    ((RecordHostInfo entry pktrr).NumQueries = entry.NumQueries ∨
      ((RecordHostInfo entry pktrr).NumQueries = 0 ∧ byteAt entry.hostname.c 0 = 0 ∧
        (pktrr.rrtype = kDNSType_A ∨ pktrr.rrtype = kDNSType_AAAA ∨
          (pktrr.rrtype = kDNSType_PTR ∧ SameDomainName entry.revname pktrr.name = true)))) ∧
    (RecordHostInfo entry pktrr).LastQuery = entry.LastQuery ∧
    (pktrr.noName → (RecordHostInfo entry pktrr).NumQueries = entry.NumQueries) := by
  unfold RecordHostInfo ResourceRecord.noName
  dsimp only
  by_cases hn : byteAt entry.hostname.c 0 = 0
  · rw [if_pos hn]
    by_cases ha : pktrr.rrtype = kDNSType_A ∨ pktrr.rrtype = kDNSType_AAAA
    · have ha' : pktrr.rrtype = kDNSType_A ∨ pktrr.rrtype = kDNSType_AAAA ∨
          (pktrr.rrtype = kDNSType_PTR ∧ SameDomainName entry.revname pktrr.name = true) := by
        rcases ha with h | h
        · exact Or.inl h
        · exact Or.inr (Or.inl h)
      have hno : ¬ (pktrr.rrtype ≠ kDNSType_A ∧ pktrr.rrtype ≠ kDNSType_AAAA ∧
          pktrr.rrtype ≠ kDNSType_PTR) := by
        rintro ⟨h1, h2, _⟩
        rcases ha with h | h
        · exact h1 h
        · exact h2 h
      rw [if_pos ha]
      split_ifs <;> exact ⟨Or.inr ⟨rfl, hn, ha'⟩, rfl, fun h => absurd h hno⟩
    · rw [if_neg ha]
      by_cases hp : pktrr.rrtype = kDNSType_PTR
      · by_cases hs : SameDomainName entry.revname pktrr.name = true
        · rw [if_pos hp, if_pos hs]
          exact ⟨Or.inr ⟨rfl, hn, Or.inr (Or.inr ⟨hp, hs⟩)⟩, rfl, fun h => absurd hp h.2.2⟩
        · rw [if_pos hp, if_neg hs]
          exact ⟨Or.inl rfl, rfl, fun _ => rfl⟩
      · rw [if_neg hp]
        exact ⟨Or.inl rfl, rfl, fun _ => rfl⟩
  · rw [if_neg hn]
    split_ifs <;> exact ⟨Or.inl rfl, rfl, fun _ => rfl⟩

theorem stop_DisplayQuery_questions (pkt : Packet) (entry : Option HostRef) (k : Nat) :
    ∀ (n i : Nat) (σ : State) (auths : List ResourceRecord), k < n →
      pkt.msg.questions[i + k]? = none →
      DisplayQuery_questions pkt entry n i σ auths =
        (DisplayQuery_questions pkt entry k i σ auths).stop Prod.fst := by
  induction k with
  | zero =>
    intro n i σ auths hn hq
    obtain ⟨m, rfl⟩ := Nat.exists_eq_succ_of_ne_zero (Nat.ne_of_gt hn)
    rw [Nat.add_zero] at hq
    simp only [DisplayQuery_questions, hq, Flow.stop]
  | succ k ih =>
    intro n i σ auths hn hq
    obtain ⟨m, rfl⟩ := Nat.exists_eq_succ_of_ne_zero (Nat.ne_of_gt (Nat.lt_of_le_of_lt (Nat.zero_le _) hn))
    have hq1 : pkt.msg.questions[i + 1 + k]? = none := by
      rw [show i + 1 + k = i + (k + 1) by omega]; exact hq
    have hm : k < m := by omega
    simp only [DisplayQuery_questions]
    cases pkt.msg.questions[i]? with
    | none => rfl
    | some q0 =>
      simp only []
      cases FindUpdate pkt auths { q0 with qclass := q0.qclass &&& 0x7FFF } with
      | some jr =>
        simp only []
        cases recordstat
            (State.display { σ with NumProbes := σ.NumProbes + 1 }
              (if q0.qclass &&& kDNSQClass_UnicastResponse ≠ 0 then DisplayTag.PU
                else DisplayTag.PM) jr.2)
            pkt.mallocOk entry q0.qname OP_probe q0.qtype with
        | none => rfl
        | some σ3 => exact ih m (i + 1) σ3 _ hm hq1
      | none =>
        simp only []
        cases (if pkt.msg.id ≠ 0xFFFF then
            recordstat
              (if pkt.srcport = MulticastDNSPort then
                { σ with NumQuestions := σ.NumQuestions + 1 }
              else { σ with NumLegacy := σ.NumLegacy + 1 })
              pkt.mallocOk entry q0.qname OP_query q0.qtype
          else some (if pkt.srcport = MulticastDNSPort then
                { σ with NumQuestions := σ.NumQuestions + 1 }
              else { σ with NumLegacy := σ.NumLegacy + 1 })) with
        | none => rfl
        | some σ2 => exact ih m (i + 1) σ2 _ hm hq1

theorem stop_DisplayQuery_answers (pkt : Packet) (entry : Option HostRef) (k : Nat) :
    ∀ (n i : Nat) (σ : State), k < n → pkt.msg.answers[i + k]? = none →
      DisplayQuery_answers pkt entry n i σ = (DisplayQuery_answers pkt entry k i σ).stop id := by
  induction k with
  | zero =>
    intro n i σ hn hq
    obtain ⟨m, rfl⟩ := Nat.exists_eq_succ_of_ne_zero (Nat.ne_of_gt hn)
    rw [Nat.add_zero] at hq
    simp only [DisplayQuery_answers, hq, Flow.stop, id]
  | succ k ih =>
    intro n i σ hn hq
    obtain ⟨m, rfl⟩ := Nat.exists_eq_succ_of_ne_zero (Nat.ne_of_gt (Nat.lt_of_le_of_lt (Nat.zero_le _) hn))
    have hq1 : pkt.msg.answers[i + 1 + k]? = none := by
      rw [show i + 1 + k = i + (k + 1) by omega]; exact hq
    have hm : k < m := by omega
    simp only [DisplayQuery_answers]
    cases pkt.msg.answers[i]? with
    | none => rfl
    | some rr =>
      simp only []
      cases (if pkt.msg.numQuestions = 0 ∧ i = 0 then
          recordstat (σ.display DisplayTag.KA rr) pkt.mallocOk entry rr.name OP_query rr.rrtype
        else some (σ.display DisplayTag.KA rr)) with
      | none => rfl
      | some σ2 => exact ih m (i + 1) σ2 hm hq1

theorem stop_DisplayQuery_authorities (auths : List ResourceRecord) (k : Nat) :
    ∀ (n i : Nat) (σ : State), k < n → auths[i + k]? = none →
      DisplayQuery_authorities auths n i σ = (DisplayQuery_authorities auths k i σ).stop id := by
  induction k with
  | zero =>
    intro n i σ hn hq
    obtain ⟨m, rfl⟩ := Nat.exists_eq_succ_of_ne_zero (Nat.ne_of_gt hn)
    rw [Nat.add_zero] at hq
    simp only [DisplayQuery_authorities, hq, Flow.stop, id]
  | succ k ih =>
    intro n i σ hn hq
    obtain ⟨m, rfl⟩ := Nat.exists_eq_succ_of_ne_zero (Nat.ne_of_gt (Nat.lt_of_le_of_lt (Nat.zero_le _) hn))
    have hq1 : auths[i + 1 + k]? = none := by
      rw [show i + 1 + k = i + (k + 1) by omega]; exact hq
    have hm : k < m := by omega
    simp only [DisplayQuery_authorities]
    cases auths[i]? with
    | none => rfl
    | some rr => exact ih m (i + 1) _ hm hq1

theorem stop_DisplayQuery_additionals (pkt : Packet) (k : Nat) :
    ∀ (n i : Nat) (σ : State), k < n → pkt.msg.additionals[i + k]? = none →
      DisplayQuery_additionals pkt n i σ = (DisplayQuery_additionals pkt k i σ).stop id := by
  induction k with
  | zero =>
    intro n i σ hn hq
    obtain ⟨m, rfl⟩ := Nat.exists_eq_succ_of_ne_zero (Nat.ne_of_gt hn)
    rw [Nat.add_zero] at hq
    simp only [DisplayQuery_additionals, hq, Flow.stop, id]
  | succ k ih =>
    intro n i σ hn hq
    obtain ⟨m, rfl⟩ := Nat.exists_eq_succ_of_ne_zero (Nat.ne_of_gt (Nat.lt_of_le_of_lt (Nat.zero_le _) hn))
    have hq1 : pkt.msg.additionals[i + 1 + k]? = none := by
      rw [show i + 1 + k = i + (k + 1) by omega]; exact hq
    have hm : k < m := by omega
    simp only [DisplayQuery_additionals]
    cases pkt.msg.additionals[i]? with
    | none => rfl
    | some rr => exact ih m (i + 1) _ hm hq1

theorem stop_DisplayResponse_questions (pkt : Packet) (k : Nat) :
    ∀ (n i : Nat) (σ : State), k < n → pkt.msg.questions[i + k]? = none →
      DisplayResponse_questions pkt n i σ = (DisplayResponse_questions pkt k i σ).stop id := by
  induction k with
  | zero =>
    intro n i σ hn hq
    obtain ⟨m, rfl⟩ := Nat.exists_eq_succ_of_ne_zero (Nat.ne_of_gt hn)
    rw [Nat.add_zero] at hq
    simp only [DisplayResponse_questions, hq, Flow.stop, id]
  | succ k ih =>
    intro n i σ hn hq
    obtain ⟨m, rfl⟩ := Nat.exists_eq_succ_of_ne_zero (Nat.ne_of_gt (Nat.lt_of_le_of_lt (Nat.zero_le _) hn))
    have hq1 : pkt.msg.questions[i + 1 + k]? = none := by
      rw [show i + 1 + k = i + (k + 1) by omega]; exact hq
    have hm : k < m := by omega
    simp only [DisplayResponse_questions]
    cases pkt.msg.questions[i]? with
    | none => rfl
    | some q => exact ih m (i + 1) _ hm hq1

theorem stop_DisplayResponse_answers (pkt : Packet) (entry : Option HostRef) (k : Nat) :
    ∀ (n i : Nat) (σ : State), k < n → pkt.msg.answers[i + k]? = none →
      DisplayResponse_answers pkt entry n i σ =
        (DisplayResponse_answers pkt entry k i σ).stop id := by
  induction k with
  | zero =>
    intro n i σ hn hq
    obtain ⟨m, rfl⟩ := Nat.exists_eq_succ_of_ne_zero (Nat.ne_of_gt hn)
    rw [Nat.add_zero] at hq
    simp only [DisplayResponse_answers, hq, Flow.stop, id]
  | succ k ih =>
    intro n i σ hn hq
    obtain ⟨m, rfl⟩ := Nat.exists_eq_succ_of_ne_zero (Nat.ne_of_gt (Nat.lt_of_le_of_lt (Nat.zero_le _) hn))
    have hq1 : pkt.msg.answers[i + 1 + k]? = none := by
      rw [show i + 1 + k = i + (k + 1) by omega]; exact hq
    have hm : k < m := by omega
    simp only [DisplayResponse_answers]
    cases pkt.msg.answers[i]? with
    | none => rfl
    | some rr =>
      simp only []
      by_cases httl : rr.rroriginalttl ≠ 0
      · simp only [if_pos httl]
        cases (if pkt.msg.id ≠ 0xFFFF then
            recordstat
              (State.display { σ with NumAnswers := σ.NumAnswers + 1 }
                (if rr.unique = true then DisplayTag.AN else DisplayTag.ANplus) rr)
              pkt.mallocOk entry rr.name OP_answer rr.rrtype
          else some (State.display { σ with NumAnswers := σ.NumAnswers + 1 }
                (if rr.unique = true then DisplayTag.AN else DisplayTag.ANplus) rr)) with
        | none => rfl
        | some σ3 => exact ih m (i + 1) _ hm hq1
      · simp only [if_neg httl]
        cases recordstat
            (State.display { σ with NumGoodbyes := σ.NumGoodbyes + 1 } DisplayTag.DE rr)
            pkt.mallocOk entry rr.name OP_goodbye rr.rrtype with
        | none => rfl
        | some σ3 => exact ih m (i + 1) σ3 hm hq1

theorem stop_DisplayResponse_authorities (pkt : Packet) (k : Nat) :
    ∀ (n i : Nat) (σ : State), k < n → pkt.msg.authorities[i + k]? = none →
      DisplayResponse_authorities pkt n i σ =
        (DisplayResponse_authorities pkt k i σ).stop id := by
  induction k with
  | zero =>
    intro n i σ hn hq
    obtain ⟨m, rfl⟩ := Nat.exists_eq_succ_of_ne_zero (Nat.ne_of_gt hn)
    rw [Nat.add_zero] at hq
    simp only [DisplayResponse_authorities, hq, Flow.stop, id]
  | succ k ih =>
    intro n i σ hn hq
    obtain ⟨m, rfl⟩ := Nat.exists_eq_succ_of_ne_zero (Nat.ne_of_gt (Nat.lt_of_le_of_lt (Nat.zero_le _) hn))
    have hq1 : pkt.msg.authorities[i + 1 + k]? = none := by
      rw [show i + 1 + k = i + (k + 1) by omega]; exact hq
    have hm : k < m := by omega
    simp only [DisplayResponse_authorities]
    cases pkt.msg.authorities[i]? with
    | none => rfl
    | some rr => exact ih m (i + 1) _ hm hq1

theorem stop_DisplayResponse_additionals (pkt : Packet) (entry : Option HostRef) (k : Nat) :
    ∀ (n i : Nat) (σ : State), k < n → pkt.msg.additionals[i + k]? = none →
      DisplayResponse_additionals pkt entry n i σ =
        (DisplayResponse_additionals pkt entry k i σ).stop id := by
  induction k with
  | zero =>
    intro n i σ hn hq
    obtain ⟨m, rfl⟩ := Nat.exists_eq_succ_of_ne_zero (Nat.ne_of_gt hn)
    rw [Nat.add_zero] at hq
    simp only [DisplayResponse_additionals, hq, Flow.stop, id]
  | succ k ih =>
    intro n i σ hn hq
    obtain ⟨m, rfl⟩ := Nat.exists_eq_succ_of_ne_zero (Nat.ne_of_gt (Nat.lt_of_le_of_lt (Nat.zero_le _) hn))
    have hq1 : pkt.msg.additionals[i + 1 + k]? = none := by
      rw [show i + 1 + k = i + (k + 1) by omega]; exact hq
    have hm : k < m := by omega
    simp only [DisplayResponse_additionals]
    cases pkt.msg.additionals[i]? with
    | none => rfl
    | some rr => exact ih m (i + 1) _ hm hq1

/-! ## Without allocation failure the walk returns -/

theorem recordstat_returns (σ : State) (entry : Option HostRef) (fqdn : domainname) (op : Int)
    (rrtype : Nat) : ∃ σ1, recordstat σ true entry fqdn op rrtype = some σ1 := by
  unfold recordstat
  cases recordstatOp op rrtype with
  | none => exact ⟨_, rfl⟩
  | some slot =>
    cases ExtractServiceType fqdn with
    | none => exact ⟨_, rfl⟩
    | some t =>
      simp only [Bool.true_eq_false, and_false, if_false]
      cases entry <;> exact ⟨_, rfl⟩

theorem Flow.returns_andThen {α β : Type} (x : Flow α) (f : α → Flow β) (hx : x.returns)
    (hf : ∀ a, (f a).returns) : (x.andThen f).returns := by
  cases x with
  | next a => exact hf a
  | ret σ => trivial
  | exit => exact hx

theorem Flow.result_of_returns (x : Flow State) (hx : x.returns) : ∃ σ1, x.result = some σ1 := by
  cases x with
  | next a => exact ⟨a, rfl⟩
  | ret σ => exact ⟨σ, rfl⟩
  | exit => exact absurd hx id

theorem returns_DisplayQuery_questions (pkt : Packet) (entry : Option HostRef)
    (hm : pkt.mallocOk = true) (n i : Nat) (σ : State) (auths : List ResourceRecord) :
    (DisplayQuery_questions pkt entry n i σ auths).returns := by
  induction n generalizing i σ auths with
  | zero => trivial
  | succ n ih =>
    unfold DisplayQuery_questions
    rw [hm]
    cases pkt.msg.questions[i]? with
    | none => trivial
    | some q0 =>
      simp only []
      cases FindUpdate pkt auths { q0 with qclass := q0.qclass &&& 0x7FFF } with
      | some jr =>
        simp only []
        obtain ⟨σ3, h3⟩ := recordstat_returns
          (State.display { σ with NumProbes := σ.NumProbes + 1 }
              (if q0.qclass &&& kDNSQClass_UnicastResponse ≠ 0 then DisplayTag.PU
                else DisplayTag.PM) jr.2) entry q0.qname OP_probe q0.qtype
        rw [h3]
        exact ih _ _ _
      | none =>
        simp only []
        by_cases hid : pkt.msg.id ≠ 0xFFFF
        · simp only [if_pos hid]
          obtain ⟨σ2, h2⟩ := recordstat_returns
            (if pkt.srcport = MulticastDNSPort then
                { σ with NumQuestions := σ.NumQuestions + 1 }
              else { σ with NumLegacy := σ.NumLegacy + 1 }) entry q0.qname OP_query q0.qtype
          rw [h2]
          exact ih _ _ _
        · simp only [if_neg hid]
          exact ih _ _ _

theorem returns_DisplayQuery_answers (pkt : Packet) (entry : Option HostRef)
    (hm : pkt.mallocOk = true) (n i : Nat) (σ : State) :
    (DisplayQuery_answers pkt entry n i σ).returns := by
  induction n generalizing i σ with
  | zero => trivial
  | succ n ih =>
    unfold DisplayQuery_answers
    rw [hm]
    cases pkt.msg.answers[i]? with
    | none => trivial
    | some rr =>
      simp only []
      by_cases hc : pkt.msg.numQuestions = 0 ∧ i = 0
      · simp only [if_pos hc]
        obtain ⟨σ2, h2⟩ := recordstat_returns (σ.display DisplayTag.KA rr) entry rr.name
          OP_query rr.rrtype
        rw [h2]
        exact ih _ _
      · simp only [if_neg hc]
        exact ih _ _

theorem returns_DisplayQuery_authorities (auths : List ResourceRecord) (n i : Nat) (σ : State) :
    (DisplayQuery_authorities auths n i σ).returns := by
  induction n generalizing i σ with
  | zero => trivial
  | succ n ih =>
    unfold DisplayQuery_authorities
    cases auths[i]? with
    | none => trivial
    | some rr => exact ih _ _

theorem returns_DisplayQuery_additionals (pkt : Packet) (n i : Nat) (σ : State) :
    (DisplayQuery_additionals pkt n i σ).returns := by
  induction n generalizing i σ with
  | zero => trivial
  | succ n ih =>
    unfold DisplayQuery_additionals
    cases pkt.msg.additionals[i]? with
    | none => trivial
    | some rr => exact ih _ _

theorem returns_DisplayResponse_questions (pkt : Packet) (n i : Nat) (σ : State) :
    (DisplayResponse_questions pkt n i σ).returns := by
  induction n generalizing i σ with
  | zero => trivial
  | succ n ih =>
    unfold DisplayResponse_questions
    cases pkt.msg.questions[i]? with
    | none => trivial
    | some q => exact ih _ _

theorem returns_DisplayResponse_answers (pkt : Packet) (entry : Option HostRef)
    (hm : pkt.mallocOk = true) (n i : Nat) (σ : State) :
    (DisplayResponse_answers pkt entry n i σ).returns := by
  induction n generalizing i σ with
  | zero => trivial
  | succ n ih =>
    unfold DisplayResponse_answers
    rw [hm]
    cases pkt.msg.answers[i]? with
    | none => trivial
    | some rr =>
      simp only []
      by_cases httl : rr.rroriginalttl ≠ 0
      · simp only [if_pos httl]
        by_cases hid : pkt.msg.id ≠ 0xFFFF
        · simp only [if_pos hid]
          obtain ⟨σ3, h3⟩ := recordstat_returns
            (State.display { σ with NumAnswers := σ.NumAnswers + 1 }
                (if rr.unique = true then DisplayTag.AN else DisplayTag.ANplus) rr)
            entry rr.name OP_answer rr.rrtype
          rw [h3]
          exact ih _ _
        · simp only [if_neg hid]
          exact ih _ _
      · simp only [if_neg httl]
        obtain ⟨σ3, h3⟩ := recordstat_returns
          (State.display { σ with NumGoodbyes := σ.NumGoodbyes + 1 } DisplayTag.DE rr)
          entry rr.name OP_goodbye rr.rrtype
        rw [h3]
        exact ih _ _

theorem returns_DisplayResponse_authorities (pkt : Packet) (n i : Nat) (σ : State) :
    (DisplayResponse_authorities pkt n i σ).returns := by
  induction n generalizing i σ with
  | zero => trivial
  | succ n ih =>
    unfold DisplayResponse_authorities
    cases pkt.msg.authorities[i]? with
    | none => trivial
    | some rr => exact ih _ _

theorem returns_DisplayResponse_additionals (pkt : Packet) (entry : Option HostRef)
    (n i : Nat) (σ : State) : (DisplayResponse_additionals pkt entry n i σ).returns := by
  induction n generalizing i σ with
  | zero => trivial
  | succ n ih =>
    unfold DisplayResponse_additionals
    cases pkt.msg.additionals[i]? with
    | none => trivial
    | some rr => exact ih _ _

theorem DisplayQuery_returns (σ : State) (pkt : Packet) (hm : pkt.mallocOk = true) :
    ∃ σ1, DisplayQuery σ pkt = some σ1 := by
  unfold DisplayQuery
  dsimp only
  apply Flow.result_of_returns
  refine Flow.returns_andThen _ _ (returns_DisplayQuery_questions pkt _ hm _ _ _ _) ?_
  intro qa
  refine Flow.returns_andThen _ _ (returns_DisplayQuery_answers pkt _ hm _ _ _) ?_
  intro σ2
  refine Flow.returns_andThen _ _ (returns_DisplayQuery_authorities _ _ _ _) ?_
  intro σ3
  refine Flow.returns_andThen _ _ (returns_DisplayQuery_additionals pkt _ _ _) ?_
  intro σ4
  trivial

theorem DisplayResponse_returns (σ : State) (pkt : Packet) (hm : pkt.mallocOk = true) :
    ∃ σ1, DisplayResponse σ pkt = some σ1 := by
  unfold DisplayResponse
  dsimp only
  apply Flow.result_of_returns
  refine Flow.returns_andThen _ _ (returns_DisplayResponse_questions pkt _ _ _) ?_
  intro σ2
  refine Flow.returns_andThen _ _ (returns_DisplayResponse_answers pkt _ hm _ _ _) ?_
  intro σ3
  refine Flow.returns_andThen _ _ (returns_DisplayResponse_authorities pkt _ _ _) ?_
  intro σ4
  refine Flow.returns_andThen _ _ (returns_DisplayResponse_additionals pkt _ _ _ _) ?_
  intro σ5
  trivial

theorem length_zeroTypeClass (l : List ResourceRecord) (j : Nat) :
    (zeroTypeClass l j).length = l.length := by
  induction l generalizing j with
  | nil => rfl
  | cons rr rest ih =>
    cases j with
    | zero => rfl
    | succ j => simp only [zeroTypeClass, List.length_cons, ih]

theorem length_DisplayQuery_questions (pkt : Packet) (entry : Option HostRef) (n i : Nat)
    (σ : State) (auths : List ResourceRecord) (qa : State × List ResourceRecord)
    (h : DisplayQuery_questions pkt entry n i σ auths = .next qa) :
    qa.2.length = auths.length := by
  induction n generalizing i σ auths with
  | zero =>
    simp only [DisplayQuery_questions, Flow.next.injEq] at h
    rw [← h]
  | succ n ih =>
    simp only [DisplayQuery_questions] at h
    cases hq : pkt.msg.questions[i]? with
    | none => rw [hq] at h; exact Flow.noConfusion h
    | some q0 =>
      rw [hq] at h
      simp only [] at h
      cases hf : FindUpdate pkt auths { q0 with qclass := q0.qclass &&& 0x7FFF } with
      | some jr =>
        rw [hf] at h
        simp only [] at h
        cases hr : recordstat
            (State.display { σ with NumProbes := σ.NumProbes + 1 }
              (if q0.qclass &&& kDNSQClass_UnicastResponse ≠ 0 then DisplayTag.PU
                else DisplayTag.PM) jr.2) pkt.mallocOk entry q0.qname OP_probe q0.qtype with
        | none => rw [hr] at h; exact Flow.noConfusion h
        | some σ3 =>
          rw [hr] at h
          rw [ih _ _ _ h, length_zeroTypeClass]
      | none =>
        rw [hf] at h
        simp only [] at h
        cases hr : (if pkt.msg.id ≠ 0xFFFF then
            recordstat
              (if pkt.srcport = MulticastDNSPort then
                  { σ with NumQuestions := σ.NumQuestions + 1 }
                else { σ with NumLegacy := σ.NumLegacy + 1 })
              pkt.mallocOk entry q0.qname OP_query q0.qtype
          else some (if pkt.srcport = MulticastDNSPort then
                  { σ with NumQuestions := σ.NumQuestions + 1 }
                else { σ with NumLegacy := σ.NumLegacy + 1 })) with
        | none => rw [hr] at h; exact Flow.noConfusion h
        | some σ2 =>
          rw [hr] at h
          exact ih _ _ _ h

theorem DisplayQuery_eq (σ : State) (pkt : Packet) :
    DisplayQuery σ pkt = Flow.result
      ((DisplayQuery_questions pkt (DisplayQuery_entry σ pkt) pkt.msg.numQuestions 0
          (DisplayQuery_start σ pkt) pkt.msg.authorities).andThen fun qa =>
        (DisplayQuery_answers pkt (DisplayQuery_entry σ pkt) pkt.msg.numAnswers 0 qa.1).andThen
          fun σ2 =>
        (DisplayQuery_authorities qa.2 pkt.msg.numAuthorities 0 σ2).andThen fun σ3 =>
        (DisplayQuery_additionals pkt pkt.msg.numAdditionals 0 σ3).andThen fun σ4 =>
        .next (σ4.analyse pkt.timenow pkt.InterfaceID (DisplayQuery_entry σ pkt))) := rfl

theorem DisplayResponse_eq (σ : State) (pkt : Packet) :
    DisplayResponse σ pkt = Flow.result
      ((DisplayResponse_questions pkt pkt.msg.numQuestions 0
          (DisplayResponse_start σ pkt)).andThen fun σ2 =>
        (DisplayResponse_answers pkt (DisplayResponse_entry σ pkt) pkt.msg.numAnswers 0
          σ2).andThen fun σ3 =>
        (DisplayResponse_authorities pkt pkt.msg.numAuthorities 0 σ3).andThen fun σ4 =>
        (DisplayResponse_additionals pkt (DisplayResponse_entry σ pkt) pkt.msg.numAdditionals 0
          σ4).andThen fun σ5 =>
        .next (σ5.analyse pkt.timenow pkt.InterfaceID (DisplayResponse_entry σ pkt))) := rfl

/-- C17. In `DisplayQuery` and in `DisplayResponse`, when the walk arrives at
item `k` of a section (the sections before it and the items before it have been
processed, leaving the state `σk`) and item `k` does not decode, the function
returns in exactly the state `σk`: the counters changed by the items before the
failure keep their values, nothing later in the message changes anything, and
the function returns. (Without allocation failure both functions return for
every message.) -/
theorem decoding_failure_ends_walk (σ : State) (pkt : Packet) :
    (pkt.mallocOk = true →
      (∃ σ1, DisplayQuery σ pkt = some σ1) ∧ (∃ σ1, DisplayResponse σ pkt = some σ1)) ∧
    (∀ (k : Nat) (a : State × List ResourceRecord),
      k < pkt.msg.numQuestions → pkt.msg.questions[k]? = none →
      DisplayQuery_questions pkt (DisplayQuery_entry σ pkt) k 0 (DisplayQuery_start σ pkt)
        pkt.msg.authorities = .next a →
      DisplayQuery σ pkt = some a.1) ∧
    (∀ (k : Nat) (qa : State × List ResourceRecord) (σk : State),
      k < pkt.msg.numAnswers → pkt.msg.answers[k]? = none →
      DisplayQuery_questions pkt (DisplayQuery_entry σ pkt) pkt.msg.numQuestions 0
        (DisplayQuery_start σ pkt) pkt.msg.authorities = .next qa →
      DisplayQuery_answers pkt (DisplayQuery_entry σ pkt) k 0 qa.1 = .next σk →
      DisplayQuery σ pkt = some σk) ∧
    (∀ (k : Nat) (qa : State × List ResourceRecord) (σ2 σk : State),
      k < pkt.msg.numAuthorities → pkt.msg.authorities[k]? = none →
      DisplayQuery_questions pkt (DisplayQuery_entry σ pkt) pkt.msg.numQuestions 0
        (DisplayQuery_start σ pkt) pkt.msg.authorities = .next qa →
      DisplayQuery_answers pkt (DisplayQuery_entry σ pkt) pkt.msg.numAnswers 0 qa.1 = .next σ2 →
      DisplayQuery_authorities qa.2 k 0 σ2 = .next σk →
      DisplayQuery σ pkt = some σk) ∧
    (∀ (k : Nat) (qa : State × List ResourceRecord) (σ2 σ3 σk : State),
      k < pkt.msg.numAdditionals → pkt.msg.additionals[k]? = none →
      DisplayQuery_questions pkt (DisplayQuery_entry σ pkt) pkt.msg.numQuestions 0
        (DisplayQuery_start σ pkt) pkt.msg.authorities = .next qa →
      DisplayQuery_answers pkt (DisplayQuery_entry σ pkt) pkt.msg.numAnswers 0 qa.1 = .next σ2 →
      DisplayQuery_authorities qa.2 pkt.msg.numAuthorities 0 σ2 = .next σ3 →
      DisplayQuery_additionals pkt k 0 σ3 = .next σk →
      DisplayQuery σ pkt = some σk) ∧
    (∀ (k : Nat) (σk : State),
      k < pkt.msg.numQuestions → pkt.msg.questions[k]? = none →
      DisplayResponse_questions pkt k 0 (DisplayResponse_start σ pkt) = .next σk →
      DisplayResponse σ pkt = some σk) ∧
    (∀ (k : Nat) (σ2 σk : State),
      k < pkt.msg.numAnswers → pkt.msg.answers[k]? = none →
      DisplayResponse_questions pkt pkt.msg.numQuestions 0 (DisplayResponse_start σ pkt)
        = .next σ2 →
      DisplayResponse_answers pkt (DisplayResponse_entry σ pkt) k 0 σ2 = .next σk →
      DisplayResponse σ pkt = some σk) ∧
    (∀ (k : Nat) (σ2 σ3 σk : State),
      k < pkt.msg.numAuthorities → pkt.msg.authorities[k]? = none →
      DisplayResponse_questions pkt pkt.msg.numQuestions 0 (DisplayResponse_start σ pkt)
        = .next σ2 →
      DisplayResponse_answers pkt (DisplayResponse_entry σ pkt) pkt.msg.numAnswers 0 σ2
        = .next σ3 →
      DisplayResponse_authorities pkt k 0 σ3 = .next σk →
      DisplayResponse σ pkt = some σk) ∧
    (∀ (k : Nat) (σ2 σ3 σ4 σk : State),
      k < pkt.msg.numAdditionals → pkt.msg.additionals[k]? = none →
      DisplayResponse_questions pkt pkt.msg.numQuestions 0 (DisplayResponse_start σ pkt)
        = .next σ2 →
      DisplayResponse_answers pkt (DisplayResponse_entry σ pkt) pkt.msg.numAnswers 0 σ2
        = .next σ3 →
      DisplayResponse_authorities pkt pkt.msg.numAuthorities 0 σ3 = .next σ4 →
      DisplayResponse_additionals pkt (DisplayResponse_entry σ pkt) k 0 σ4 = .next σk →
      DisplayResponse σ pkt = some σk) := by
  refine ⟨fun hm => ⟨DisplayQuery_returns σ pkt hm, DisplayResponse_returns σ pkt hm⟩,
    ?_, ?_, ?_, ?_, ?_, ?_, ?_, ?_⟩
  · intro k a hk hq h
    rw [DisplayQuery_eq, stop_DisplayQuery_questions pkt _ k _ 0 _ _ hk
      (by rw [Nat.zero_add]; exact hq), h]
    rfl
  · intro k qa σk hk hq h1 h
    rw [DisplayQuery_eq, h1]
    simp only [Flow.andThen]
    rw [stop_DisplayQuery_answers pkt _ k _ 0 _ hk (by rw [Nat.zero_add]; exact hq), h]
    rfl
  · intro k qa σ2 σk hk hq h1 h2 h
    have hq2 : qa.2[0 + k]? = none := by
      rw [Nat.zero_add, List.getElem?_eq_none_iff,
        length_DisplayQuery_questions _ _ _ _ _ _ _ h1, ← List.getElem?_eq_none_iff]
      exact hq
    rw [DisplayQuery_eq, h1]
    simp only [Flow.andThen]
    rw [h2]
    simp only []
    rw [stop_DisplayQuery_authorities _ k _ 0 _ hk hq2, h]
    rfl
  · intro k qa σ2 σ3 σk hk hq h1 h2 h3 h
    rw [DisplayQuery_eq, h1]
    simp only [Flow.andThen]
    rw [h2]
    simp only []
    rw [h3]
    simp only []
    rw [stop_DisplayQuery_additionals pkt k _ 0 _ hk (by rw [Nat.zero_add]; exact hq), h]
    rfl
  · intro k σk hk hq h
    rw [DisplayResponse_eq, stop_DisplayResponse_questions pkt k _ 0 _ hk
      (by rw [Nat.zero_add]; exact hq), h]
    rfl
  · intro k σ2 σk hk hq h1 h
    rw [DisplayResponse_eq, h1]
    simp only [Flow.andThen]
    rw [stop_DisplayResponse_answers pkt _ k _ 0 _ hk (by rw [Nat.zero_add]; exact hq), h]
    rfl
  · intro k σ2 σ3 σk hk hq h1 h2 h
    rw [DisplayResponse_eq, h1]
    simp only [Flow.andThen]
    rw [h2]
    simp only []
    rw [stop_DisplayResponse_authorities pkt k _ 0 _ hk (by rw [Nat.zero_add]; exact hq), h]
    rfl
  · intro k σ2 σ3 σ4 σk hk hq h1 h2 h3 h
    rw [DisplayResponse_eq, h1]
    simp only [Flow.andThen]
    rw [h2]
    simp only []
    rw [h3]
    simp only []
    rw [stop_DisplayResponse_additionals pkt _ k _ 0 _ hk (by rw [Nat.zero_add]; exact hq), h]
    rfl

/-- C17 at a response whose header announces two answers and one additional
record while only the first answer decodes: `DisplayResponse` returns in the
state reached after that answer, with one answer counted for the service type
and for the host, and the additional record not counted. -/
theorem decoding_failure_ends_walk_witness :
    ∃ σk, DisplayResponse_answers pktCutResponse (DisplayResponse_entry state0 pktCutResponse)
        1 0 (DisplayResponse_start state0 pktCutResponse) = .next σk ∧
      DisplayResponse state0 pktCutResponse = some σk ∧
      σk.NumAnswers = 1 ∧ σk.NumAdditionals = 0 ∧ σk.NumPktR = 1 ∧
      σk.stats.map (fun s => (s.srvtype, s.totalops, s.stat)) =
        [(name_http_tcp, 1, [0, 0, 0, 1, 0, 0])] ∧
      (σk.host? (HostRef.v4 0)).map (fun e => e.stat) = some [0, 0, 0, 1, 0, 0] :=
  ⟨_, rfl,
    (decoding_failure_ends_walk state0 pktCutResponse).2.2.2.2.2.2.1 1 _ _
      (by decide) (by decide) rfl rfl,
    by decide, by decide, by decide, by decide, by decide⟩

/-! ## The report of the service types -/

theorem length_markPrinted (l : List ActivityStat) (j : Nat) :
    (markPrinted l j).length = l.length := by
  induction l generalizing j with
  | nil => rfl
  | cons x xs ih => cases j <;> simp [markPrinted, ih]

theorem getElem?_markPrinted (l : List ActivityStat) (j i : Nat) :
    (markPrinted l j)[i]? = (l[i]?).map fun s => if i = j then { s with printed := 1 } else s := by
  induction l generalizing j i with
  | nil => simp [markPrinted]
  | cons x xs ih =>
    cases j with
    | zero => cases i <;> simp [markPrinted]
    | succ j => cases i <;> simp [markPrinted, ih]

theorem totalopsAt_markPrinted (l : List ActivityStat) (j : Nat) :
    totalopsAt (markPrinted l j) = totalopsAt l := by
  funext i
  unfold totalopsAt
  rw [getElem?_markPrinted]
  cases l[i]? with
  | none => rfl
  | some s => by_cases h : i = j <;> simp [h]

theorem reportOrder_markPrinted (l : List ActivityStat) (j : Nat) :
    reportOrder (markPrinted l j) = reportOrder l := by
  funext a b
  unfold reportOrder
  rw [totalopsAt_markPrinted]

theorem mem_unreported (l : List ActivityStat) (j : Nat) :
    j ∈ unreported l ↔ ∃ s, l[j]? = some s ∧ s.printed = 0 := by
  unfold unreported
  simp only [List.mem_filter, List.mem_range, decide_eq_true_eq]
  constructor
  · rintro ⟨_, h⟩
    cases hs : l[j]? with
    | none => rw [hs] at h; simp at h
    | some s =>
      rw [hs] at h
      simp only [Option.map_some', Option.some.injEq] at h
      exact ⟨s, rfl, h⟩
  · rintro ⟨s, hs, hp⟩
    refine ⟨?_, ?_⟩
    · by_contra hlt
      rw [List.getElem?_eq_none (Nat.le_of_not_lt hlt)] at hs
      exact Option.noConfusion hs
    · rw [hs]
      simp only [Option.map_some', hp]

theorem nodup_unreported (l : List ActivityStat) : (unreported l).Nodup :=
  List.Nodup.filter _ (List.nodup_range _)

theorem unreported_markPrinted (l : List ActivityStat) (j : Nat) :
    unreported (markPrinted l j) = (unreported l).filter fun i => decide (i ≠ j) := by
  unfold unreported
  rw [length_markPrinted, List.filter_filter]
  apply List.filter_congr
  intro i _
  rw [getElem?_markPrinted]
  cases l[i]? with
  | none => simp
  | some s =>
    by_cases h : i = j
    · simp [h]
    · simp [h]

theorem printstats_scan_spec (l : List ActivityStat) : ∀ (j : Nat) (mv : Int) (m : Option Nat),
    (printstats_scan l j mv m = m ∧
      ∀ (i : Nat) (s : ActivityStat), l[i]? = some s → s.printed = 0 → s.totalops ≤ mv) ∨
    (∃ (i : Nat) (s : ActivityStat), printstats_scan l j mv m = some (j + i) ∧ l[i]? = some s ∧ s.printed = 0 ∧
      mv < s.totalops ∧
      (∀ (i1 : Nat) (s1 : ActivityStat), l[i1]? = some s1 → s1.printed = 0 →
        s1.totalops ≤ s.totalops) ∧
      (∀ (i1 : Nat) (s1 : ActivityStat), i1 < i → l[i1]? = some s1 → s1.printed = 0 → s1.totalops < s.totalops)) := by
  induction l with
  | nil =>
    intro j mv m
    left
    refine ⟨rfl, ?_⟩
    intro i s h
    simp at h
  | cons x xs ih =>
    intro j mv m
    by_cases hc : x.printed = 0 ∧ mv < x.totalops
    · have e : printstats_scan (x :: xs) j mv m = printstats_scan xs (j + 1) x.totalops (some j) := by
        simp only [printstats_scan, if_pos hc]
      rw [e]
      right
      rcases ih (j + 1) x.totalops (some j) with ⟨h1, h2⟩ | ⟨i, s, h1, h2, h3, h4, h5, h6⟩
      · refine ⟨0, x, h1, List.getElem?_cons_zero, hc.1, hc.2, ?_, ?_⟩
        · intro i1 s1 hs1 hp1
          cases i1 with
          | zero =>
            simp only [List.getElem?_cons_zero, Option.some.injEq] at hs1
            rw [← hs1]
          | succ i1 =>
            simp only [List.getElem?_cons_succ] at hs1
            exact h2 i1 s1 hs1 hp1
        · intro i1 s1 hlt
          exact absurd hlt (Nat.not_lt_zero _)
      · refine ⟨i + 1, s, ?_, ?_, h3, lt_trans hc.2 h4, ?_, ?_⟩
        · rw [h1]; congr 1; omega
        · simpa only [List.getElem?_cons_succ] using h2
        · intro i1 s1 hs1 hp1
          cases i1 with
          | zero =>
            simp only [List.getElem?_cons_zero, Option.some.injEq] at hs1
            rw [← hs1]
            exact le_of_lt h4
          | succ i1 =>
            simp only [List.getElem?_cons_succ] at hs1
            exact h5 i1 s1 hs1 hp1
        · intro i1 s1 hlt hs1 hp1
          cases i1 with
          | zero =>
            simp only [List.getElem?_cons_zero, Option.some.injEq] at hs1
            rw [← hs1]
            exact h4
          | succ i1 =>
            simp only [List.getElem?_cons_succ] at hs1
            exact h6 i1 s1 (by omega) hs1 hp1
    · have e : printstats_scan (x :: xs) j mv m = printstats_scan xs (j + 1) mv m := by
        simp only [printstats_scan, if_neg hc]
      rw [e]
      have hx : x.printed = 0 → x.totalops ≤ mv := fun hp =>
        le_of_not_lt fun hlt => hc ⟨hp, hlt⟩
      rcases ih (j + 1) mv m with ⟨h1, h2⟩ | ⟨i, s, h1, h2, h3, h4, h5, h6⟩
      · left
        refine ⟨h1, ?_⟩
        intro i1 s1 hs1 hp1
        cases i1 with
        | zero =>
          simp only [List.getElem?_cons_zero, Option.some.injEq] at hs1
          rw [← hs1] at hp1 ⊢
          exact hx hp1
        | succ i1 =>
          simp only [List.getElem?_cons_succ] at hs1
          exact h2 i1 s1 hs1 hp1
      · right
        refine ⟨i + 1, s, ?_, ?_, h3, h4, ?_, ?_⟩
        · rw [h1]; congr 1; omega
        · simpa only [List.getElem?_cons_succ] using h2
        · intro i1 s1 hs1 hp1
          cases i1 with
          | zero =>
            simp only [List.getElem?_cons_zero, Option.some.injEq] at hs1
            rw [← hs1] at hp1 ⊢
            exact le_of_lt (lt_of_le_of_lt (hx hp1) h4)
          | succ i1 =>
            simp only [List.getElem?_cons_succ] at hs1
            exact h5 i1 s1 hs1 hp1
        · intro i1 s1 hlt hs1 hp1
          cases i1 with
          | zero =>
            simp only [List.getElem?_cons_zero, Option.some.injEq] at hs1
            rw [← hs1] at hp1 ⊢
            exact lt_of_le_of_lt (hx hp1) h4
          | succ i1 =>
            simp only [List.getElem?_cons_succ] at hs1
            exact h6 i1 s1 (by omega) hs1 hp1

theorem printstats_scan_first (l : List ActivityStat)
    (hpos : ∀ s ∈ l, s.printed = 0 → 0 < s.totalops) :
    (printstats_scan l 0 0 none = none ∧ unreported l = []) ∨
    (∃ j, printstats_scan l 0 0 none = some j ∧ j ∈ unreported l ∧
      ∀ i ∈ unreported l, reportOrder l j i) := by
  rcases printstats_scan_spec l 0 0 none with ⟨h1, h2⟩ | ⟨i, s, h1, h2, h3, _, h5, h6⟩
  · left
    refine ⟨h1, List.eq_nil_iff_forall_not_mem.2 ?_⟩
    intro i hi
    obtain ⟨s, hs, hp⟩ := (mem_unreported l i).1 hi
    have := h2 i s hs hp
    have := hpos s (List.getElem?_mem hs) hp
    omega
  · right
    rw [Nat.zero_add] at h1
    refine ⟨i, h1, (mem_unreported l i).2 ⟨s, h2, h3⟩, ?_⟩
    intro i1 hi1
    obtain ⟨s1, hs1, hp1⟩ := (mem_unreported l i1).1 hi1
    have ti : totalopsAt l i = s.totalops := by simp [totalopsAt, h2]
    have ti1 : totalopsAt l i1 = s1.totalops := by simp [totalopsAt, hs1]
    unfold reportOrder
    rw [ti, ti1]
    by_cases hlt : i1 < i
    · exact Or.inl (h6 i1 s1 hlt hs1 hp1)
    · rcases lt_or_eq_of_le (h5 i1 s1 hs1 hp1) with h | h
      · exact Or.inl h
      · exact Or.inr ⟨h.symm, Nat.le_of_not_lt hlt⟩

theorem insertionSort_congr {r r1 : Nat → Nat → Prop} [d : DecidableRel r] [d1 : DecidableRel r1]
    (h : r = r1) (l : List Nat) : l.insertionSort r = l.insertionSort r1 := by
  subst h
  have : d = d1 := Subsingleton.elim _ _
  subst this
  rfl

theorem insertionSort_first (r : Nat → Nat → Prop) [DecidableRel r] [IsTotal Nat r]
    [IsTrans Nat r] [IsAntisymm Nat r] (U : List Nat) (j : Nat) (hj : j ∈ U) (hn : U.Nodup)
    (hmin : ∀ i ∈ U, r j i) :
    U.insertionSort r = j :: (U.filter fun i => decide (i ≠ j)).insertionSort r := by
  have hf : (U.filter fun i => decide (i ≠ j)) = U.erase j := by
    rw [hn.erase_eq_filter j]
    apply List.filter_congr
    intro i _
    by_cases h : i = j <;> simp [h]
  rw [hf]
  apply List.eq_of_perm_of_sorted (r := r)
  · exact (List.perm_insertionSort r U).trans
      ((List.perm_cons_erase hj).trans ((List.perm_insertionSort r (U.erase j)).symm.cons j))
  · exact List.sorted_insertionSort r U
  · refine List.sorted_cons.2 ⟨?_, List.sorted_insertionSort r _⟩
    intro b hb
    exact hmin b (List.mem_of_mem_erase ((List.perm_insertionSort r _).subset hb))

theorem sortedUnreported_markPrinted (l : List ActivityStat) (j : Nat) (hj : j ∈ unreported l)
    (hmin : ∀ i ∈ unreported l, reportOrder l j i) :
    sortedUnreported l = j :: sortedUnreported (markPrinted l j) := by
  unfold sortedUnreported
  rw [unreported_markPrinted, insertionSort_congr (reportOrder_markPrinted l j),
    insertionSort_first (reportOrder l) (unreported l) j hj (nodup_unreported l) hmin]

theorem printstats_loop_spec : ∀ (n : Nat) (stats : List ActivityStat) (out : List Nat),
    (∀ s ∈ stats, s.printed = 0 → 0 < s.totalops) →
    (printstats_loop n stats out).2 = out ++ (sortedUnreported stats).take n ∧
    ∀ i : Nat, (printstats_loop n stats out).1[i]? =
      (stats[i]?).map fun s =>
        if i ∈ (sortedUnreported stats).take n then { s with printed := 1 } else s := by
  intro n
  induction n with
  | zero =>
    intro stats out _
    refine ⟨by simp [printstats_loop], ?_⟩
    intro i
    simp [printstats_loop]
  | succ n ih =>
    intro stats out hpos
    rcases printstats_scan_first stats hpos with ⟨h1, h2⟩ | ⟨j, h1, h2, h3⟩
    · have e : sortedUnreported stats = [] := by
        unfold sortedUnreported
        rw [h2]
        rfl
      simp only [printstats_loop, h1, e, List.take_nil, List.append_nil, List.not_mem_nil,
        if_false, true_and]
      intro i
      cases stats[i]? <;> rfl
    · have e := sortedUnreported_markPrinted stats j h2 h3
      have hpos1 : ∀ s ∈ markPrinted stats j, s.printed = 0 → 0 < s.totalops := by
        intro s hs hp
        obtain ⟨i, hi⟩ := List.getElem?_of_mem hs
        rw [getElem?_markPrinted] at hi
        cases hsi : stats[i]? with
        | none => rw [hsi] at hi; exact Option.noConfusion hi
        | some s0 =>
          rw [hsi] at hi
          simp only [Option.map_some', Option.some.injEq] at hi
          by_cases hij : i = j
          · rw [if_pos hij] at hi
            rw [← hi] at hp
            exact absurd hp one_ne_zero
          · rw [if_neg hij] at hi
            rw [← hi] at hp ⊢
            exact hpos s0 (List.getElem?_mem hsi) hp
      obtain ⟨ih1, ih2⟩ := ih (markPrinted stats j) (out ++ [j]) hpos1
      have el : printstats_loop (n + 1) stats out
          = printstats_loop n (markPrinted stats j) (out ++ [j]) := by
        simp only [printstats_loop, h1]
      rw [el, e, List.take_succ_cons]
      refine ⟨by rw [ih1]; simp, ?_⟩
      intro i
      rw [ih2 i, getElem?_markPrinted]
      cases stats[i]? with
      | none => rfl
      | some s =>
        simp only [Option.map_some', List.mem_cons]
        by_cases hij : i = j
        · by_cases hm : i ∈ List.take n (sortedUnreported (markPrinted stats j)) <;>
            simp [hij, hm]
        · by_cases hm : i ∈ List.take n (sortedUnreported (markPrinted stats j)) <;>
            simp [hij, hm]

theorem statsCount_totalops_pos (t : domainname) (slot : Int) (l : List ActivityStat)
    (h : ∀ s ∈ l, 0 < s.totalops) : ∀ s ∈ statsCount t slot l, 0 < s.totalops := by
  induction l with
  | nil =>
    intro s hs
    simp only [statsCount, List.mem_singleton] at hs
    rw [hs]
    show (0 : Int) < 0 + 1
    omega
  | cons x xs ih =>
    intro s hs
    simp only [statsCount] at hs
    have hx := h x (List.mem_cons_self _ _)
    split_ifs at hs
    · rcases List.mem_cons.1 hs with e | e
      · rw [e]
        show 0 < x.totalops + 1
        omega
      · exact h s (List.mem_cons_of_mem _ e)
    · rcases List.mem_cons.1 hs with e | e
      · rw [e]; exact hx
      · exact ih (fun s hs => h s (List.mem_cons_of_mem _ hs)) s e

theorem stats_modifyHost (σ : State) (f : HostEntry → HostEntry) (r : HostRef) :
    (σ.modifyHost f r).stats = σ.stats := by
  cases r <;> rfl

theorem stats_GotPacketFromHost (σ : State) (reallocOk : Bool) (addr : mDNSAddr) (t id : Nat) :
    (GotPacketFromHost σ reallocOk addr t id).1.stats = σ.stats := by
  unfold GotPacketFromHost
  split_ifs <;> rfl

theorem stats_analyse (σ : State) (timenow : Int) (InterfaceID : Nat) (entry : Option HostRef) :
    (σ.analyse timenow InterfaceID entry).stats = σ.stats := by
  cases entry with
  | none => rfl
  | some r =>
    simp only [State.analyse]
    cases σ.host? r with
    | none => rfl
    | some e =>
      simp only []
      cases (AnalyseHost timenow σ.mDNSPlatformOneSecond e InterfaceID).2 with
      | none => exact stats_modifyHost _ _ _
      | some q => exact stats_modifyHost _ _ _

theorem totalops_pos_recordstat (σ σ1 : State) (mallocOk : Bool) (entry : Option HostRef)
    (fqdn : domainname) (op : Int) (rrtype : Nat)
    (hr : recordstat σ mallocOk entry fqdn op rrtype = some σ1)
    (h : ∀ s ∈ σ.stats, 0 < s.totalops) : ∀ s ∈ σ1.stats, 0 < s.totalops := by
  unfold recordstat at hr
  cases hg : recordstatOp op rrtype with
  | none =>
    simp only [hg, Option.some.injEq] at hr
    exact hr ▸ h
  | some slot =>
    cases ht : ExtractServiceType fqdn with
    | none =>
      simp only [hg, ht, Option.some.injEq] at hr
      exact hr ▸ h
    | some t =>
      simp only [hg, ht] at hr
      split_ifs at hr
      cases entry with
      | none =>
        simp only [Option.some.injEq] at hr
        rw [← hr]
        exact statsCount_totalops_pos t slot σ.stats h
      | some r =>
        simp only [Option.some.injEq] at hr
        rw [← hr, stats_modifyHost]
        exact statsCount_totalops_pos t slot σ.stats h

/-- In every state that the capture loop reaches from the initial state, every
service type of the list has been counted at least once. -/
theorem totalops_pos_run (Filters : List mDNSAddr) (FilterInterface : Int) (AddressType : Nat)
    (OneSecond : Int) (pkts : List Packet) (σ : State)
    (hr : run (initState Filters FilterInterface AddressType OneSecond) pkts = some σ) :
    ∀ s ∈ σ.stats, 0 < s.totalops := by
  refine run_invariant (fun σ => ∀ s ∈ σ.stats, 0 < s.totalops) (fun _ => True) ?_ ?_ pkts
    (fun _ _ => trivial) _ σ hr ?_
  · intro σ reallocOk addr t id h
    show ∀ s ∈ (GotPacketFromHost σ reallocOk addr t id).1.stats, 0 < s.totalops
    rw [stats_GotPacketFromHost]
    exact h
  · intro pkt entry σ σ1 _ st h
    show ∀ s ∈ σ1.stats, 0 < s.totalops
    cases st with
    | tally _ hs =>
      have e : σ1.stats = σ.stats := by rw [hs]
      rw [e]; exact h
    | count _ fqdn op rrtype hop hrs => exact totalops_pos_recordstat σ σ1 _ _ _ _ _ hrs h
    | info rr hrr =>
      cases entry with
      | none => exact h
      | some r =>
        show ∀ s ∈ (σ.modifyHost _ r).stats, 0 < s.totalops
        rw [stats_modifyHost]; exact h
    | analyse =>
      rw [stats_analyse]; exact h
  · intro s hs
    exact absurd hs (List.not_mem_nil s)

/-- C18. In a state in which every unreported service type has been counted at
least once (as in every state that the capture loop reaches, see
`totalops_pos_run`), `printstats(N)` prints exactly the first `min(N, U)` of
the `U` unreported entries sorted by `totalops` in descending order, ties in
the order of the list; it sets `printed` on exactly the entries printed and
changes nothing else; and every entry printed has at least as many operations as
every entry still unreported. -/
theorem printstats_top (σ : State) (N : Int)
    (hpos : ∀ s ∈ σ.stats, s.printed = 0 → 0 < s.totalops) :
    (printstats σ N).2 = (sortedUnreported σ.stats).take N.toNat ∧
    (sortedUnreported σ.stats).Sorted (reportOrder σ.stats) ∧
    (sortedUnreported σ.stats).Perm (unreported σ.stats) ∧
    (printstats σ N).2.length = min N.toNat (unreported σ.stats).length ∧
    (printstats σ N).1 = { σ with stats := (printstats σ N).1.stats } ∧
    (∀ i : Nat, (printstats σ N).1.stats[i]? =
      (σ.stats[i]?).map fun s =>
        if i ∈ (printstats σ N).2 then { s with printed := 1 } else s) ∧
    (∀ i ∈ (printstats σ N).2, ∀ j ∈ unreported (printstats σ N).1.stats,
      totalopsAt σ.stats j ≤ totalopsAt σ.stats i) := by
  have hsorted : (sortedUnreported σ.stats).Sorted (reportOrder σ.stats) :=
    List.sorted_insertionSort _ _
  have hperm : (sortedUnreported σ.stats).Perm (unreported σ.stats) :=
    List.perm_insertionSort _ _
  have hout : (printstats σ N).2 = (sortedUnreported σ.stats).take N.toNat ∧
      ∀ i : Nat, (printstats σ N).1.stats[i]? =
        (σ.stats[i]?).map fun s =>
          if i ∈ (sortedUnreported σ.stats).take N.toNat then { s with printed := 1 }
          else s := by
    unfold printstats
    by_cases he : σ.stats = []
    · rw [if_pos he]
      have e : sortedUnreported σ.stats = [] := by rw [he]; rfl
      rw [e, he]
      simp
    · rw [if_neg he]
      obtain ⟨h1, h2⟩ := printstats_loop_spec N.toNat σ.stats [] hpos
      exact ⟨by simpa using h1, h2⟩
  obtain ⟨h1, h2⟩ := hout
  refine ⟨h1, hsorted, hperm, ?_, ?_, ?_, ?_⟩
  · rw [h1, List.length_take, hperm.length_eq]
  · unfold printstats
    by_cases he : σ.stats = []
    · rw [if_pos he]
    · rw [if_neg he]
  · intro i
    rw [h1]
    exact h2 i
  · intro i hi j hj
    rw [h1] at hi
    obtain ⟨s1, hs1, hp1⟩ := (mem_unreported _ j).1 hj
    rw [h2 j] at hs1
    cases hs : σ.stats[j]? with
    | none => rw [hs] at hs1; exact Option.noConfusion hs1
    | some s =>
      rw [hs] at hs1
      simp only [Option.map_some', Option.some.injEq] at hs1
      have hnot : j ∉ (sortedUnreported σ.stats).take N.toNat := by
        intro hm
        rw [if_pos hm] at hs1
        rw [← hs1] at hp1
        exact one_ne_zero hp1
      rw [if_neg hnot] at hs1
      have hju : j ∈ sortedUnreported σ.stats :=
        hperm.symm.subset ((mem_unreported _ j).2 ⟨s, hs, by rw [hs1]; exact hp1⟩)
      have hjd : j ∈ (sortedUnreported σ.stats).drop N.toNat := by
        rw [← List.take_append_drop N.toNat (sortedUnreported σ.stats)] at hju
        rcases List.mem_append.1 hju with h | h
        · exact absurd h hnot
        · exact h
      have hp : List.Pairwise (reportOrder σ.stats)
          ((sortedUnreported σ.stats).take N.toNat ++ (sortedUnreported σ.stats).drop N.toNat) := by
        rw [List.take_append_drop]
        exact hsorted
      have hr := (List.pairwise_append.1 hp).2.2 i hi j hjd
      unfold reportOrder at hr
      rcases hr with h | ⟨h, _⟩
      · exact le_of_lt h
      · exact le_of_eq h.symm

/-- C18 at a list of four service types with 2, 5 and 5 operations and a
reported one with 9: `printstats(2)` prints the two entries with 5 operations in
the order of the list and marks them; `printstats(15)` prints all three
unreported entries and no more. -/
theorem printstats_top_witness :
    (printstats stateFour 2).2 = [1, 2] ∧
    (printstats stateFour 2).1.stats.map (fun s => (s.printed, s.totalops)) =
      [(0, 2), (1, 5), (1, 5), (1, 9)] ∧
    (printstats stateFour 15).2 = [1, 2, 0] :=
  ⟨(printstats_top stateFour 2 (by decide)).1.trans (by decide), by decide, by decide⟩

/-! ## The report of the hosts -/

theorem HostEntryTotalPackets_small (e : HostEntry) (h : e.totalPackets < 2 ^ 31) :
    HostEntryTotalPackets e = e.totalPackets := by
  have e1 : HostEntryTotalPackets e = e.totalPackets % 2 ^ 32 := rfl
  rw [e1]
  apply Nat.mod_eq_of_lt
  norm_num at h ⊢
  omega

theorem CompareHosts_small (a b : HostEntry) (ha : a.totalPackets < 2 ^ 31)
    (hb : b.totalPackets < 2 ^ 31) :
    CompareHosts a b = (b.totalPackets : Int) - (a.totalPackets : Int) := by
  unfold CompareHosts toInt32
  rw [HostEntryTotalPackets_small a ha, HostEntryTotalPackets_small b hb]
  norm_num at ha hb ⊢
  split_ifs <;> omega

theorem ShowSortedHostList_entry_pkts (e : HostEntry) :
    (ShowSortedHostList_entry e).addr = e.addr ∧ (ShowSortedHostList_entry e).pkts = e.pkts ∧
    (ShowSortedHostList_entry e).totalPackets = e.totalPackets := by
  unfold ShowSortedHostList_entry
  split_ifs <;> exact ⟨rfl, rfl, rfl⟩

theorem ShowSortedHostList_last (list : HostList) (max : Int) :
    (if max < (list.num : Int) then max else (list.num : Int)).toNat = min max.toNat list.num := by
  split_ifs <;> omega

/-- C19 as stated fails. A host with no packet compared with a host with
`2^31 + 1` query packets gives a negative result of `CompareHosts`, as if it had
more packets, and the report of one host out of the two shows the idle host.
With two hosts of 10 packets each, two sorting functions that both give a
sorted permutation of the array report the two in different orders: the order
among equal totals is the choice of `qsort`. -/
theorem CompareHosts_wrong_sign :
    hostIdle.totalPackets = 0 ∧ hostBusy.totalPackets = 2 ^ 31 + 1 ∧
    CompareHosts hostIdle hostBusy = -(2 ^ 31 - 1) ∧
    (ShowSortedHostList qsortStable { max := 2, hosts := [hostIdle, hostBusy] } 1).2
      = [hostIdle] ∧
    (ShowSortedHostList qsortBackwards { max := 2, hosts := [hostIdle, hostBusy] } 1).2
      = [hostIdle] ∧
    CompareHosts hostTen hostTenB = 0 ∧
    (ShowSortedHostList qsortStable { max := 2, hosts := [hostTen, hostTenB] } 2).2
      = [hostTen, hostTenB] ∧
    (ShowSortedHostList qsortBackwards { max := 2, hosts := [hostTen, hostTenB] } 2).2
      = [hostTenB, hostTen] ∧
    (qsortBackwards CompareHosts [hostTen, hostTenB]).Perm [hostTen, hostTenB] ∧
    (qsortBackwards CompareHosts [hostTen, hostTenB]).Pairwise
      (fun a b => CompareHosts a b ≤ 0) := by
  refine ⟨by decide, by decide, by decide, by decide, by decide, by decide, by decide,
    by decide, by decide, by decide⟩

/-- C19, amended. For hosts whose totals of packets are below `2^31`,
`CompareHosts(a, b)` is negative exactly when `a` has more packets than `b`,
zero exactly when they have as many, positive exactly when `a` has fewer.
When `qsort` gives a sorted permutation of the array (as the C library does for
such a comparison function), the array is left in descending order of the
totals, and `ShowSortedHostList(list, max)` reports its first `min(max, num)`
entries: they are in descending order of the totals, and each has at least as
many packets as every host that is not reported. Nothing is said of the order
among hosts with equal totals. -/
theorem ShowSortedHostList_descending
    (qsort : (HostEntry → HostEntry → Int) → List HostEntry → List HostEntry)
    (list : HostList) (max : Int)
    (hsmall : ∀ e ∈ list.hosts, e.totalPackets < 2 ^ 31)
    (hperm : (qsort CompareHosts list.hosts).Perm list.hosts)
    (hsorted : (qsort CompareHosts list.hosts).Pairwise fun a b => CompareHosts a b ≤ 0) :
    (∀ a ∈ list.hosts, ∀ b ∈ list.hosts,
      (CompareHosts a b < 0 ↔ b.totalPackets < a.totalPackets) ∧
      (CompareHosts a b = 0 ↔ a.totalPackets = b.totalPackets) ∧
      (0 < CompareHosts a b ↔ a.totalPackets < b.totalPackets)) ∧
    ((qsort CompareHosts list.hosts).map HostEntry.totalPackets).Pairwise (fun x y => y ≤ x) ∧
    (ShowSortedHostList qsort list max).2 =
      ((qsort CompareHosts list.hosts).take (min max.toNat list.num)).map
        ShowSortedHostList_entry ∧
    (ShowSortedHostList qsort list max).2.length = min max.toNat list.num ∧
    ((ShowSortedHostList qsort list max).2.map HostEntry.totalPackets).Pairwise
      (fun x y => y ≤ x) ∧
    (∀ e ∈ (ShowSortedHostList qsort list max).2,
      ∀ e1 ∈ (qsort CompareHosts list.hosts).drop (min max.toNat list.num),
        e1.totalPackets ≤ e.totalPackets) ∧
    (ShowSortedHostList qsort list max).1.hosts =
      (ShowSortedHostList qsort list max).2 ++
        (qsort CompareHosts list.hosts).drop (min max.toNat list.num) := by
  have hcmp : ∀ a ∈ list.hosts, ∀ b ∈ list.hosts,
      CompareHosts a b = (b.totalPackets : Int) - (a.totalPackets : Int) :=
    fun a ha b hb => CompareHosts_small a b (hsmall a ha) (hsmall b hb)
  have hdesc : (qsort CompareHosts list.hosts).Pairwise
      (fun a b => b.totalPackets ≤ a.totalPackets) := by
    refine List.Pairwise.imp_of_mem ?_ hsorted
    intro a b ha hb h
    rw [hcmp a (hperm.subset ha) b (hperm.subset hb)] at h
    omega
  have hshown : (ShowSortedHostList qsort list max).2 =
      ((qsort CompareHosts list.hosts).take (min max.toNat list.num)).map
        ShowSortedHostList_entry := by
    unfold ShowSortedHostList
    simp only []
    rw [ShowSortedHostList_last]
  have htot : (ShowSortedHostList qsort list max).2.map HostEntry.totalPackets =
      ((qsort CompareHosts list.hosts).take (min max.toNat list.num)).map
        HostEntry.totalPackets := by
    rw [hshown, List.map_map]
    apply List.map_congr_left
    intro e _
    exact (ShowSortedHostList_entry_pkts e).2.2
  have hsplit : List.Pairwise (fun a b : HostEntry => b.totalPackets ≤ a.totalPackets)
      ((qsort CompareHosts list.hosts).take (min max.toNat list.num) ++
        (qsort CompareHosts list.hosts).drop (min max.toNat list.num)) := by
    rw [List.take_append_drop]
    exact hdesc
  refine ⟨?_, ?_, hshown, ?_, ?_, ?_, ?_⟩
  · intro a ha b hb
    rw [hcmp a ha b hb]
    refine ⟨?_, ?_, ?_⟩ <;> omega
  · exact List.pairwise_map.2 hdesc
  · rw [hshown, List.length_map, List.length_take, hperm.length_eq]
    exact Nat.min_eq_left (Nat.min_le_right _ _)
  · rw [htot]
    exact List.pairwise_map.2 (List.pairwise_append.1 hsplit).1
  · intro e he e1 he1
    rw [hshown] at he
    obtain ⟨e0, he0, rfl⟩ := List.mem_map.1 he
    rw [(ShowSortedHostList_entry_pkts e0).2.2]
    exact (List.pairwise_append.1 hsplit).2.2 e0 he0 e1 he1
  · unfold ShowSortedHostList
    simp only []
    rw [ShowSortedHostList_last]

/-- C19, amended, at the registry that holds 192.168.1.11 with 3 query packets
and then 192.168.1.10 with 10 query packets: the report of one host shows
exactly 192.168.1.10. -/
theorem ShowSortedHostList_descending_witness :
    (ShowSortedHostList qsortStable { max := 2, hosts := [hostThree, hostTen] } 1).2.length = 1 ∧
    (ShowSortedHostList qsortStable { max := 2, hosts := [hostThree, hostTen] } 1).2.map
      (fun e => e.addr) = [addrA] ∧
    (ShowSortedHostList qsortBackwards { max := 2, hosts := [hostThree, hostTen] } 1).2.map
      (fun e => e.addr) = [addrA] :=
  ⟨(ShowSortedHostList_descending qsortStable { max := 2, hosts := [hostThree, hostTen] } 1
      (by decide) (by decide) (by decide)).2.2.2.1,
    by decide, by decide⟩

/-! ## `RecordHostInfo` and the hardware and software texts -/

/-- C21 as stated fails: for the host named `a.local.` whose hardware text is
`Mac` and whose software text is `OS`, an HINFO record with the strings `PC` and
`Win` makes `RecordHostInfo` replace both texts. -/
theorem RecordHostInfo_replaces_info :
    byteAt hostWithInfo.HIHardware 0 ≠ 0 ∧
    hostWithInfo.HIHardware = [3, 77, 97, 99] ∧ hostWithInfo.HISoftware = [2, 79, 83] ∧
    (RecordHostInfo hostWithInfo rrHinfoPC).HIHardware = [2, 80, 67, 99] ∧
    (RecordHostInfo hostWithInfo rrHinfoPC).HISoftware = [3, 87, 105, 110] := by
  decide

/-- C21, amended: `RecordHostInfo` writes the hardware and software texts exactly
when the hostname of the entry is not empty and the record is an HINFO record
whose two strings fit in its rdata; it then copies the two strings of the record
over the texts of the entry, whether or not the entry had texts before. In every
other case both texts are unchanged. Once the hardware text is not empty,
`AnalyseHost` sends no further query for a named host. -/
theorem RecordHostInfo_info (entry : HostEntry) (pktrr : ResourceRecord) :
    (byteAt entry.hostname.c 0 ≠ 0 → pktrr.rrtype = kDNSType_HINFO →
      0 + 1 + byteAt pktrr.rdata 0 + 1 + byteAt pktrr.rdata (0 + 1 + byteAt pktrr.rdata 0)
        ≤ pktrr.rdlength →
      (RecordHostInfo entry pktrr).HIHardware =
        memCopy entry.HIHardware pktrr.rdata 0 (1 + byteAt pktrr.rdata 0) ∧
      (RecordHostInfo entry pktrr).HISoftware =
        memCopy entry.HISoftware pktrr.rdata (0 + 1 + byteAt pktrr.rdata 0)
          (1 + byteAt pktrr.rdata (0 + 1 + byteAt pktrr.rdata 0))) ∧
    (¬ (byteAt entry.hostname.c 0 ≠ 0 ∧ pktrr.rrtype = kDNSType_HINFO ∧
        0 + 1 + byteAt pktrr.rdata 0 + 1 + byteAt pktrr.rdata (0 + 1 + byteAt pktrr.rdata 0)
          ≤ pktrr.rdlength) →
      (RecordHostInfo entry pktrr).HIHardware = entry.HIHardware ∧
      (RecordHostInfo entry pktrr).HISoftware = entry.HISoftware) ∧
    (∀ (timenow OneSecond : Int) (InterfaceID : Nat),
      byteAt entry.hostname.c 0 ≠ 0 → byteAt entry.HIHardware 0 ≠ 0 →
      AnalyseHost timenow OneSecond entry InterfaceID = (entry, none)) := by
  refine ⟨?_, ?_, ?_⟩
  · intro hn ht hfit
    unfold RecordHostInfo
    dsimp only
    rw [if_neg hn, if_pos ht, if_pos hfit]
    exact ⟨rfl, rfl⟩
  · intro hnot
    unfold RecordHostInfo
    dsimp only
    by_cases hn : byteAt entry.hostname.c 0 = 0
    · rw [if_pos hn]
      split_ifs <;> exact ⟨rfl, rfl⟩
    · rw [if_neg hn]
      by_cases ht : pktrr.rrtype = kDNSType_HINFO
      · rw [if_pos ht]
        by_cases hfit : 0 + 1 + byteAt pktrr.rdata 0 + 1 +
            byteAt pktrr.rdata (0 + 1 + byteAt pktrr.rdata 0) ≤ pktrr.rdlength
        · exact absurd ⟨hn, ht, hfit⟩ hnot
        · rw [if_neg hfit]
          exact ⟨rfl, rfl⟩
      · rw [if_neg ht]
        exact ⟨rfl, rfl⟩
  · intro timenow OneSecond InterfaceID hn hh
    unfold AnalyseHost
    dsimp only
    split_ifs <;> rfl

/-- C21, amended, at the host named `a.local.` with the texts `Mac` and `OS`: an
A record leaves both texts as they are. -/
theorem RecordHostInfo_info_witness :
    (RecordHostInfo hostWithInfo { rrHinfoPC with rrtype := kDNSType_A }).HIHardware
      = [3, 77, 97, 99] ∧
    (RecordHostInfo hostWithInfo { rrHinfoPC with rrtype := kDNSType_A }).HISoftware
      = [2, 79, 83] :=
  (RecordHostInfo_info hostWithInfo { rrHinfoPC with rrtype := kDNSType_A }).2.1 (by decide)

/-! ## `SendUnicastQuery` -/

/-- C24. `SendUnicastQuery` adds one to `NumQueries` and sets `LastQuery` to the
current time and changes nothing else in the entry. The query asks for the name
and type given. When the number of the attempt (`NumQueries` after the
increment) is 1 or 2 the query is addressed to the address of the host and sent
with the interface `mDNSInterface_Any`; when it is 3 or more the query is
addressed to the multicast group on the interface of the packet. -/
theorem SendUnicastQuery_attempt (timenow : Int) (entry : HostEntry) (name : domainname)
    (rrtype InterfaceID : Nat) :
    (SendUnicastQuery timenow entry name rrtype InterfaceID).1 =
      { entry with NumQueries := entry.NumQueries + 1, LastQuery := some timenow } ∧
    (SendUnicastQuery timenow entry name rrtype InterfaceID).2.name = name ∧
    (SendUnicastQuery timenow entry name rrtype InterfaceID).2.rrtype = rrtype ∧
    ((SendUnicastQuery timenow entry name rrtype InterfaceID).1.NumQueries = 1 ∨
      (SendUnicastQuery timenow entry name rrtype InterfaceID).1.NumQueries = 2 →
      (SendUnicastQuery timenow entry name rrtype InterfaceID).2.target = entry.addr ∧
      (SendUnicastQuery timenow entry name rrtype InterfaceID).2.InterfaceID
        = mDNSInterface_Any) ∧
    (3 ≤ (SendUnicastQuery timenow entry name rrtype InterfaceID).1.NumQueries →
      (SendUnicastQuery timenow entry name rrtype InterfaceID).2.target = AllDNSLinkGroup_v4 ∧
      mDNSAddrIsDNSMulticast
        (SendUnicastQuery timenow entry name rrtype InterfaceID).2.target = true ∧
      (SendUnicastQuery timenow entry name rrtype InterfaceID).2.InterfaceID = InterfaceID) := by
  unfold SendUnicastQuery
  dsimp only
  by_cases h : entry.NumQueries + 1 > 2
  · rw [if_pos h]
    refine ⟨rfl, rfl, rfl, ?_, ?_⟩
    · intro h1
      dsimp only at h1
      omega
    · intro _
      exact ⟨rfl, (by decide : mDNSAddrIsDNSMulticast AllDNSLinkGroup_v4 = true), rfl⟩
  · rw [if_neg h]
    refine ⟨rfl, rfl, rfl, ?_, ?_⟩
    · intro _
      exact ⟨rfl, rfl⟩
    · intro h1
      dsimp only at h1
      omega

/-- C24 at the entry of 192.168.1.10: the first query goes to 192.168.1.10 with
the interface `mDNSInterface_Any`; for the entry that has been asked twice the
third query goes to the multicast group on interface 1. -/
theorem SendUnicastQuery_attempt_witness :
    (SendUnicastQuery 5000 (newHostEntry addrA) (revnameOf addrA) kDNSType_PTR 1).2.target
      = addrA ∧
    (SendUnicastQuery 5000 (newHostEntry addrA) (revnameOf addrA) kDNSType_PTR 1).2.InterfaceID
      = mDNSInterface_Any ∧
    (SendUnicastQuery 9000 { hostAsked with NumQueries := 2 } (revnameOf addrA) kDNSType_PTR
      1).2.target = AllDNSLinkGroup_v4 ∧
    (SendUnicastQuery 9000 { hostAsked with NumQueries := 2 } (revnameOf addrA) kDNSType_PTR
      1).1.NumQueries = 3 :=
  ⟨((SendUnicastQuery_attempt 5000 (newHostEntry addrA) (revnameOf addrA) kDNSType_PTR
      1).2.2.2.1 (Or.inl (by decide))).1,
    by decide, by decide, by decide⟩

/-! ## The slot of `recordstat` -/

/-- C25. For each of the four operation kinds that the call sites of
`recordstat` pass (probe, goodbye, query, answer) and every record type, the
slot that `recordstat` counts in, after the re-mapping for SRV and TXT records,
lies in `0..5`; it is an index of the array `stat` of every `ActivityStat` and
`HostEntry` with the six elements of the declaration. -/
theorem recordstat_slot_in_bounds (op : Int) (rrtype : Nat) (slot : Int)
    (hop : op = OP_probe ∨ op = OP_goodbye ∨ op = OP_query ∨ op = OP_answer)
    (h : recordstatOp op rrtype = some slot) :
    0 ≤ slot ∧ slot ≤ 5 ∧ slot < OP_NumTypes ∧
    (∀ s : ActivityStat, s.WF → slot.toNat < s.stat.length) ∧
    (∀ e : HostEntry, e.WF → slot.toNat < e.stat.length) := by
  have hr : 0 ≤ op ∧ op ≤ 3 := by
    rcases hop with h1 | h1 | h1 | h1 <;> rw [h1] <;> decide
  obtain ⟨h0, h1⟩ := recordstatOp_range op rrtype slot hr h
  have h6 : slot < 6 := h1
  refine ⟨h0, by omega, h1, ?_, ?_⟩
  · intro s hs
    have : s.stat.length = 6 := hs
    omega
  · intro e he
    have : e.stat.length = 6 := he.2
    omega

/-- C25 at a goodbye for an SRV record: the slot is 3. -/
theorem recordstat_slot_in_bounds_witness :
    recordstatOp OP_goodbye kDNSType_SRV = some 3 ∧ (0 : Int) ≤ 3 ∧ (3 : Int) ≤ 5 :=
  ⟨by decide,
    (recordstat_slot_in_bounds OP_goodbye kDNSType_SRV 3 (Or.inr (Or.inl rfl)) (by decide)).1,
    (recordstat_slot_in_bounds OP_goodbye kDNSType_SRV 3 (Or.inr (Or.inl rfl))
      (by decide)).2.1⟩

/-! ## `ExtractServiceType` on its own result -/

theorem length_copyLabel (c : List Nat) (s n : Nat) : (copyLabel c s n).length = n + 1 := by
  simp [copyLabel]

theorem byteAt_copyLabel (c post : List Nat) (s n i : Nat) (h : i ≤ n) :
    byteAt (copyLabel c s n ++ post) i = byteAt c (s + i) := by
  have hlt : i < (copyLabel c s n).length := by rw [length_copyLabel]; omega
  have hr : (List.range (n + 1))[i]? = some i := List.getElem?_range (by omega)
  unfold byteAt
  rw [List.getD_eq_getElem?_getD, List.getElem?_append_left hlt]
  simp [copyLabel, List.getElem?_map, hr, byteAt, List.getD_eq_getElem?_getD]

theorem ExtractServiceType_labels_self (A B : List Nat) (n1 n2 : Nat)
    (hA : A.length = n1 + 1) (hB : B.length = n2 + 1)
    (a0 : byteAt (A ++ (B ++ [0])) 0 = n1) (a1 : byteAt (A ++ (B ++ [0])) 1 = underscore)
    (b0 : byteAt (B ++ [0]) 0 = n2) (b1 : byteAt (B ++ [0]) 1 = underscore)
    (h1 : ¬ (n1 = 0 ∨ n1 ≥ 0x40)) (h2 : ¬ (n2 = 0 ∨ n2 ≥ 0x40)) :
    ExtractServiceType ⟨A ++ B ++ [0]⟩ = some ⟨A ++ B ++ [0]⟩ := by
  have e : A ++ B ++ [0] = A ++ (B ++ [0]) := List.append_assoc _ _ _
  have c0 : byteAt (A ++ (B ++ [0])) (0 + (n1 + 1)) = n2 := by
    rw [Nat.zero_add, ← hA]
    have := byteAt_append_length A (B ++ [0]) 0
    rw [Nat.add_zero] at this
    rw [this, b0]
  have c1 : byteAt (A ++ (B ++ [0])) (0 + (n1 + 1) + 1) = underscore := by
    rw [Nat.zero_add, ← hA, byteAt_append_length A (B ++ [0]) 1, b1]
  have cA : copyLabel (A ++ (B ++ [0])) 0 n1 = A := copyLabel_prefix A (B ++ [0]) n1 hA.symm
  have cB : copyLabel (A ++ (B ++ [0])) (0 + (n1 + 1)) n2 = B := by
    rw [Nat.zero_add, ← hA]
    have := copyLabel_append A (B ++ [0]) 0 n2
    rw [Nat.add_zero] at this
    rw [this]
    exact copyLabel_prefix B [0] n2 hB.symm
  unfold ExtractServiceType
  dsimp only
  rw [e]
  have a1' : byteAt (A ++ (B ++ [0])) (0 + 1) = underscore := a1
  have hsrc : (if byteAt (A ++ (B ++ [0])) (0 + 1) ≠ underscore then 0 + (1 + n1) else 0) = 0 := by
    rw [a1']
    exact if_neg (not_not.2 rfl)
  rw [a0, if_neg h1, hsrc, a0, a1']
  have g1 : ¬ (n1 = 0 ∨ n1 ≥ 0x40 ∨ underscore ≠ underscore) := by
    rintro (h | h | h)
    · exact h1 (Or.inl h)
    · exact h1 (Or.inr h)
    · exact h rfl
  have g2 : ¬ (n2 = 0 ∨ n2 ≥ 0x40 ∨ underscore ≠ underscore) := by
    rintro (h | h | h)
    · exact h2 (Or.inl h)
    · exact h2 (Or.inr h)
    · exact h rfl
  rw [if_neg g1, c0, c1, if_neg g2, cA, cB, e]

/-- C26. `ExtractServiceType` is idempotent on its own result: when it succeeds
on a name with the service type `s`, it succeeds on `s` and gives `s`. -/
theorem ExtractServiceType_idempotent (n s : domainname) (h : ExtractServiceType n = some s) :
    ExtractServiceType s = some s := by
  unfold ExtractServiceType at h
  dsimp only at h
  by_cases h0 : byteAt n.c 0 = 0 ∨ byteAt n.c 0 ≥ 0x40
  · rw [if_pos h0] at h
    exact Option.noConfusion h
  rw [if_neg h0] at h
  generalize (if byteAt n.c (0 + 1) ≠ underscore then 0 + (1 + byteAt n.c 0) else 0) = src1 at h
  by_cases h1 : byteAt n.c src1 = 0 ∨ byteAt n.c src1 ≥ 0x40 ∨
      byteAt n.c (src1 + 1) ≠ underscore
  · rw [if_pos h1] at h
    exact Option.noConfusion h
  rw [if_neg h1] at h
  by_cases h2 : byteAt n.c (src1 + (byteAt n.c src1 + 1)) = 0 ∨
      byteAt n.c (src1 + (byteAt n.c src1 + 1)) ≥ 0x40 ∨
      byteAt n.c (src1 + (byteAt n.c src1 + 1) + 1) ≠ underscore
  · rw [if_pos h2] at h
    exact Option.noConfusion h
  rw [if_neg h2] at h
  simp only [Option.some.injEq] at h
  rw [← h]
  simp only [not_or, not_not] at h1 h2
  obtain ⟨h1a, h1b, h1c⟩ := h1
  obtain ⟨h2a, h2b, h2c⟩ := h2
  have p1 : 1 ≤ byteAt n.c src1 := Nat.one_le_iff_ne_zero.2 h1a
  have p2 : 1 ≤ byteAt n.c (src1 + (byteAt n.c src1 + 1)) := Nat.one_le_iff_ne_zero.2 h2a
  refine ExtractServiceType_labels_self _ _ (byteAt n.c src1)
    (byteAt n.c (src1 + (byteAt n.c src1 + 1))) (length_copyLabel _ _ _) (length_copyLabel _ _ _)
    ?_ ?_ ?_ ?_ ?_ ?_
  · rw [byteAt_copyLabel _ _ _ _ 0 (Nat.zero_le _), Nat.add_zero]
  · rw [byteAt_copyLabel _ _ _ _ 1 p1, h1c]
  · rw [byteAt_copyLabel _ _ _ _ 0 (Nat.zero_le _), Nat.add_zero]
  · rw [byteAt_copyLabel _ _ _ _ 1 p2, h2c]
  · rintro (h | h)
    · exact h1a h
    · exact h1b h
  · rintro (h | h)
    · exact h2a h
    · exact h2b h

/-- C26 at `_http._tcp.local.`: the service type is `_http._tcp.`, and
`ExtractServiceType` maps `_http._tcp.` to itself. -/
theorem ExtractServiceType_idempotent_witness :
    ExtractServiceType name_http_tcp_local = some name_http_tcp ∧
    ExtractServiceType name_http_tcp = some name_http_tcp :=
  ⟨by decide, ExtractServiceType_idempotent name_http_tcp_local name_http_tcp (by decide)⟩

/-! ## Properties of every host of the registries -/

theorem AllHosts_modifyHost (P : HostEntry → Prop) (σ : State) (f : HostEntry → HostEntry)
    (r : HostRef) (hf : ∀ e, P e → P (f e)) (h : σ.AllHosts P) :
    (σ.modifyHost f r).AllHosts P := by
  cases r with
  | v4 i => exact ⟨all_modifyAt _ f _ i hf h.1, h.2⟩
  | v6 i => exact ⟨h.1, all_modifyAt _ f _ i hf h.2⟩

theorem GotPacketInList_all (P : HostEntry → Prop) (hnew : ∀ addr, P (newHostEntry addr))
    (hpk : ∀ e t, P e → P { e with pkts := bumpAt e.pkts t })
    (reallocOk : Bool) (addr : mDNSAddr) (t id : Nat) (list : HostList)
    (h : ∀ e ∈ list.hosts, P e) :
    ∀ e ∈ (GotPacketInList reallocOk addr t id list).1.hosts, P e := by
  have hadd : ∀ e ∈ (AddHost reallocOk addr list).1.hosts, P e := by
    intro e he
    unfold AddHost at he
    split_ifs at he
    · simp only [List.mem_append, List.mem_singleton] at he
      rcases he with he | rfl
      · exact h e he
      · exact hnew addr
    · exact h e he
    · simp only [List.mem_append, List.mem_singleton] at he
      rcases he with he | rfl
      · exact h e he
      · exact hnew addr
  unfold GotPacketInList
  cases hf : FindHost addr list with
  | some i =>
    simp only []
    split_ifs
    · exact all_modifyAt _ _ _ i (fun e he => hpk e t he) h
    · exact h
  | none =>
    simp only []
    cases ha : (AddHost reallocOk addr list).2 with
    | none => exact hadd
    | some i =>
      simp only []
      split_ifs
      · exact all_modifyAt _ _ _ i (fun e he => hpk e t he) hadd
      · exact hadd

theorem AllHosts_GotPacketFromHost (P : HostEntry → Prop)
    (hnew : ∀ addr, P (newHostEntry addr))
    (hpk : ∀ e t, P e → P { e with pkts := bumpAt e.pkts t })
    (σ : State) (reallocOk : Bool) (addr : mDNSAddr) (t id : Nat) (h : σ.AllHosts P) :
    (GotPacketFromHost σ reallocOk addr t id).1.AllHosts P := by
  unfold GotPacketFromHost
  split_ifs
  · exact h
  · exact ⟨GotPacketInList_all P hnew hpk reallocOk addr t id _ h.1, h.2⟩
  · exact ⟨h.1, GotPacketInList_all P hnew hpk reallocOk addr t id _ h.2⟩

theorem AllHosts_recordstat (P : HostEntry → Prop) (hcount : ∀ e slot, P e → P (e.count slot))
    (σ σ1 : State) (mallocOk : Bool) (entry : Option HostRef)
    (fqdn : domainname) (op : Int) (rrtype : Nat)
    (hr : recordstat σ mallocOk entry fqdn op rrtype = some σ1) (h : σ.AllHosts P) :
    σ1.AllHosts P := by
  unfold recordstat at hr
  cases hg : recordstatOp op rrtype with
  | none =>
    simp only [hg, Option.some.injEq] at hr
    exact hr ▸ h
  | some slot =>
    cases ht : ExtractServiceType fqdn with
    | none =>
      simp only [hg, ht, Option.some.injEq] at hr
      exact hr ▸ h
    | some t =>
      simp only [hg, ht] at hr
      split_ifs at hr
      have hi : State.AllHosts P ({ σ with stats := statsCount t slot σ.stats } : State) := h
      cases entry with
      | none =>
        simp only [Option.some.injEq] at hr
        exact hr ▸ hi
      | some r =>
        simp only [Option.some.injEq] at hr
        exact hr ▸ AllHosts_modifyHost P _ _ r (fun e he => hcount e slot he) hi

theorem AllHosts_analyse (P : HostEntry → Prop)
    (hanalyse : ∀ e timenow one iface, P e → P (AnalyseHost timenow one e iface).1)
    (σ : State) (timenow : Int) (InterfaceID : Nat) (entry : Option HostRef)
    (h : σ.AllHosts P) : (σ.analyse timenow InterfaceID entry).AllHosts P := by
  cases entry with
  | none => exact h
  | some r =>
    cases he : σ.host? r with
    | none =>
      simp only [State.analyse, he]
      exact h
    | some e =>
      have hP : P e := by
        cases r with
        | v4 i => exact h.1 e (List.getElem?_mem he)
        | v6 i => exact h.2 e (List.getElem?_mem he)
      have hm : (σ.modifyHost
          (fun _ => (AnalyseHost timenow σ.mDNSPlatformOneSecond e InterfaceID).1) r).AllHosts P :=
        AllHosts_modifyHost P σ _ r (fun _ _ => hanalyse e timenow _ InterfaceID hP) h
      simp only [State.analyse, he]
      cases (AnalyseHost timenow σ.mDNSPlatformOneSecond e InterfaceID).2 with
      | none => exact hm
      | some q => exact hm

/-- A property of host entries that holds for a new entry and is kept by the
count of a packet, by the count of an operation, by `RecordHostInfo` and by
`AnalyseHost` holds for every host in every state that the capture loop
reaches. -/
theorem AllHosts_run (P : HostEntry → Prop) (hnew : ∀ addr, P (newHostEntry addr))
    (hpk : ∀ e t, P e → P { e with pkts := bumpAt e.pkts t })
    (hcount : ∀ e slot, P e → P (e.count slot))
    (hinfo : ∀ e rr, P e → P (RecordHostInfo e rr))
    (hanalyse : ∀ e timenow one iface, P e → P (AnalyseHost timenow one e iface).1)
    (pkts : List Packet) (σ σ1 : State) (hr : run σ pkts = some σ1) (h : σ.AllHosts P) :
    σ1.AllHosts P := by
  refine run_invariant (State.AllHosts P) (fun _ => True) ?_ ?_ pkts (fun _ _ => trivial)
    σ σ1 hr h
  · intro s reallocOk addr t id hs
    exact AllHosts_GotPacketFromHost P hnew hpk s reallocOk addr t id hs
  · intro pkt entry s s1 _ st hs
    cases st with
    | tally _ hc =>
      unfold State.sameCore at hc
      rw [hc]
      exact hs
    | count _ fqdn op rrtype hop hrs =>
      exact AllHosts_recordstat P hcount s s1 _ entry fqdn op rrtype hrs hs
    | info rr hrr =>
      cases entry with
      | none => exact hs
      | some r => exact AllHosts_modifyHost P s _ r (fun e he => hinfo e rr he) hs
    | analyse => exact AllHosts_analyse P hanalyse s _ _ entry hs

/-! ## Every host has a reverse name -/

set_option maxRecDepth 100000 in
theorem decimal_nonempty (b : Fin 256) : 1 ≤ (decimal b.val).length := by
  revert b
  decide

theorem revnameOf_nonempty (addr : mDNSAddr) : byteAt (revnameOf addr).c 0 ≠ 0 := by
  cases addr with
  | v4 b0 b1 b2 b3 =>
    rw [revnameOf_v4]
    have h := decimal_nonempty b3
    simp only [reverseLabels_v4, nameOfLabels, List.map_cons, List.flatten_cons, labelBytes,
      List.cons_append, byteAt, List.getD_cons_zero]
    omega
  | v6 b =>
    rw [revnameOf_v6]
    have e : reverseLabels_v6 b = hexLabel ((b.getD (15 - 0) 0).val % 16) ::
        (reverseLabels_v6 b).tail := rfl
    rw [e]
    simp [nameOfLabels, labelBytes, hexLabel, byteAt]

/-- Every host entry of every state that the capture loop reaches from the
initial state has a reverse name. -/
theorem revname_nonempty_run (Filters : List mDNSAddr) (FilterInterface : Int)
    (AddressType : Nat) (OneSecond : Int) (pkts : List Packet) (σ : State)
    (hr : run (initState Filters FilterInterface AddressType OneSecond) pkts = some σ) :
    σ.AllHosts fun e => byteAt e.revname.c 0 ≠ 0 := by
  refine AllHosts_run (fun e => byteAt e.revname.c 0 ≠ 0) ?_ ?_ ?_ ?_ ?_ pkts _ σ hr ?_
  · intro addr
    exact revnameOf_nonempty addr
  · intro e t he
    exact he
  · intro e slot he
    exact he
  · intro e rr he
    have : (RecordHostInfo e rr).revname = e.revname := by
      unfold RecordHostInfo
      dsimp only
      split_ifs <;> rfl
    rw [this]
    exact he
  · intro e timenow one iface he
    have : (AnalyseHost timenow one e iface).1.revname = e.revname := by
      unfold AnalyseHost SendUnicastQuery
      dsimp only
      split_ifs <;> rfl
    rw [this]
    exact he
  · exact ⟨fun e he => absurd he (List.not_mem_nil e),
      fun e he => absurd he (List.not_mem_nil e)⟩

/-! ## `LastQuery` is written before it is read -/

theorem RecordHostInfo_Asked (e : HostEntry) (rr : ResourceRecord) (h : e.Asked) :
    (RecordHostInfo e rr).Asked := by
  obtain ⟨h1, h2, _⟩ := RecordHostInfo_queries e rr
  unfold HostEntry.Asked at h ⊢
  rw [h2]
  rcases h1 with h1 | ⟨h1, _⟩
  · rw [h1]; exact h
  · rw [h1]
    exact ⟨fun h0 => absurd rfl h0, Nat.zero_le _⟩

theorem AnalyseHost_Asked (e : HostEntry) (timenow one : Int) (iface : Nat) (h : e.Asked) :
    (AnalyseHost timenow one e iface).1.Asked := by
  unfold AnalyseHost SendUnicastQuery
  dsimp only
  by_cases h4 : e.NumQueries ≥ 4
  · rw [if_pos h4]; exact h
  · rw [if_neg h4]
    have hs : HostEntry.Asked
        { e with LastQuery := some timenow, NumQueries := e.NumQueries + 1 } :=
      ⟨fun _ => Option.some_ne_none _, by show e.NumQueries + 1 ≤ 4; omega⟩
    split_ifs <;> first | exact h | exact hs

/-- C27. `AddHost` leaves `LastQuery` unset, with `NumQueries = 0`.
`SendUnicastQuery` writes `LastQuery`. `RecordHostInfo` and `AnalyseHost` keep
the property that `LastQuery` has been written when `NumQueries` is not zero and
that `NumQueries` is at most 4. While `NumQueries` is zero, what `AnalyseHost`
sends does not depend on `LastQuery`. In every state that the capture loop
reaches from the initial state, every host entry with `NumQueries` not zero has
a written `LastQuery`, and `NumQueries` is at most 4. -/
theorem LastQuery_written_before_read (Filters : List mDNSAddr) (FilterInterface : Int)
    (AddressType : Nat) (OneSecond : Int) (pkts : List Packet) (σ : State)
    (hr : run (initState Filters FilterInterface AddressType OneSecond) pkts = some σ) :
    (∀ addr, (newHostEntry addr).LastQuery = none ∧ (newHostEntry addr).NumQueries = 0) ∧
    (∀ (timenow : Int) (e : HostEntry) (name : domainname) (rrtype iface : Nat),
      (SendUnicastQuery timenow e name rrtype iface).1.LastQuery = some timenow) ∧
    (∀ (e : HostEntry) (rr : ResourceRecord), e.Asked → (RecordHostInfo e rr).Asked) ∧
    (∀ (e : HostEntry) (timenow one : Int) (iface : Nat),
      e.Asked → (AnalyseHost timenow one e iface).1.Asked) ∧
    (∀ (e : HostEntry) (timenow one : Int) (iface : Nat) (t : Option Int),
      e.NumQueries = 0 →
      (AnalyseHost timenow one { e with LastQuery := t } iface).2 =
        (AnalyseHost timenow one e iface).2) ∧
    (∀ e ∈ σ.IPv4HostList.hosts ++ σ.IPv6HostList.hosts,
      (e.NumQueries ≠ 0 → ∃ t, e.LastQuery = some t) ∧ e.NumQueries ≤ 4) := by
  refine ⟨fun addr => ⟨rfl, rfl⟩, ?_, RecordHostInfo_Asked, AnalyseHost_Asked, ?_, ?_⟩
  · intro timenow e name rrtype iface
    unfold SendUnicastQuery
    dsimp only
    split_ifs <;> rfl
  · intro e timenow one iface t h0
    unfold AnalyseHost SendUnicastQuery
    dsimp only
    have h4 : ¬ e.NumQueries ≥ 4 := by omega
    have hn : ¬ (e.NumQueries ≠ 0 ∧ sub32 timenow (t.getD 0) < one) := fun h => h.1 h0
    have hn1 : ¬ (e.NumQueries ≠ 0 ∧ sub32 timenow (e.LastQuery.getD 0) < one) :=
      fun h => h.1 h0
    rw [if_neg h4, if_neg hn, if_neg hn1]
    split_ifs <;> rfl
  · have hall : σ.AllHosts HostEntry.Asked := by
      refine AllHosts_run HostEntry.Asked ?_ ?_ ?_ RecordHostInfo_Asked AnalyseHost_Asked pkts
        _ σ hr ?_
      · intro addr
        exact ⟨fun h0 => absurd rfl h0, Nat.zero_le _⟩
      · intro e t he
        exact he
      · intro e slot he
        exact he
      · exact ⟨fun e he => absurd he (List.not_mem_nil e),
          fun e he => absurd he (List.not_mem_nil e)⟩
    intro e he
    have ha : e.Asked := by
      rcases List.mem_append.1 he with h | h
      · exact hall.1 e h
      · exact hall.2 e h
    refine ⟨fun h0 => ?_, ha.2⟩
    cases hl : e.LastQuery with
    | none => exact absurd hl (ha.1 h0)
    | some t => exact ⟨t, rfl⟩

/-- C27 at a capture of two browse queries of 192.168.1.10, at times 5000 and
7000: the host has been sent two queries, the last one at time 7000. -/
theorem LastQuery_written_before_read_witness :
    ∃ σ, run state0 [pktBrowseAt 5000, pktBrowseAt 7000] = some σ ∧
      (σ.IPv4HostList.hosts ++ σ.IPv6HostList.hosts).map
        (fun e => (e.NumQueries, e.LastQuery)) = [(2, some 7000)] ∧
      ∀ e ∈ σ.IPv4HostList.hosts ++ σ.IPv6HostList.hosts,
        (e.NumQueries ≠ 0 → ∃ t, e.LastQuery = some t) ∧ e.NumQueries ≤ 4 :=
  ⟨(run state0 [pktBrowseAt 5000, pktBrowseAt 7000]).get (by decide), by simp, by decide,
    (LastQuery_written_before_read [] 0 mDNSAddrType_IPv4 1000
      [pktBrowseAt 5000, pktBrowseAt 7000] _ (by simp [state0])).2.2.2.2.2⟩

/-! ## One browse query in an empty capture -/

theorem map_counters_modifyAt (f : HostEntry → HostEntry) (l : List HostEntry) (i : Nat)
    (hf : ∀ x, l[i]? = some x → (f x).counters = x.counters) :
    (modifyAt f l i).map HostEntry.counters = l.map HostEntry.counters := by
  induction l generalizing i with
  | nil => rfl
  | cons x xs ih =>
    cases i with
    | zero =>
      simp only [modifyAt, List.map_cons]
      rw [hf x (by simp)]
    | succ i =>
      simp only [modifyAt, List.map_cons]
      rw [ih i (fun y hy => hf y (by simpa using hy))]

theorem AnalyseHost_keeps_counters (timenow OneSecond : Int) (entry : HostEntry)
    (InterfaceID : Nat) :
    (AnalyseHost timenow OneSecond entry InterfaceID).1.counters = entry.counters := by
  unfold AnalyseHost SendUnicastQuery HostEntry.counters
  dsimp only
  split_ifs <;> rfl

theorem counters_analyse (σ : State) (timenow : Int) (InterfaceID : Nat)
    (entry : Option HostRef) :
    (σ.analyse timenow InterfaceID entry).IPv4HostList.hosts.map HostEntry.counters =
      σ.IPv4HostList.hosts.map HostEntry.counters ∧
    (σ.analyse timenow InterfaceID entry).IPv6HostList.hosts.map HostEntry.counters =
      σ.IPv6HostList.hosts.map HostEntry.counters := by
  cases entry with
  | none => exact ⟨rfl, rfl⟩
  | some r =>
    cases he : σ.host? r with
    | none =>
      simp only [State.analyse, he]
      exact ⟨trivial, trivial⟩
    | some e =>
      have hm : (σ.modifyHost
            (fun _ => (AnalyseHost timenow σ.mDNSPlatformOneSecond e InterfaceID).1)
            r).IPv4HostList.hosts.map HostEntry.counters =
            σ.IPv4HostList.hosts.map HostEntry.counters ∧
          (σ.modifyHost
            (fun _ => (AnalyseHost timenow σ.mDNSPlatformOneSecond e InterfaceID).1)
            r).IPv6HostList.hosts.map HostEntry.counters =
            σ.IPv6HostList.hosts.map HostEntry.counters := by
        cases r with
        | v4 i =>
          refine ⟨map_counters_modifyAt _ _ i ?_, rfl⟩
          intro x hx
          have : x = e := Option.some.inj (hx.symm.trans he)
          rw [this]
          exact AnalyseHost_keeps_counters _ _ _ _
        | v6 i =>
          refine ⟨rfl, map_counters_modifyAt _ _ i ?_⟩
          intro x hx
          have : x = e := Option.some.inj (hx.symm.trans he)
          rw [this]
          exact AnalyseHost_keeps_counters _ _ _ _
      simp only [State.analyse, he]
      cases (AnalyseHost timenow σ.mDNSPlatformOneSecond e InterfaceID).2 with
      | none => exact hm
      | some q => exact hm

theorem FindUpdate_no_authorities (pkt : Packet) (auths : List ResourceRecord) (q : DNSQuestion)
    (h : pkt.msg.numAuthorities = 0) : FindUpdate pkt auths q = none := by
  unfold FindUpdate
  rw [h]
  cases auths <;> rfl

theorem recordstat_first_browse (σ : State) (entry : Option HostRef) (h : σ.stats = []) :
    recordstat σ true entry name_http_tcp_local OP_query kDNSType_PTR =
      some (match entry with
        | none => { σ with stats := [{ srvtype := name_http_tcp, printed := 0, totalops := 1,
                                       stat := [0, 0, 1, 0, 0, 0] }] }
        | some r => State.modifyHost
            { σ with stats := [{ srvtype := name_http_tcp, printed := 0, totalops := 1,
                                 stat := [0, 0, 1, 0, 0, 0] }] }
            (fun e => e.count 2) r) := by
  have e1 : recordstatOp OP_query kDNSType_PTR = some 2 := by decide
  have e2 : ExtractServiceType name_http_tcp_local = some name_http_tcp := by decide
  have e3 : statsCount name_http_tcp 2 [] =
      [{ srvtype := name_http_tcp, printed := 0, totalops := 1,
         stat := [0, 0, 1, 0, 0, 0] }] := by decide
  unfold recordstat
  simp only [e1, e2, h, e3, Bool.true_eq_false, and_false, if_false]
  cases entry <;> rfl

theorem tallies_modifyHost (σ : State) (f : HostEntry → HostEntry) (r : HostRef) :
    (σ.modifyHost f r).NumPktQ = σ.NumPktQ ∧ (σ.modifyHost f r).NumQuestions = σ.NumQuestions ∧
    (σ.modifyHost f r).NumProbes = σ.NumProbes ∧ (σ.modifyHost f r).NumLegacy = σ.NumLegacy := by
  cases r <;> exact ⟨rfl, rfl, rfl, rfl⟩

theorem tallies_analyse (σ : State) (timenow : Int) (InterfaceID : Nat)
    (entry : Option HostRef) :
    (σ.analyse timenow InterfaceID entry).NumPktQ = σ.NumPktQ ∧
    (σ.analyse timenow InterfaceID entry).NumQuestions = σ.NumQuestions ∧
    (σ.analyse timenow InterfaceID entry).NumProbes = σ.NumProbes ∧
    (σ.analyse timenow InterfaceID entry).NumLegacy = σ.NumLegacy := by
  cases entry with
  | none => exact ⟨rfl, rfl, rfl, rfl⟩
  | some r =>
    simp only [State.analyse]
    cases σ.host? r with
    | none => exact ⟨rfl, rfl, rfl, rfl⟩
    | some e =>
      simp only []
      cases (AnalyseHost timenow σ.mDNSPlatformOneSecond e InterfaceID).2 with
      | none => exact tallies_modifyHost _ _ _
      | some q => exact tallies_modifyHost _ _ _

theorem DisplayQuery_one_browse (σ0 : State) (pkt : Packet) (q : DNSQuestion)
    (hport : pkt.srcport = MulticastDNSPort) (hid : pkt.msg.id ≠ 0xFFFF)
    (hnq : pkt.msg.numQuestions = 1) (hqs : pkt.msg.questions = [q])
    (hname : q.qname = name_http_tcp_local) (htype : q.qtype = kDNSType_PTR)
    (hna : pkt.msg.numAnswers = 0) (hnu : pkt.msg.numAuthorities = 0)
    (hnd : pkt.msg.numAdditionals = 0) (hma : pkt.mallocOk = true) (σ2 : State)
    (hrec : recordstat
      { DisplayQuery_start σ0 pkt with
        NumQuestions := (DisplayQuery_start σ0 pkt).NumQuestions + 1 }
      true (DisplayQuery_entry σ0 pkt) name_http_tcp_local OP_query kDNSType_PTR = some σ2) :
    DisplayQuery σ0 pkt =
      some (σ2.analyse pkt.timenow pkt.InterfaceID (DisplayQuery_entry σ0 pkt)) := by
  have hl : DisplayQuery_questions pkt (DisplayQuery_entry σ0 pkt) 1 0
      (DisplayQuery_start σ0 pkt) pkt.msg.authorities = .next (σ2, pkt.msg.authorities) := by
    simp only [DisplayQuery_questions, hqs, List.getElem?_cons_zero,
      FindUpdate_no_authorities _ _ _ hnu, hport, if_true, hname, htype, hma, ne_eq, hid,
      not_false_eq_true, hrec]
  rw [DisplayQuery_eq, hnq, hna, hnu, hnd, hl]
  rfl

/-- C22. In a capture that has just started, with host tracking enabled (the
number of filters is not one), one standard query that passes the filters, sent
to the multicast group from port 5353 with an id other than 0xFFFF, with exactly
one question, for `_http._tcp.local.` and of type PTR, and no answer, authority
or additional record, leaves (allocation succeeding) exactly one `ActivityStat`,
for `_http._tcp.`, with `totalops = 1` and 1 in the browse-query slot, and
exactly one `HostEntry`, for the source address, with one query packet, no other
packet, and 1 in the browse-query slot. -/
theorem one_browse_query (Filters : List mDNSAddr) (FilterInterface : Int) (AddressType : Nat)
    (OneSecond : Int) (pkt : Packet) (q : DNSQuestion)
    (htrack : Filters.length ≠ 1)
    (hif : FilterInterface = 0 ∨ FilterInterface = pkt.ifIndex)
    (haddr : AddressMatchesFilterList
      (initState Filters FilterInterface AddressType OneSecond) pkt.srcaddr = true)
    (hdst : mDNSAddrIsDNSMulticast pkt.dstaddr = true)
    (hstd : pkt.msg.flags0 &&& kDNSFlag0_QROP_Mask = StdQ)
    (hport : pkt.srcport = MulticastDNSPort) (hid : pkt.msg.id ≠ 0xFFFF)
    (hnq : pkt.msg.numQuestions = 1) (hqs : pkt.msg.questions = [q])
    (hname : q.qname = name_http_tcp_local) (htype : q.qtype = kDNSType_PTR)
    (hna : pkt.msg.numAnswers = 0) (hnu : pkt.msg.numAuthorities = 0)
    (hnd : pkt.msg.numAdditionals = 0)
    (hre : pkt.reallocOk = true) (hma : pkt.mallocOk = true) :
    ∃ σ1, mDNSCoreReceive (initState Filters FilterInterface AddressType OneSecond) pkt
        = some σ1 ∧
      σ1.stats = [{ srvtype := name_http_tcp, printed := 0, totalops := 1,
                    stat := [0, 0, 1, 0, 0, 0] }] ∧
      (σ1.IPv4HostList.hosts ++ σ1.IPv6HostList.hosts).map HostEntry.counters =
        [(pkt.srcaddr, [1, 0, 0, 0], 1, [0, 0, 1, 0, 0, 0])] ∧
      σ1.NumPktQ = 1 ∧ σ1.NumQuestions = 1 ∧ σ1.NumProbes = 0 ∧ σ1.NumLegacy = 0 := by
  have hrecv : mDNSCoreReceive (initState Filters FilterInterface AddressType OneSecond) pkt =
      DisplayQuery (initState Filters FilterInterface AddressType OneSecond) pkt := by
    unfold mDNSCoreReceive
    dsimp only
    rw [if_pos ⟨hif, haddr⟩, hdst, if_neg (by decide), if_pos hstd]
  have hfind : ∀ addr, FindHost addr { max := 0, hosts := [] } = none := fun _ => rfl
  have hcnt : ∀ addr : mDNSAddr,
      (HostEntry.count ((newHostEntry addr).gotPacket HostPkt_Q pkt.msg.id) 2).counters =
        (addr, [1, 0, 0, 0], 1, [0, 0, 1, 0, 0, 0]) := by
    intro addr
    unfold HostEntry.gotPacket
    rw [if_pos hid]
    rfl
  obtain ⟨g4, g6⟩ := GotPacketFromHost_tracking
    (initState Filters FilterInterface AddressType OneSecond) pkt.reallocOk pkt.srcaddr
    HostPkt_Q pkt.msg.id htrack
  have hE : DisplayQuery_entry (initState Filters FilterInterface AddressType OneSecond) pkt =
      (GotPacketFromHost (initState Filters FilterInterface AddressType OneSecond)
        pkt.reallocOk pkt.srcaddr HostPkt_Q pkt.msg.id).2 := by
    unfold DisplayQuery_entry
    rw [if_pos hport]
  have hS : DisplayQuery_start (initState Filters FilterInterface AddressType OneSecond) pkt =
      { (GotPacketFromHost (initState Filters FilterInterface AddressType OneSecond)
          pkt.reallocOk pkt.srcaddr HostPkt_Q pkt.msg.id).1 with
        NumPktQ := (GotPacketFromHost (initState Filters FilterInterface AddressType OneSecond)
          pkt.reallocOk pkt.srcaddr HostPkt_Q pkt.msg.id).1.NumPktQ + 1 } := by
    unfold DisplayQuery_start
    dsimp only
    rw [if_pos hport, if_pos hid, if_pos hport]
  rw [hrecv]
  by_cases h4 : pkt.srcaddr.type = mDNSAddrType_IPv4
  · obtain ⟨a1, _, a3⟩ := GotPacketInList_added pkt.reallocOk pkt.srcaddr HostPkt_Q pkt.msg.id
      { max := 0, hosts := [] } (hfind _) (Or.inr hre)
    have hg := g4 h4
    rw [hg] at hE hS
    have hE1 : DisplayQuery_entry (initState Filters FilterInterface AddressType OneSecond) pkt
        = some (HostRef.v4 0) := by
      rw [hE]
      show Option.map HostRef.v4 (GotPacketInList pkt.reallocOk pkt.srcaddr HostPkt_Q pkt.msg.id
        { max := 0, hosts := [] }).2 = _
      rw [a1]
      rfl
    have hrec := recordstat_first_browse
      { DisplayQuery_start (initState Filters FilterInterface AddressType OneSecond) pkt with
        NumQuestions :=
          (DisplayQuery_start (initState Filters FilterInterface AddressType OneSecond)
            pkt).NumQuestions + 1 }
      (DisplayQuery_entry (initState Filters FilterInterface AddressType OneSecond) pkt)
      (by rw [hS]; rfl)
    rw [DisplayQuery_one_browse _ pkt q hport hid hnq hqs hname htype hna hnu hnd hma _ hrec]
    refine ⟨_, rfl, ?_, ?_, ?_, ?_, ?_, ?_⟩
    · rw [stats_analyse, hE1]
      exact stats_modifyHost _ _ _
    · rw [List.map_append, (counters_analyse _ _ _ _).1, (counters_analyse _ _ _ _).2, hE1, hS]
      show List.map HostEntry.counters
          (modifyAt (fun e => e.count 2)
            (GotPacketInList pkt.reallocOk pkt.srcaddr HostPkt_Q pkt.msg.id
              { max := 0, hosts := [] }).1.hosts 0) ++ List.map HostEntry.counters [] = _
      rw [a3]
      show [(HostEntry.count ((newHostEntry pkt.srcaddr).gotPacket HostPkt_Q pkt.msg.id)
        2).counters] ++ [] = _
      rw [hcnt]
      rfl
    · rw [(tallies_analyse _ _ _ _).1, hE1, hS]
      rfl
    · rw [(tallies_analyse _ _ _ _).2.1, hE1, hS]
      rfl
    · rw [(tallies_analyse _ _ _ _).2.2.1, hE1, hS]
      rfl
    · rw [(tallies_analyse _ _ _ _).2.2.2, hE1, hS]
      rfl
  · obtain ⟨a1, _, a3⟩ := GotPacketInList_added pkt.reallocOk pkt.srcaddr HostPkt_Q pkt.msg.id
      { max := 0, hosts := [] } (hfind _) (Or.inr hre)
    have hg := g6 h4
    rw [hg] at hE hS
    have hE1 : DisplayQuery_entry (initState Filters FilterInterface AddressType OneSecond) pkt
        = some (HostRef.v6 0) := by
      rw [hE]
      show Option.map HostRef.v6 (GotPacketInList pkt.reallocOk pkt.srcaddr HostPkt_Q pkt.msg.id
        { max := 0, hosts := [] }).2 = _
      rw [a1]
      rfl
    have hrec := recordstat_first_browse
      { DisplayQuery_start (initState Filters FilterInterface AddressType OneSecond) pkt with
        NumQuestions :=
          (DisplayQuery_start (initState Filters FilterInterface AddressType OneSecond)
            pkt).NumQuestions + 1 }
      (DisplayQuery_entry (initState Filters FilterInterface AddressType OneSecond) pkt)
      (by rw [hS]; rfl)
    rw [DisplayQuery_one_browse _ pkt q hport hid hnq hqs hname htype hna hnu hnd hma _ hrec]
    refine ⟨_, rfl, ?_, ?_, ?_, ?_, ?_, ?_⟩
    · rw [stats_analyse, hE1]
      exact stats_modifyHost _ _ _
    · rw [List.map_append, (counters_analyse _ _ _ _).1, (counters_analyse _ _ _ _).2, hE1, hS]
      show List.map HostEntry.counters [] ++ List.map HostEntry.counters
          (modifyAt (fun e => e.count 2)
            (GotPacketInList pkt.reallocOk pkt.srcaddr HostPkt_Q pkt.msg.id
              { max := 0, hosts := [] }).1.hosts 0) = _
      rw [a3]
      show [] ++ [(HostEntry.count ((newHostEntry pkt.srcaddr).gotPacket HostPkt_Q pkt.msg.id)
        2).counters] = _
      rw [hcnt]
      rfl
    · rw [(tallies_analyse _ _ _ _).1, hE1, hS]
      rfl
    · rw [(tallies_analyse _ _ _ _).2.1, hE1, hS]
      rfl
    · rw [(tallies_analyse _ _ _ _).2.2.1, hE1, hS]
      rfl
    · rw [(tallies_analyse _ _ _ _).2.2.2, hE1, hS]
      rfl

/-- C22 at the browse query of 192.168.1.10 in the capture `state0`. -/
theorem one_browse_query_witness :
    ∃ σ1, mDNSCoreReceive state0 pktBrowse = some σ1 ∧
      σ1.stats = [{ srvtype := name_http_tcp, printed := 0, totalops := 1,
                    stat := [0, 0, 1, 0, 0, 0] }] ∧
      (σ1.IPv4HostList.hosts ++ σ1.IPv6HostList.hosts).map HostEntry.counters =
        [(addrA, [1, 0, 0, 0], 1, [0, 0, 1, 0, 0, 0])] ∧
      σ1.NumPktQ = 1 ∧ σ1.NumQuestions = 1 ∧ σ1.NumProbes = 0 ∧ σ1.NumLegacy = 0 :=
  one_browse_query [] 0 mDNSAddrType_IPv4 1000 pktBrowse
    { qname := name_http_tcp_local, qtype := kDNSType_PTR, qclass := 1 }
    (by decide) (Or.inl rfl) (by decide) (by decide) (by decide) rfl (by decide) rfl rfl rfl rfl
    rfl rfl rfl rfl rfl

/-! ## Probes -/

theorem FindUpdateFrom_some (f : ResourceRecord → DNSQuestion → Bool) (q : DNSQuestion)
    (l : List ResourceRecord) (n i j : Nat) (rr : ResourceRecord)
    (h : FindUpdateFrom f q l n i = some (j, rr)) :
    i ≤ j ∧ j - i < n ∧ l[j - i]? = some rr ∧ f rr q = true := by
  induction l generalizing n i with
  | nil => cases n <;> exact Option.noConfusion h
  | cons x xs ih =>
    cases n with
    | zero => exact Option.noConfusion h
    | succ n =>
      simp only [FindUpdateFrom] at h
      by_cases hx : f x q = true
      · rw [if_pos hx] at h
        simp only [Option.some.injEq, Prod.mk.injEq] at h
        obtain ⟨rfl, rfl⟩ := h
        refine ⟨Nat.le_refl _, by omega, ?_, hx⟩
        rw [Nat.sub_self]
        exact List.getElem?_cons_zero
      · rw [if_neg hx] at h
        obtain ⟨h1, h2, h3, h4⟩ := ih n (i + 1) h
        refine ⟨by omega, by omega, ?_, h4⟩
        have : j - i = (j - (i + 1)) + 1 := by omega
        rw [this, List.getElem?_cons_succ]
        exact h3

theorem FindUpdate_some (pkt : Packet) (auths : List ResourceRecord) (q : DNSQuestion) (j : Nat)
    (rr : ResourceRecord) (h : FindUpdate pkt auths q = some (j, rr)) :
    j < pkt.msg.numAuthorities ∧ auths[j]? = some rr ∧
    pkt.ResourceRecordAnswersQuestion rr q = true := by
  obtain ⟨_, h2, h3, h4⟩ := FindUpdateFrom_some _ q auths _ 0 j rr h
  rw [Nat.sub_zero] at h2 h3
  exact ⟨h2, h3, h4⟩

theorem getElem?_zeroTypeClass (l : List ResourceRecord) (j k : Nat) :
    (zeroTypeClass l j)[k]? =
      if k = j then (l[k]?).map fun rr => { rr with rrtype := 0, rrclass := 0, unique := false }
      else l[k]? := by
  induction l generalizing j k with
  | nil => simp [zeroTypeClass]
  | cons x xs ih =>
    cases j with
    | zero => cases k <;> simp [zeroTypeClass]
    | succ j => cases k <;> simp [zeroTypeClass, ih]

theorem zeroed_zeroTypeClass (l : List ResourceRecord) (j k : Nat) (r : ResourceRecord)
    (h : l[k]? = some r) (hz : r.zeroed) :
    ∃ r1, (zeroTypeClass l j)[k]? = some r1 ∧ r1.zeroed := by
  rw [getElem?_zeroTypeClass, h]
  by_cases hk : k = j
  · rw [if_pos hk]
    exact ⟨_, rfl, rfl, rfl⟩
  · rw [if_neg hk]
    exact ⟨r, rfl, hz⟩

theorem zeroed_DisplayQuery_questions (pkt : Packet) (entry : Option HostRef) (k : Nat) (n i : Nat)
    (σ : State) (auths : List ResourceRecord) (qa : State × List ResourceRecord)
    (h : DisplayQuery_questions pkt entry n i σ auths = .next qa)
    (hz : ∃ r, auths[k]? = some r ∧ r.zeroed) : ∃ r, qa.2[k]? = some r ∧ r.zeroed := by
  induction n generalizing i σ auths with
  | zero =>
    simp only [DisplayQuery_questions, Flow.next.injEq] at h
    rw [← h]
    exact hz
  | succ n ih =>
    simp only [DisplayQuery_questions] at h
    cases hq : pkt.msg.questions[i]? with
    | none => rw [hq] at h; exact Flow.noConfusion h
    | some q0 =>
      rw [hq] at h
      simp only [] at h
      cases hf : FindUpdate pkt auths { q0 with qclass := q0.qclass &&& 0x7FFF } with
      | some jr =>
        rw [hf] at h
        simp only [] at h
        cases hr : recordstat
            (State.display { σ with NumProbes := σ.NumProbes + 1 }
              (if q0.qclass &&& kDNSQClass_UnicastResponse ≠ 0 then DisplayTag.PU
                else DisplayTag.PM) jr.2) pkt.mallocOk entry q0.qname OP_probe q0.qtype with
        | none => rw [hr] at h; exact Flow.noConfusion h
        | some σ3 =>
          rw [hr] at h
          obtain ⟨r, h1, h2⟩ := hz
          exact ih _ _ _ h (zeroed_zeroTypeClass auths jr.1 k r h1 h2)
      | none =>
        rw [hf] at h
        simp only [] at h
        cases hr : (if pkt.msg.id ≠ 0xFFFF then
            recordstat
              (if pkt.srcport = MulticastDNSPort then
                  { σ with NumQuestions := σ.NumQuestions + 1 }
                else { σ with NumLegacy := σ.NumLegacy + 1 })
              pkt.mallocOk entry q0.qname OP_query q0.qtype
          else some (if pkt.srcport = MulticastDNSPort then
                  { σ with NumQuestions := σ.NumQuestions + 1 }
                else { σ with NumLegacy := σ.NumLegacy + 1 })) with
        | none => rw [hr] at h; exact Flow.noConfusion h
        | some σ2 =>
          rw [hr] at h
          exact ih _ _ _ h hz

theorem DisplayQuery_authorities_zeroed (auths : List ResourceRecord) (k : Nat)
    (r : ResourceRecord) (h : auths[k]? = some r) (hz : r.zeroed) (n : Nat) (σ : State) :
    DisplayQuery_authorities auths (n + 1) k σ = DisplayQuery_authorities auths n (k + 1) σ := by
  have hn : ¬ (r.rrtype ≠ 0 ∨ r.rrclass ≠ 0) := by
    rintro (h1 | h1)
    · exact h1 hz.1
    · exact h1 hz.2
  simp only [DisplayQuery_authorities, h, if_neg hn]

theorem recordstat_no_service_type (σ : State) (mallocOk : Bool) (entry : Option HostRef)
    (fqdn : domainname) (op : Int) (rrtype : Nat) (h : ExtractServiceType fqdn = none) :
    recordstat σ mallocOk entry fqdn op rrtype = some σ := by
  unfold recordstat
  cases recordstatOp op rrtype with
  | none => rfl
  | some slot => simp only [h]

/-- C23 as stated fails for a probe whose name yields no service type. The
question for `a.local.` of the query `pktProbeHost` is answered by the authority
record of the query, and `NumProbes` becomes 1; but `ExtractServiceType` fails
on `a.local.`, so `recordstat` counts nothing: no `ActivityStat` is created and
the probe slot of the host stays 0. -/
theorem probe_for_host_name_not_counted :
    FindUpdate pktProbeHost pktProbeHost.msg.authorities
      { qname := name_a_local, qtype := kDNSType_A, qclass := 1 &&& 0x7FFF }
      = some (0, rrAddrA) ∧
    ExtractServiceType name_a_local = none ∧
    (mDNSCoreReceive state0 pktProbeHost).map (fun σ => (σ.NumProbes, σ.NumQuestions))
      = some (1, 0) ∧
    (mDNSCoreReceive state0 pktProbeHost).map (fun σ => σ.stats) = some [] ∧
    (mDNSCoreReceive state0 pktProbeHost).map
      (fun σ => σ.IPv4HostList.hosts.map (fun e => (e.addr, e.totalops, e.stat)))
      = some [(addrA, 0, [0, 0, 0, 0, 0, 0])] := by
  decide

/-- C23, amended. When question `i` of a multicast query is answered by the
authority record `j` (the result of `FindUpdate`), `DisplayQuery` (allocation
succeeding) counts it as a probe: `NumProbes` increases by one, the record is
displayed with a probe tag, `NumQuestions` and `NumLegacy` are unchanged, and no
query slot changes. When the name of the question yields a service type, the
probe slot of that service type and of the host entry (if there is one)
increases by one; when it yields none, no service type and no host is counted.
The loop goes on with type and class of the authority record `j` set to zero;
they stay zero to the end of the loop over the questions, and the loop over
the authority records goes past record `j` without displaying it. -/
theorem probe_question (pkt : Packet) (entry : Option HostRef) (n i : Nat) (σ : State)
    (auths : List ResourceRecord) (q0 : DNSQuestion) (j : Nat) (rr : ResourceRecord)
    (hwf : σ.WF) (hm : pkt.mallocOk = true)
    (hq : pkt.msg.questions[i]? = some q0)
    (hf : FindUpdate pkt auths { q0 with qclass := q0.qclass &&& 0x7FFF } = some (j, rr)) :
    auths[j]? = some rr ∧ j < pkt.msg.numAuthorities ∧
    ∃ σ3, recordstat (probeTally σ q0 rr) pkt.mallocOk entry q0.qname OP_probe q0.qtype
        = some σ3 ∧
      DisplayQuery_questions pkt entry (n + 1) i σ auths =
        DisplayQuery_questions pkt entry n (i + 1) σ3 (zeroTypeClass auths j) ∧
      σ3.NumProbes = σ.NumProbes + 1 ∧ σ3.NumQuestions = σ.NumQuestions ∧
      σ3.NumLegacy = σ.NumLegacy ∧
      σ3.displayed = σ.displayed ++ [(probeTag q0, rr)] ∧
      (∀ t, ExtractServiceType q0.qname = some t →
        Counted (probeTally σ q0 rr) σ3 entry t OP_probe.toNat) ∧
      (ExtractServiceType q0.qname = none → σ3 = probeTally σ q0 rr) ∧
      (zeroTypeClass auths j)[j]? =
        some { rr with rrtype := 0, rrclass := 0, unique := false } ∧
      (∀ qa, DisplayQuery_questions pkt entry n (i + 1) σ3 (zeroTypeClass auths j) = .next qa →
        (∃ r1, qa.2[j]? = some r1 ∧ r1.rrtype = 0 ∧ r1.rrclass = 0) ∧
        ∀ (m : Nat) (s : State),
          DisplayQuery_authorities qa.2 (m + 1) j s = DisplayQuery_authorities qa.2 m (j + 1) s) := by
  obtain ⟨hj, hrr, _⟩ := FindUpdate_some pkt auths _ j rr hf
  refine ⟨hrr, hj, ?_⟩
  have hz : (zeroTypeClass auths j)[j]? =
      some { rr with rrtype := 0, rrclass := 0, unique := false } := by
    rw [getElem?_zeroTypeClass, if_pos rfl, hrr]
    rfl
  have hrest : ∀ σ3 qa,
      DisplayQuery_questions pkt entry n (i + 1) σ3 (zeroTypeClass auths j) = .next qa →
      (∃ r1, qa.2[j]? = some r1 ∧ r1.rrtype = 0 ∧ r1.rrclass = 0) ∧
      ∀ (m : Nat) (s : State),
        DisplayQuery_authorities qa.2 (m + 1) j s = DisplayQuery_authorities qa.2 m (j + 1) s := by
    intro σ3 qa hqa
    obtain ⟨r1, h1, h2⟩ := zeroed_DisplayQuery_questions pkt entry j n (i + 1) σ3 _ qa hqa
      ⟨_, hz, rfl, rfl⟩
    exact ⟨⟨r1, h1, h2.1, h2.2⟩, fun m s => DisplayQuery_authorities_zeroed qa.2 j r1 h1 h2 m s⟩
  have hloop : ∀ σ3,
      recordstat (probeTally σ q0 rr) pkt.mallocOk entry q0.qname OP_probe q0.qtype = some σ3 →
      DisplayQuery_questions pkt entry (n + 1) i σ auths =
        DisplayQuery_questions pkt entry n (i + 1) σ3 (zeroTypeClass auths j) := by
    intro σ3 h3
    unfold probeTally probeTag at h3
    simp only [DisplayQuery_questions, hq, hf, h3]
  cases ht : ExtractServiceType q0.qname with
  | none =>
    have h3 := recordstat_no_service_type (probeTally σ q0 rr) pkt.mallocOk entry q0.qname
      OP_probe q0.qtype ht
    exact ⟨_, h3, hloop _ h3, rfl, rfl, rfl, rfl, fun t h => Option.noConfusion h,
      fun _ => rfl, hz, hrest _⟩
  | some t =>
    obtain ⟨σ3, h3, hc⟩ := recordstat_counted (probeTally σ q0 rr) pkt.mallocOk entry q0.qname
      OP_probe q0.qtype OP_probe t hwf (by simp [recordstatOp]) (by decide) ht (Or.inl hm)
    have he := hc.2.2.2.2.2.2.2
    refine ⟨σ3, h3, hloop _ h3, ?_, ?_, ?_, ?_, ?_, fun h => Option.noConfusion h, hz,
      hrest _⟩
    · rw [he]; rfl
    · rw [he]; rfl
    · rw [he]; rfl
    · rw [he]; rfl
    · intro t1 h1
      have : t1 = t := (Option.some.inj h1).symm
      rw [this]
      exact hc

/-- C23, amended, at the query for `_http._tcp.local.` of type PTR with one
authority record that answers the question: the record is found, and the
capture counts one probe, no question, and 1 in the probe slot of `_http._tcp.`
and of the host; the record is displayed once, as a probe. -/
theorem probe_question_witness :
    (pktProbeService.msg.authorities[0]? = some rrHttpPtr ∧
      0 < pktProbeService.msg.numAuthorities) ∧
    (mDNSCoreReceive state0 pktProbeService).map (fun σ => (σ.NumProbes, σ.NumQuestions))
      = some (1, 0) ∧
    (mDNSCoreReceive state0 pktProbeService).map
      (fun σ => σ.stats.map (fun s => (s.srvtype, s.totalops, s.stat)))
      = some [(name_http_tcp, 1, [1, 0, 0, 0, 0, 0])] ∧
    (mDNSCoreReceive state0 pktProbeService).map
      (fun σ => σ.IPv4HostList.hosts.map (fun e => (e.addr, e.totalops, e.stat)))
      = some [(addrA, 1, [1, 0, 0, 0, 0, 0])] ∧
    (mDNSCoreReceive state0 pktProbeService).map (fun σ => σ.displayed.map (fun d => d.1))
      = some [DisplayTag.PM] :=
  ⟨⟨(probe_question pktProbeService (some (.v4 0)) 0 0
        (DisplayQuery_start state0 pktProbeService) pktProbeService.msg.authorities
        { qname := name_http_tcp_local, qtype := kDNSType_PTR, qclass := 1 } 0 rrHttpPtr
        (by decide) rfl (by decide) (by decide)).1,
      (probe_question pktProbeService (some (.v4 0)) 0 0
        (DisplayQuery_start state0 pktProbeService) pktProbeService.msg.authorities
        { qname := name_http_tcp_local, qtype := kDNSType_PTR, qclass := 1 } 0 rrHttpPtr
        (by decide) rfl (by decide) (by decide)).2.1⟩,
    by decide, by decide, by decide, by decide⟩

end NetMonitor
